import Mathlib

/-!
Stargaze testnet bootstrap: a shallow embedding of `cmd/starsd/cmd/testnet.go`.

The Go functions `InitTestnet`, `initGenFiles`, `collectGenFiles`, `writeFile`,
`docker` and `initGenesis` are translated into Lean functions.  Routines that live
outside the repository (the file system, the keyring, the module codec, the
genesis replay, the clock) are fields of environment records: the embedded code
calls them and branches on their results exactly where the Go code does.

Conventions
* Go `int` is a 64-bit two's-complement integer: arithmetic goes through `wrapInt`.
* A Go byte slice that may be `nil` (`json.RawMessage`) is an `Option`: `none` is `nil`.
* A path is the list of elements handed to `filepath.Join`, in order.
* Effects are recorded in a log (`World`), appended to only when the call succeeded.
-/

namespace Stargaze

/-! ## Machine integers and formatting -/

/-- Two's-complement wrap of a Go `int` (64 bits). -/
def wrapInt (x : Int) : Int := (x + 2 ^ 63) % 2 ^ 64 - 2 ^ 63

/-- `make([]T, n)` for a 16-byte element type (a string header, an interface value):
the runtime panics when `n` is negative or the slice would not fit in the address
space.  The bound used here is the loosest one: `16 * n` must stay below `2 ^ 63`. -/
def makeSliceOk (n : Int) : Bool := decide (0 ≤ n) && decide (16 * n < 2 ^ 63)

/-- The verb `%d` of `fmt.Sprintf` on an `int`. -/
def fmtInt (x : Int) : String := toString x

/-- The verb `%d` of `fmt.Sprintf` on a non-negative loop index. -/
def fmtIdx (i : Nat) : String := toString i

/-! ## Deployment records and the port counter (`InitTestnet`, lines 161-198) -/

/-- TestnetNode holds configuration for nodes (testnet.go, line 443). -/
structure TestnetNode where
  Name : String
  OutsidePortRange : String
  InsidePortRange : String
  APIPort : String
  GRPCPort : String
  deriving DecidableEq, Repr

/-- Line 161: `initialPort := 26656`. -/
def startPort : Int := 26656

/-- Line 162: `allocatedPorts := 4`. -/
def allocatedPorts : Int := 4

/-- Line 184: `nodeDirName := fmt.Sprintf("%s%d", nodeDirPrefix, i)`. -/
def nodeDirName (nodeDirPrefix : String) (i : Nat) : String := nodeDirPrefix ++ fmtIdx i

/-- Lines 190-196: the record built for a node from the current value of `initialPort`. -/
def mkTestnetNode (name : String) (initialPort : Int) : TestnetNode :=
  { Name := name
    OutsidePortRange := fmtInt initialPort ++ "-" ++ fmtInt (wrapInt (initialPort + 2))
    InsidePortRange := fmtInt 26656 ++ "-" ++ fmtInt (wrapInt (26656 + 2))
    APIPort := fmtInt (wrapInt (initialPort + 3))
    GRPCPort := fmtInt (wrapInt (initialPort + 4)) }

/-- Lines 189 and 198: `endPort := initialPort + allocatedPorts`, then
`initialPort = endPort + 1`. -/
def nextInitialPort (initialPort : Int) : Int :=
  let endPort := wrapInt (initialPort + allocatedPorts)
  wrapInt (endPort + 1)

/-- Value of the loop variable `initialPort` on entry to iteration `i`. -/
def initialPortAt : Nat → Int
  | 0 => startPort
  | i + 1 => nextInitialPort (initialPortAt i)

/-- The ports denoted by a range `lo-hi`, both ends included. -/
def portRange (lo hi : Int) : List Int :=
  (List.range (hi - lo + 1).toNat).map (fun k => lo + (k : Int))

/-- The host ports named by the record of a node whose block starts at `initialPort`:
the outside range of line 192, the API port of line 194 and the gRPC port of line 195. -/
def hostPorts (initialPort : Int) : List Int :=
  portRange initialPort (wrapInt (initialPort + 2))
    ++ [wrapInt (initialPort + 3), wrapInt (initialPort + 4)]

/-! ## Errors, bytes and the application-state map -/

/-- An error value.  `ext` is an error produced by a routine outside the repository,
`wrap` is `fmt.Errorf("msg %w", err)`, `panic` is a Go panic unwinding the call. -/
inductive Err where
  | ext (msg : String)
  | wrap (msg : String) (cause : Err)
  | panic (cause : Err)
  deriving DecidableEq, Repr

deriving instance DecidableEq for Except

/-- A non-nil Go byte slice. -/
abbrev Bytes := List UInt8

/-- The Go type `json.RawMessage`: `none` is the nil slice. -/
abbrev RawMessage := Option Bytes

/-- A `time.Duration`, in nanoseconds. -/
abbrev Duration := Int

/-- A `time.Time` instant, in nanoseconds since the epoch. -/
abbrev Time := Int

/-- One second, `time.Second`, in nanoseconds. -/
def Second : Duration := 1000000000

/-- One hour, `time.Hour`, in nanoseconds. -/
def Hour : Duration := 3600 * Second

/-- The Go type `map[string]json.RawMessage`, kept as an association list. -/
abbrev AppMap := List (String × RawMessage)

/-- The map read `m[k]`: the value of the first entry with key `k`, nil when there is none. -/
def AppMap.get : AppMap → String → RawMessage
  | [], _ => none
  | (k', v) :: rest, k => if k' = k then v else AppMap.get rest k

/-- Whether the map has an entry with key `k`. -/
def AppMap.has : AppMap → String → Bool
  | [], _ => false
  | (k', _) :: rest, k => if k' = k then true else AppMap.has rest k

/-- The map write `m[k] = v`: replaces the entry with key `k`, or adds one. -/
def AppMap.set : AppMap → String → RawMessage → AppMap
  | [], k, v => [(k, v)]
  | (k', v') :: rest, k, v =>
    if k' = k then (k, v) :: rest else (k', v') :: AppMap.set rest k v

/-! ## Module genesis states touched by `initGenesis`

Only the fields the code reads or writes are named; the remaining content of each
state is carried along in a field `Other`. -/

/-- The type `sdk.Coin`. -/
structure Coin where
  Denom : String
  Amount : Int
  deriving DecidableEq, Repr

/-- Parameters of the staking module (`stakingtypes.Params`). -/
structure StakingParams where
  UnbondingTime : Duration
  BondDenom : String
  Other : Bytes
  deriving DecidableEq, Repr

/-- Genesis state of the staking module (`stakingtypes.GenesisState`). -/
structure StakingGenesisState where
  Params : StakingParams
  Other : Bytes
  deriving DecidableEq, Repr

/-- Genesis state of the crisis module (`crisistypes.GenesisState`). -/
structure CrisisGenesisState where
  ConstantFee : Coin
  Other : Bytes
  deriving DecidableEq, Repr

/-- Deposit parameters of the governance module (`govtypes.DepositParams`). -/
structure GovDepositParams where
  MinDeposit : List Coin
  Other : Bytes
  deriving DecidableEq, Repr

/-- Genesis state of the governance module (`govtypes.GenesisState`). -/
structure GovGenesisState where
  DepositParams : GovDepositParams
  Other : Bytes
  deriving DecidableEq, Repr

/-- Modelled from the spec: the parameters of the mint module (`x/mint/types`, not
among the sources); the table of section 4.3 names the mint denom and the start time. -/
structure MintParams where
  MintDenom : String
  StartTime : Time
  Other : Bytes
  deriving DecidableEq, Repr

/-- Modelled from the spec: the genesis state of the mint module (`x/mint/types`). -/
structure MintGenesisState where
  Params : MintParams
  Other : Bytes
  deriving DecidableEq, Repr

/-- Modelled from the spec: the parameters of the token-claim module (`x/claim/types`,
not among the sources); the table of section 4.3 names the claim denom. -/
structure ClaimParams where
  ClaimDenom : String
  Other : Bytes
  deriving DecidableEq, Repr

/-- Modelled from the spec: the genesis state of the token-claim module
(`x/claim/types`), with its stored module-account balance. -/
structure ClaimGenesisState where
  ModuleAccountBalance : Coin
  Params : ClaimParams
  Other : Bytes
  deriving DecidableEq, Repr

/-- Genesis state of the auth module: the packed accounts and the rest. -/
structure AuthGenesisState where
  Accounts : List Bytes
  Other : Bytes
  deriving DecidableEq, Repr

/-- A `banktypes.Balance`. -/
structure Balance where
  Address : String
  Coins : List Coin
  deriving DecidableEq, Repr

/-- Genesis state of the bank module: the balances and the rest. -/
structure BankGenesisState where
  Balances : List Balance
  Other : Bytes
  deriving DecidableEq, Repr

/-- Value of `stakingtypes.ModuleName`. -/
def stakingModuleName : String := "staking"
/-- Value of `crisistypes.ModuleName`. -/
def crisisModuleName : String := "crisis"
/-- Value of `govtypes.ModuleName`. -/
def govModuleName : String := "gov"
/-- Modelled from the spec: value of `minttypes.ModuleName` (`x/mint/types`). -/
def mintModuleName : String := "mint"
/-- Modelled from the spec: value of `claimtypes.ModuleName` (`x/claim/types`). -/
def claimModuleName : String := "claim"
/-- Value of `authtypes.ModuleName`. -/
def authModuleName : String := "auth"
/-- Value of `banktypes.ModuleName`. -/
def bankModuleName : String := "bank"

/-- The five modules `initGenesis` decodes, overrides and re-encodes. -/
def overriddenModules : List String :=
  [stakingModuleName, crisisModuleName, govModuleName, mintModuleName, claimModuleName]

/-- The module genesis codec (`codec.JSONCodec`): typed decoding and encoding of the
named modules.  `UnmarshalJSON` returns an error; `MustMarshalJSON` and
`MustUnmarshalJSON` panic, which is the `error` case of the `Must` fields. -/
structure JSONCodec where
  UnmarshalStaking : Bytes → Except Err StakingGenesisState
  MustMarshalStaking : StakingGenesisState → Except Err Bytes
  UnmarshalCrisis : Bytes → Except Err CrisisGenesisState
  MustMarshalCrisis : CrisisGenesisState → Except Err Bytes
  UnmarshalGov : Bytes → Except Err GovGenesisState
  MustMarshalGov : GovGenesisState → Except Err Bytes
  UnmarshalMint : Bytes → Except Err MintGenesisState
  MustMarshalMint : MintGenesisState → Except Err Bytes
  UnmarshalClaim : Bytes → Except Err ClaimGenesisState
  MustMarshalClaim : ClaimGenesisState → Except Err Bytes
  MustUnmarshalAuth : RawMessage → Except Err AuthGenesisState
  MustMarshalAuth : AuthGenesisState → Except Err Bytes
  MustUnmarshalBank : RawMessage → Except Err BankGenesisState
  MustMarshalBank : BankGenesisState → Except Err Bytes

/-- Library routines used while composing the template state: `encoding/json` on the
state map, `time.ParseDuration`, the reading of `time.Now()` at line 544, and the
validation behind `sdk.NewCoin` and `sdk.NewCoins` (both panic on invalid input). -/
structure Lib where
  jsonUnmarshal : RawMessage → Except Err AppMap
  jsonMarshal : AppMap → Except Err Bytes
  jsonMarshalIndent : AppMap → Except Err Bytes
  ParseDuration : String → Except Err Duration
  timeNow : Time
  ValidateCoin : Coin → Except Err Unit
  NewCoins : List Coin → Except Err (List Coin)

/-- The constructor `sdk.NewCoin(denom, amount)`: builds the coin and panics when it
does not validate. -/
def Lib.NewCoin (lib : Lib) (denom : String) (amount : Int) : Except Err Coin :=
  match lib.ValidateCoin { Denom := denom, Amount := amount } with
  | .error e => .error (.panic e)
  | .ok _ => .ok { Denom := denom, Amount := amount }

/-- The type `types.GenesisDoc` of the consensus library, with the fields the code sets. -/
structure GenesisDoc where
  GenesisTime : Time
  ChainID : String
  Validators : List Bytes
  AppState : RawMessage
  deriving DecidableEq, Repr

/-! ## `initGenesis` (lines 485-562) -/

/-- Lines 495-512: migrate staking state. -/
def migrateStaking (cdc : JSONCodec) (lib : Lib) (stakeDenom unbondingPeriod : String)
    (appState : AppMap) : Except Err AppMap :=
  match appState.get stakingModuleName with
  | none => .ok appState
  | some bz =>
    match cdc.UnmarshalStaking bz with
    | .error err => .error err
    | .ok stakingGenState =>
      let stakingGenState : StakingGenesisState :=
        { stakingGenState with Params := { stakingGenState.Params with BondDenom := stakeDenom } }
      match lib.ParseDuration unbondingPeriod with
      | .error err => .error (.wrap "failed to parse unbonding period" err)
      | .ok d =>
        let stakingGenState : StakingGenesisState :=
          { stakingGenState with Params := { stakingGenState.Params with UnbondingTime := d } }
        match cdc.MustMarshalStaking stakingGenState with
        | .error err => .error (.panic err)
        | .ok out => .ok (appState.set stakingModuleName (some out))

/-- Lines 514-523: migrate crisis state. -/
def migrateCrisis (cdc : JSONCodec) (stakeDenom : String) (appState : AppMap) :
    Except Err AppMap :=
  match appState.get crisisModuleName with
  | none => .ok appState
  | some bz =>
    match cdc.UnmarshalCrisis bz with
    | .error err => .error err
    | .ok crisisGenState =>
      let crisisGenState : CrisisGenesisState :=
        { crisisGenState with ConstantFee := { crisisGenState.ConstantFee with Denom := stakeDenom } }
      match cdc.MustMarshalCrisis crisisGenState with
      | .error err => .error (.panic err)
      | .ok out => .ok (appState.set crisisModuleName (some out))

/-- Lines 525-535: migrate gov state. -/
def migrateGov (cdc : JSONCodec) (lib : Lib) (stakeDenom : String) (appState : AppMap) :
    Except Err AppMap :=
  match appState.get govModuleName with
  | none => .ok appState
  | some bz =>
    match cdc.UnmarshalGov bz with
    | .error err => .error err
    | .ok govGenState =>
      match lib.NewCoin stakeDenom 10000000 with
      | .error err => .error err
      | .ok minDeposit =>
        match lib.NewCoins [minDeposit] with
        | .error err => .error (.panic err)
        | .ok coins =>
          let govGenState : GovGenesisState :=
            { govGenState with DepositParams := { govGenState.DepositParams with MinDeposit := coins } }
          match cdc.MustMarshalGov govGenState with
          | .error err => .error (.panic err)
          | .ok out => .ok (appState.set govModuleName (some out))

/-- Lines 536-546: migrate mint state. -/
def migrateMint (cdc : JSONCodec) (lib : Lib) (stakeDenom : String) (appState : AppMap) :
    Except Err AppMap :=
  match appState.get mintModuleName with
  | none => .ok appState
  | some bz =>
    match cdc.UnmarshalMint bz with
    | .error err => .error err
    | .ok mintGenState =>
      let mintGenState : MintGenesisState :=
        { mintGenState with Params := { mintGenState.Params with MintDenom := stakeDenom } }
      let mintGenState : MintGenesisState :=
        { mintGenState with Params := { mintGenState.Params with StartTime := lib.timeNow } }
      match cdc.MustMarshalMint mintGenState with
      | .error err => .error (.panic err)
      | .ok out => .ok (appState.set mintModuleName (some out))

/-- Lines 548-559: claim. -/
def migrateClaim (cdc : JSONCodec) (lib : Lib) (stakeDenom : String) (appState : AppMap) :
    Except Err AppMap :=
  match appState.get claimModuleName with
  | none => .ok appState
  | some bz =>
    match cdc.UnmarshalClaim bz with
    | .error err => .error err
    | .ok claimGenState =>
      match lib.NewCoin stakeDenom claimGenState.ModuleAccountBalance.Amount with
      | .error err => .error err
      | .ok balance =>
        let claimGenState : ClaimGenesisState :=
          { claimGenState with ModuleAccountBalance := balance }
        let claimGenState : ClaimGenesisState :=
          { claimGenState with Params := { claimGenState.Params with ClaimDenom := stakeDenom } }
        match cdc.MustMarshalClaim claimGenState with
        | .error err => .error (.panic err)
        | .ok out => .ok (appState.set claimModuleName (some out))

/-- Lines 495-559 of `initGenesis`: the five overrides in source order, on the decoded map. -/
def migrateAppState (cdc : JSONCodec) (lib : Lib) (stakeDenom unbondingPeriod : String)
    (appState : AppMap) : Except Err AppMap :=
  match migrateStaking cdc lib stakeDenom unbondingPeriod appState with
  | .error err => .error err
  | .ok appState =>
    match migrateCrisis cdc stakeDenom appState with
    | .error err => .error err
    | .ok appState =>
      match migrateGov cdc lib stakeDenom appState with
      | .error err => .error err
      | .ok appState =>
        match migrateMint cdc lib stakeDenom appState with
        | .error err => .error err
        | .ok appState => migrateClaim cdc lib stakeDenom appState

/-- The function `initGenesis` (lines 485-562): unmarshal the application state of the
document into a map, apply the five overrides, marshal the map again. -/
def initGenesis (cdc : JSONCodec) (lib : Lib) (genDoc : GenesisDoc)
    (stakeDenom unbondingPeriod : String) : Except Err RawMessage :=
  match lib.jsonUnmarshal genDoc.AppState with
  | .error err => .error (.wrap "failed to JSON unmarshal initial genesis state" err)
  | .ok appState =>
    match migrateAppState cdc lib stakeDenom unbondingPeriod appState with
    | .error err => .error err
    | .ok appState =>
      match lib.jsonMarshal appState with
      | .error err => .error err
      | .ok bz => .ok (some bz)

/-- One override step either leaves the map alone (module absent) or rewrites the entry
of a module that was present. -/
def Overrides (name : String) (m m' : AppMap) : Prop :=
  (m.get name = none ∧ m' = m)
    ∨ ∃ bz out, m.get name = some bz ∧ m' = m.set name (some out)

/-- Every `MustMarshalJSON` call of the composer returns (none of them panics). -/
def JSONCodec.MarshalsAll (cdc : JSONCodec) : Prop :=
  (∀ s, ∃ b, cdc.MustMarshalStaking s = .ok b)
  ∧ (∀ s, ∃ b, cdc.MustMarshalCrisis s = .ok b)
  ∧ (∀ s, ∃ b, cdc.MustMarshalGov s = .ok b)
  ∧ (∀ s, ∃ b, cdc.MustMarshalMint s = .ok b)
  ∧ (∀ s, ∃ b, cdc.MustMarshalClaim s = .ok b)

/-- Every module of the five that is present in the map decodes. -/
def JSONCodec.DecodesPresent (cdc : JSONCodec) (m : AppMap) : Prop :=
  (∀ bz, m.get stakingModuleName = some bz → ∃ s, cdc.UnmarshalStaking bz = .ok s)
  ∧ (∀ bz, m.get crisisModuleName = some bz → ∃ s, cdc.UnmarshalCrisis bz = .ok s)
  ∧ (∀ bz, m.get govModuleName = some bz → ∃ s, cdc.UnmarshalGov bz = .ok s)
  ∧ (∀ bz, m.get mintModuleName = some bz → ∃ s, cdc.UnmarshalMint bz = .ok s)
  ∧ (∀ bz, m.get claimModuleName = some bz → ∃ s, cdc.UnmarshalClaim bz = .ok s)

/-- The library calls made with the stake denom `d` return: coins in `d` validate,
`sdk.NewCoins` accepts them and `json.Marshal` encodes every map. -/
def Lib.AcceptsDenom (lib : Lib) (d : String) : Prop :=
  (∀ a, lib.ValidateCoin { Denom := d, Amount := a } = .ok ())
  ∧ (∀ cs, ∃ r, lib.NewCoins cs = .ok r)
  ∧ (∀ m, ∃ b, lib.jsonMarshal m = .ok b)

/-- The calls the five override steps make for the modules present in `m` all return:
the module decodes, the library accepts what the step hands it (the duration string for
staking, the coin of 10,000,000 `d` and the list holding it for governance, the stored
balance amount in `d` for the token claim) and the overridden state encodes.  A module
that is absent from `m` asks for nothing. -/
def OverridesReturn (cdc : JSONCodec) (lib : Lib) (d up : String) (m : AppMap) : Prop :=
  (∀ bz, m.get stakingModuleName = some bz →
    ∃ st dur out, cdc.UnmarshalStaking bz = .ok st
      ∧ lib.ParseDuration up = .ok dur
      ∧ cdc.MustMarshalStaking
          { Params := { UnbondingTime := dur, BondDenom := d, Other := st.Params.Other },
            Other := st.Other } = .ok out)
  ∧ (∀ bz, m.get crisisModuleName = some bz →
    ∃ st out, cdc.UnmarshalCrisis bz = .ok st
      ∧ cdc.MustMarshalCrisis
          { ConstantFee := { Denom := d, Amount := st.ConstantFee.Amount },
            Other := st.Other } = .ok out)
  ∧ (∀ bz, m.get govModuleName = some bz →
    ∃ st coins out, cdc.UnmarshalGov bz = .ok st
      ∧ lib.ValidateCoin { Denom := d, Amount := 10000000 } = .ok ()
      ∧ lib.NewCoins [{ Denom := d, Amount := 10000000 }] = .ok coins
      ∧ cdc.MustMarshalGov
          { DepositParams := { MinDeposit := coins, Other := st.DepositParams.Other },
            Other := st.Other } = .ok out)
  ∧ (∀ bz, m.get mintModuleName = some bz →
    ∃ st out, cdc.UnmarshalMint bz = .ok st
      ∧ cdc.MustMarshalMint
          { Params := { MintDenom := d, StartTime := lib.timeNow, Other := st.Params.Other },
            Other := st.Other } = .ok out)
  ∧ (∀ bz, m.get claimModuleName = some bz →
    ∃ st out, cdc.UnmarshalClaim bz = .ok st
      ∧ lib.ValidateCoin { Denom := d, Amount := st.ModuleAccountBalance.Amount } = .ok ()
      ∧ cdc.MustMarshalClaim
          { ModuleAccountBalance := { Denom := d, Amount := st.ModuleAccountBalance.Amount },
            Params := { ClaimDenom := d, Other := st.Params.Other },
            Other := st.Other } = .ok out)

/-! ## A small concrete environment for `initGenesis`

Used to run the embedded code on explicit inputs. -/

/-- Bytes of an ASCII string. -/
def asciiBytes (s : String) : Bytes := s.data.map (fun c => c.toNat.toUInt8)

/-- A toy codec: decoding keeps the raw bytes in `Other` and starts from default
parameters in the denom `stake`; encoding writes a tag, the denom and `Other`. -/
def demoCdc : JSONCodec where
  UnmarshalStaking bz :=
    .ok { Params := { UnbondingTime := 1814400 * Second, BondDenom := "stake", Other := [] },
          Other := bz }
  MustMarshalStaking s := .ok (1 :: asciiBytes s.Params.BondDenom ++ s.Other)
  UnmarshalCrisis bz := .ok { ConstantFee := { Denom := "stake", Amount := 1000 }, Other := bz }
  MustMarshalCrisis s := .ok (2 :: asciiBytes s.ConstantFee.Denom ++ s.Other)
  UnmarshalGov bz :=
    .ok { DepositParams := { MinDeposit := [{ Denom := "stake", Amount := 10000000 }],
                             Other := [] },
          Other := bz }
  MustMarshalGov s := .ok (3 :: s.Other)
  UnmarshalMint bz :=
    .ok { Params := { MintDenom := "stake", StartTime := 0, Other := [] }, Other := bz }
  MustMarshalMint s := .ok (4 :: asciiBytes s.Params.MintDenom ++ s.Other)
  UnmarshalClaim bz :=
    .ok { ModuleAccountBalance := { Denom := "stake", Amount := 500 },
          Params := { ClaimDenom := "stake", Other := [] }, Other := bz }
  MustMarshalClaim s := .ok (5 :: asciiBytes s.Params.ClaimDenom ++ s.Other)
  MustUnmarshalAuth raw := .ok { Accounts := [], Other := raw.getD [] }
  MustMarshalAuth s := .ok (6 :: s.Accounts.flatten ++ s.Other)
  MustUnmarshalBank raw := .ok { Balances := [], Other := raw.getD [] }
  MustMarshalBank s := .ok (7 :: s.Other)

/-- A template state with the seven modules the composer touches and one more. -/
def demoTemplate : AppMap :=
  [("auth", some [10]), ("bank", some [11]), ("staking", some [12]), ("crisis", some [13]),
   ("gov", some [14]), ("mint", some [15]), ("claim", some [16]), ("ibc", some [17])]

/-- A template state with none of the five overridden modules. -/
def demoBareTemplate : AppMap := [("auth", some [10]), ("bank", some [11])]

/-- A toy library: the unmarshaller knows two documents, the marshaller concatenates
the values, the duration parser knows `72h` and `1h`. -/
def demoLib : Lib where
  jsonUnmarshal raw :=
    if raw = some [123, 125] then .ok demoTemplate
    else if raw = some [123, 32, 125] then .ok demoBareTemplate
    else .error (.ext "unexpected end of JSON input")
  jsonMarshal m := .ok (m.flatMap (fun e => e.2.getD []))
  jsonMarshalIndent m := .ok (m.flatMap (fun e => e.2.getD []))
  ParseDuration s :=
    if s = "72h" then .ok (72 * Hour)
    else if s = "1h" then .ok Hour
    else .error (.ext "time: unknown unit in duration")
  timeNow := 1636000000 * Second
  ValidateCoin c := if c.Denom = "" then .error (.ext "invalid denom") else .ok ()
  NewCoins cs := .ok cs

/-- A genesis document whose application state the toy library decodes to `demoTemplate`. -/
def demoGenDoc : GenesisDoc :=
  { GenesisTime := 0, ChainID := "chain-demo", Validators := [], AppState := some [123, 125] }

/-- A genesis document whose application state decodes to `demoBareTemplate`. -/
def demoBareGenDoc : GenesisDoc :=
  { GenesisTime := 0, ChainID := "chain-demo", Validators := [], AppState := some [123, 32, 125] }

/-- A template state without the staking module: the four other overridden modules are
present, next to three modules the composer does not override. -/
def demoPartialTemplate : AppMap :=
  [("auth", some [10]), ("bank", some [11]), ("crisis", some [13]), ("gov", some [14]),
   ("mint", some [15]), ("claim", some [16]), ("ibc", some [17])]

/-- A toy library that validates as the SDK does: a coin needs a denom and an amount that
is not negative, `sdk.NewCoins` drops the zero coins and rejects a coin that does not
validate or a denom given twice, and `json.Marshal` rejects a map holding a value of
length zero (which is not JSON). -/
def sdkLikeLib : Lib :=
  { demoLib with
    jsonUnmarshal := fun raw =>
      if raw = some [123, 125] then .ok demoTemplate
      else if raw = some [123, 32, 125] then .ok demoBareTemplate
      else if raw = some [123, 10, 125] then .ok demoPartialTemplate
      else .error (.ext "unexpected end of JSON input")
    jsonMarshal := fun m =>
      if m.any (fun e => decide (e.2 = some [])) then
        .error (.ext "unexpected end of JSON input")
      else .ok (m.flatMap (fun e => e.2.getD []))
    ValidateCoin := fun c =>
      if c.Denom = "" then .error (.ext "invalid denom")
      else if c.Amount < 0 then .error (.ext "negative coin amount")
      else .ok ()
    NewCoins := fun cs =>
      let cs := cs.filter (fun c => decide (c.Amount ≠ 0))
      if cs.all (fun c => decide (c.Denom ≠ "") && decide (0 ≤ c.Amount))
          && decide ((cs.map (fun c => c.Denom)).Nodup) then .ok cs
      else .error (.ext "invalid coin set") }

/-- A genesis document whose application state decodes to `demoPartialTemplate`. -/
def demoPartialGenDoc : GenesisDoc :=
  { GenesisTime := 0, ChainID := "chain-demo", Validators := [], AppState := some [123, 10, 125] }

/-! ## Paths, the effect log and the routines outside the repository -/

/-- A file-system path: the elements handed to `filepath.Join`, in order. -/
abbrev Path := List String

/-- The call `filepath.Join(base, elems...)`. -/
def Join (base : Path) (elems : List String) : Path := base ++ elems

/-- A consensus public key (`cryptotypes.PubKey`). -/
abbrev PubKey := Bytes

/-- The node configuration (`tmconfig.Config`), a value the code mutates through a
pointer: root directory, moniker, RPC listen address, and the relative location of
the genesis file. -/
structure NodeConfig where
  RootDir : Path
  Moniker : String
  RPCListenAddress : String
  Genesis : String
  deriving DecidableEq, Repr

/-- The method `nodeConfig.GenesisFile()`: the genesis location under the root directory. -/
def NodeConfig.GenesisFile (cfg : NodeConfig) : Path := Join cfg.RootDir [cfg.Genesis]

/-- The value built by `genutiltypes.NewInitConfig`. -/
structure InitConfig where
  ChainID : String
  GenTxsDir : Path
  NodeID : String
  ValPubKey : PubKey
  deriving DecidableEq, Repr

/-- The application configuration (`srvconfig.Config`), with the fields the code sets. -/
structure AppConfig where
  MinGasPrices : String
  APIEnable : Bool
  TelemetryEnabled : Bool
  PrometheusRetentionTime : Int
  EnableHostnameLabel : Bool
  GlobalLabels : List (List String)
  deriving DecidableEq, Repr

/-- An effect that took place.  A call that returned an error leaves no entry; the call
`os.RemoveAll`, whose result the code discards, is recorded when it is made. -/
inductive Event where
  | mkdirAll (path : Path) (perm : Nat)
  | ensureDir (dir : Path) (perm : Nat)
  | writeFile (file : Path) (contents : Bytes) (perm : Nat)
  | removeAll (path : Path)
  | initNodeValidatorFiles (root : Path)
  | keyringNew (dir : Path)
  | saveKey (dir : Path) (name : String)
  | writeConfigFile (file : Path) (cfg : AppConfig)
  | saveGenDoc (file : Path) (doc : GenesisDoc)
  | replay (root : Path) (result : Bytes)
  | exportGenesis (file : Path) (doc : GenesisDoc)
  | printErrf (msg : String)
  deriving DecidableEq, Repr

/-- The effects so far, oldest first. -/
abbrev World := List Event

/-- The routines `collectGenFiles` calls outside the repository.  Each answer may depend
on everything that happened before the call. -/
structure CollectEnv where
  /-- The function `tmtime.Now()`: the reading of the clock at the time of the call. -/
  tmtimeNow : World → Time
  /-- The function `types.GenesisDocFromFile`. -/
  GenesisDocFromFile : World → Path → Except Err GenesisDoc
  /-- The function `genutil.GenAppStateFromConfig` (the replay of the gentxs).  When it
  returns without an error its result is the byte slice `json.MarshalIndent` produced for
  the application state, which is never nil (it may be of any length here); a nil result
  comes only together with an error. -/
  GenAppStateFromConfig : World → NodeConfig → InitConfig → GenesisDoc → Except Err Bytes
  /-- The function `genutil.ExportGenesisFileWithTime`. -/
  ExportGenesisFileWithTime : World → Path → String → RawMessage → Time → Except Err Unit

/-! ## `collectGenFiles` (lines 381-425) -/

/-- Lines 391-421: the body of the loop of `collectGenFiles` for node `i`.  It returns the
node configuration and the variable `appState` as the iteration leaves them. -/
def collectNode (env : CollectEnv) (chainID : String) (nodeIDs : List String)
    (valPubKeys : List PubKey) (outputDir nodeDirPrefix nodeDaemonHome : String)
    (genTime : Time) (i : Nat) (nodeConfig : NodeConfig) (appState : RawMessage)
    (w : World) : Except Err (NodeConfig × RawMessage) × World :=
  let nodeDirName := nodeDirName nodeDirPrefix i
  let nodeDir := Join [outputDir] [nodeDirName, nodeDaemonHome]
  let gentxsDir := Join [outputDir] ["gentxs"]
  let nodeConfig := { nodeConfig with Moniker := nodeDirName }
  let nodeConfig := { nodeConfig with RootDir := nodeDir }
  match nodeIDs[i]?, valPubKeys[i]? with
  | none, _ => (.error (.panic (.ext "index out of range")), w)
  | some _, none => (.error (.panic (.ext "index out of range")), w)
  | some nodeID, some valPubKey =>
    let initCfg : InitConfig :=
      { ChainID := chainID, GenTxsDir := gentxsDir, NodeID := nodeID, ValPubKey := valPubKey }
    match env.GenesisDocFromFile w nodeConfig.GenesisFile with
    | .error err => (.error err, w)
    | .ok genDoc =>
      match env.GenAppStateFromConfig w nodeConfig initCfg genDoc with
      | .error err => (.error err, w)
      | .ok nodeAppState =>
        let w := w ++ [Event.replay nodeDir nodeAppState]
        -- set the canonical application state (they should not differ)
        let appState := if appState = none then some nodeAppState else appState
        let genFile := nodeConfig.GenesisFile
        -- overwrite each validator's genesis file to have a canonical genesis time
        match env.ExportGenesisFileWithTime w genFile chainID appState genTime with
        | .error err => (.error err, w)
        | .ok _ =>
          let doc : GenesisDoc :=
            { GenesisTime := genTime, ChainID := chainID, Validators := [], AppState := appState }
          (.ok (nodeConfig, appState), w ++ [Event.exportGenesis genFile doc])

/-- Line 390: `for i := 0; i < numValidators; i++`, with `remaining` iterations left. -/
def collectLoop (env : CollectEnv) (chainID : String) (nodeIDs : List String)
    (valPubKeys : List PubKey) (outputDir nodeDirPrefix nodeDaemonHome : String)
    (genTime : Time) :
    (remaining : Nat) → (i : Nat) → NodeConfig → RawMessage → World → Except Err Unit × World
  | 0, _, _, _, w => (.ok (), w)
  | remaining + 1, i, nodeConfig, appState, w =>
    match collectNode env chainID nodeIDs valPubKeys outputDir nodeDirPrefix nodeDaemonHome
        genTime i nodeConfig appState w with
    | (.error err, w) => (.error err, w)
    | (.ok (nodeConfig, appState), w) =>
      collectLoop env chainID nodeIDs valPubKeys outputDir nodeDirPrefix nodeDaemonHome
        genTime remaining (i + 1) nodeConfig appState w

/-- The function `collectGenFiles` (lines 381-425): `appState` starts nil, the genesis
time is read once, then the loop runs over the nodes. -/
def collectGenFiles (env : CollectEnv) (nodeConfig : NodeConfig) (chainID : String)
    (nodeIDs : List String) (valPubKeys : List PubKey) (numValidators : Int)
    (outputDir nodeDirPrefix nodeDaemonHome : String) (w : World) :
    Except Err Unit × World :=
  let appState : RawMessage := none
  let genTime := env.tmtimeNow w
  collectLoop env chainID nodeIDs valPubKeys outputDir nodeDirPrefix nodeDaemonHome
    genTime numValidators.toNat 0 nodeConfig appState w

/-- The final genesis documents written so far, in order. -/
def exportedDocs (w : World) : List GenesisDoc :=
  w.filterMap (fun e => match e with
    | .exportGenesis _ doc => some doc
    | _ => none)

/-- The files the final genesis documents went to so far, in the order of `exportedDocs`. -/
def exportedPaths (w : World) : List Path :=
  w.filterMap (fun e => match e with
    | .exportGenesis file _ => some file
    | _ => none)

/-- The genesis file of node `i` as the loop of `collectGenFiles` names it (lines 391-396
and 416): the genesis location of the configuration under the node directory. -/
def finalGenesisFile (nodeConfig : NodeConfig) (outputDir nodeDirPrefix nodeDaemonHome : String)
    (i : Nat) : Path :=
  Join (Join [outputDir] [nodeDirName nodeDirPrefix i, nodeDaemonHome]) [nodeConfig.Genesis]

/-- The states the replay routine returned so far, in order. -/
def replayedStates (w : World) : List Bytes :=
  w.filterMap (fun e => match e with
    | .replay _ r => some r
    | _ => none)

/-- The documents the loop writes when it enters with `appState` and the replay returns
the states `rs`, node after node. -/
def docsFor (chainID : String) (genTime : Time) : RawMessage → List Bytes → List GenesisDoc
  | _, [] => []
  | appState, r :: rs =>
    let appState := if appState = none then some r else appState
    { GenesisTime := genTime, ChainID := chainID, Validators := [], AppState := appState }
      :: docsFor chainID genTime appState rs

/-- A replay environment in which the first node replayed gets a state of length zero
(a slice that is not nil) and every later node the bytes `[1]`; every other call
succeeds, and the clock advances by one second with every effect. -/
def emptyFirstEnv : CollectEnv where
  tmtimeNow w := (1636000000 + (w.length : Int)) * Second
  GenesisDocFromFile _ _ :=
    .ok { GenesisTime := 0, ChainID := "chain-demo", Validators := [], AppState := some [0] }
  GenAppStateFromConfig w _ _ _ := if replayedStates w = [] then .ok [] else .ok [1]
  ExportGenesisFileWithTime _ _ _ _ _ := .ok ()

/-- A replay environment in which every node gets its own state: node `i` (the `i`-th
replay of the run) gets the bytes `[i + 1]`; the clock advances by one second with every
effect. -/
def perNodeEnv : CollectEnv where
  tmtimeNow w := (1636000000 + (w.length : Int)) * Second
  GenesisDocFromFile _ _ :=
    .ok { GenesisTime := 0, ChainID := "chain-demo", Validators := [], AppState := some [0] }
  GenAppStateFromConfig w _ _ _ := .ok [((replayedStates w).length + 1).toUInt8]
  ExportGenesisFileWithTime _ _ _ _ _ := .ok ()

/-- The node configuration the demonstrations start from. -/
def demoNodeConfig : NodeConfig :=
  { RootDir := ["."], Moniker := "", RPCListenAddress := "", Genesis := "config/genesis.json" }

/-! ## `writeFile`, `docker` and `InitTestnet` -/

/-- Line 52. -/
def flagStakeDenom : String := "stake-denom"
/-- Line 51. -/
def flagDockerTag : String := "docker-tag"
/-- Line 53. -/
def flagUnbondingPeriod : String := "unbonding-period"
/-- Line 54. -/
def flagInitialCoins : String := "coins"
/-- Line 55. -/
def flagInitialStakingAmount : String := "initial-staking-amount"

/-- Line 118: `const nodeDirPerm = 0755`. -/
def nodeDirPerm : Nat := 0o755

/-- The flag set of the command (`cmd.Flags()`). -/
structure Cmd where
  GetString : String → Except Err String
  GetInt64 : String → Except Err Int

/-- A keyring handle returned by `keyring.New`. -/
structure Keyring where
  Backend : String
  RootDir : Path
  deriving DecidableEq, Repr

/-- The transaction under construction (`client.TxBuilder`). -/
structure TxBuilder where
  Msgs : List Bytes
  Memo : String
  Signatures : List Bytes
  deriving DecidableEq, Repr

/-- The routines `InitTestnet` and `initGenFiles` call outside the repository.  Those with
a `World` argument touch the file system or the keyring: their answer may depend on
everything that happened before the call. -/
structure Env where
  cdc : JSONCodec
  lib : Lib
  collect : CollectEnv
  /-- The value of `tmrand.NewRand().Str(6)`. -/
  randStr : String
  ParseCoinsNormalized : String → Except Err (List Coin)
  SortCoins : List Coin → List Coin
  MkdirAll : World → Path → Nat → Except Err Unit
  EnsureDir : World → Path → Nat → Except Err Unit
  WriteFile : World → Path → Bytes → Nat → Except Err Unit
  InitializeNodeValidatorFiles : World → NodeConfig → Except Err (String × PubKey)
  KeyringNew : World → String → Path → Except Err Unit
  SupportedAlgorithms : Keyring → List String
  NewSigningAlgoFromString : String → List String → Except Err String
  GenerateSaveCoinKey : World → Keyring → String → String → Except Err (String × String)
  /-- The call `json.Marshal(map[string]string{"secret": secret})` of line 238. -/
  jsonMarshalSecret : String → Except Err Bytes
  NewMsgCreateValidator : String → PubKey → Coin → String → Except Err Bytes
  SetMsgs : Bytes → Except Err Unit
  Sign : World → Keyring → String → String → String → TxBuilder → Except Err Bytes
  TxJSONEncoder : TxBuilder → Except Err Bytes
  SanitizeGenesisAccounts : List String → List String
  SanitizeGenesisBalances : List Balance → List Balance
  /-- The value of `mbm.DefaultGenesis(clientCtx.Codec)`. -/
  DefaultGenesis : AppMap
  PackAccounts : List String → Except Err (List Bytes)
  SaveAs : World → Path → GenesisDoc → Except Err Unit

/-- The conversion `[]byte(s)`: the UTF-8 bytes of a string. -/
def stringBytes (s : String) : Bytes := s.data.flatMap String.utf8EncodeChar

/-- The function `writeFile` (lines 427-440). -/
def writeFile (env : Env) (name : String) (dir : Path) (contents : Bytes) (w : World) :
    Except Err Unit × World :=
  let file := Join dir [name]
  match env.EnsureDir w dir 0o755 with
  | .error err => (.error err, w)
  | .ok _ =>
    let w := w ++ [Event.ensureDir dir 0o755]
    match env.WriteFile w file contents 0o644 with
    | .error err => (.error err, w)
    | .ok _ => (.ok (), w ++ [Event.writeFile file contents 0o644])

/-- What the range body of `dockerComposeDefinition` (lines 453-463) renders for one node,
after the tabs of the definition were replaced by two spaces (line 467). -/
def dockerService (node : TestnetNode) (tag : String) : String :=
  "\n  " ++ node.Name ++ ":\n    image: publicawesome/stargaze:" ++ tag
    ++ "\n    restart: always\n    ports:\n      - "
    ++ node.OutsidePortRange ++ ":" ++ node.InsidePortRange
    ++ "\n      - " ++ node.APIPort ++ ":1317\n      - " ++ node.GRPCPort
    ++ ":9090\n    volumes:\n      - ./" ++ node.Name ++ "/starsd:/data/.starsd/\n"

/-- The function `docker` (lines 466-483): the constant template always parses and
executes, so the error result is never taken. -/
def docker (nodes : List TestnetNode) (tag : String) : Except Err String :=
  .ok ("# Stargaze Testnet\nversion: '3.1'\nservices:"
    ++ String.join (nodes.map (fun node => dockerService node tag)) ++ "\n")

/-- The local variables of `InitTestnet` that the provisioning loop updates. -/
structure LoopState where
  initialPort : Int
  nodes : List TestnetNode
  nodeIDs : List String
  valPubKeys : List PubKey
  genAccounts : List String
  genBalances : List Balance
  genFiles : List Path
  nodeConfig : NodeConfig
  deriving DecidableEq, Repr

/-- Lines 184-294: the body of the provisioning loop for node `i`. -/
def provisionNode (env : Env) (cmd : Cmd) (outputDir chainID nodeDirPrefix nodeDaemonHome
    keyringBackend algoStr stakeDenom : String) (valCoins : List Coin)
    (simappConfig : AppConfig) (i : Nat) (st : LoopState) (w : World) :
    Except Err LoopState × World :=
  let nodeDirName := nodeDirName nodeDirPrefix i
  let nodeDir := Join [outputDir] [nodeDirName, nodeDaemonHome]
  let gentxsDir := Join [outputDir] ["gentxs"]
  -- for docker
  let testnetNode := mkTestnetNode nodeDirName st.initialPort
  let nodes := st.nodes ++ [testnetNode]
  let initialPort := nextInitialPort st.initialPort
  let nodeConfig : NodeConfig :=
    { st.nodeConfig with RootDir := nodeDir, RPCListenAddress := "tcp://0.0.0.0:26657" }
  match env.MkdirAll w (Join nodeDir ["config"]) nodeDirPerm with
  | .error err => (.error err, w ++ [Event.removeAll [outputDir]])
  | .ok _ =>
    let w := w ++ [Event.mkdirAll (Join nodeDir ["config"]) nodeDirPerm]
    let nodeConfig : NodeConfig := { nodeConfig with Moniker := nodeDirName }
    match env.InitializeNodeValidatorFiles w nodeConfig with
    | .error err => (.error err, w ++ [Event.removeAll [outputDir]])
    | .ok (nodeID, valPubKey) =>
      let w := w ++ [Event.initNodeValidatorFiles nodeDir]
      let nodeIDs := st.nodeIDs.set i nodeID
      let valPubKeys := st.valPubKeys.set i valPubKey
      let memo := nodeID ++ "@" ++ testnetNode.Name ++ ":26656"
      let genFiles := st.genFiles ++ [nodeConfig.GenesisFile]
      match env.KeyringNew w keyringBackend nodeDir with
      | .error err => (.error err, w)
      | .ok _ =>
        let kb : Keyring := { Backend := keyringBackend, RootDir := nodeDir }
        let w := w ++ [Event.keyringNew nodeDir]
        let keyringAlgos := env.SupportedAlgorithms kb
        match env.NewSigningAlgoFromString algoStr keyringAlgos with
        | .error err => (.error err, w)
        | .ok algo =>
          match env.GenerateSaveCoinKey w kb nodeDirName algo with
          | .error err => (.error err, w ++ [Event.removeAll [outputDir]])
          | .ok (addr, secret) =>
            let w := w ++ [Event.saveKey nodeDir nodeDirName]
            match env.jsonMarshalSecret secret with
            | .error err => (.error err, w)
            | .ok cliPrint =>
              -- save private key seed words
              match writeFile env "key_seed.json" nodeDir cliPrint w with
              | (.error err, w) => (.error err, w)
              | (.ok _, w) =>
                let genBalances :=
                  st.genBalances ++ [{ Address := addr, Coins := env.SortCoins valCoins }]
                let genAccounts := st.genAccounts ++ [addr]
                match cmd.GetInt64 flagInitialStakingAmount with
                | .error err => (.error err, w)
                | .ok stakingAmount =>
                  match env.lib.NewCoin stakeDenom stakingAmount with
                  | .error err => (.error err, w)
                  | .ok coin =>
                    match env.NewMsgCreateValidator addr valPubKey coin nodeDirName with
                    | .error err => (.error err, w)
                    | .ok createValMsg =>
                      match env.SetMsgs createValMsg with
                      | .error err => (.error err, w)
                      | .ok _ =>
                        let txBuilder : TxBuilder :=
                          { Msgs := [createValMsg], Memo := memo, Signatures := [] }
                        match env.Sign w kb chainID memo nodeDirName txBuilder with
                        | .error err => (.error err, w)
                        | .ok sig =>
                          let txBuilder : TxBuilder := { txBuilder with Signatures := [sig] }
                          match env.TxJSONEncoder txBuilder with
                          | .error err => (.error err, w)
                          | .ok txBz =>
                            match writeFile env (nodeDirName ++ ".json") gentxsDir txBz w with
                            | (.error err, w) => (.error err, w)
                            | (.ok _, w) =>
                              let w := w ++ [Event.writeConfigFile
                                (Join nodeDir ["config/app.toml"]) simappConfig]
                              (.ok { initialPort := initialPort, nodes := nodes,
                                     nodeIDs := nodeIDs, valPubKeys := valPubKeys,
                                     genAccounts := genAccounts, genBalances := genBalances,
                                     genFiles := genFiles, nodeConfig := nodeConfig }, w)

/-- Line 183: `for i := 0; i < numValidators; i++`, with `remaining` iterations left. -/
def provisionLoop (env : Env) (cmd : Cmd) (outputDir chainID nodeDirPrefix nodeDaemonHome
    keyringBackend algoStr stakeDenom : String) (valCoins : List Coin)
    (simappConfig : AppConfig) :
    (remaining : Nat) → (i : Nat) → LoopState → World → Except Err LoopState × World
  | 0, _, st, w => (.ok st, w)
  | remaining + 1, i, st, w =>
    match provisionNode env cmd outputDir chainID nodeDirPrefix nodeDaemonHome keyringBackend
        algoStr stakeDenom valCoins simappConfig i st w with
    | (.error err, w) => (.error err, w)
    | (.ok st, w) =>
      provisionLoop env cmd outputDir chainID nodeDirPrefix nodeDaemonHome keyringBackend
        algoStr stakeDenom valCoins simappConfig remaining (i + 1) st w

/-- Lines 336-360 of `initGenFiles`: the default genesis of every module with the
accounts and the balances set, marshalled with indentation. -/
def composeTemplate (env : Env) (genAccounts : List String) (genBalances : List Balance) :
    Except Err Bytes :=
  let appGenState := env.DefaultGenesis
  -- set the accounts in the genesis state
  match env.cdc.MustUnmarshalAuth (appGenState.get authModuleName) with
  | .error err => .error (.panic err)
  | .ok authGenState =>
    match env.PackAccounts genAccounts with
    | .error err => .error err
    | .ok accounts =>
      let authGenState : AuthGenesisState := { authGenState with Accounts := accounts }
      match env.cdc.MustMarshalAuth authGenState with
      | .error err => .error (.panic err)
      | .ok authBz =>
        let appGenState := appGenState.set authModuleName (some authBz)
        -- set the balances in the genesis state
        match env.cdc.MustUnmarshalBank (appGenState.get bankModuleName) with
        | .error err => .error (.panic err)
        | .ok bankGenState =>
          let bankGenState : BankGenesisState := { bankGenState with Balances := genBalances }
          match env.cdc.MustMarshalBank bankGenState with
          | .error err => .error (.panic err)
          | .ok bankBz =>
            let appGenState := appGenState.set bankModuleName (some bankBz)
            env.lib.jsonMarshalIndent appGenState

/-- Lines 372-377 of `initGenFiles`: save the document at `genFiles[i]` for each node. -/
def saveLoop (env : Env) (genDoc : GenesisDoc) (genFiles : List Path) :
    (remaining : Nat) → (i : Nat) → World → Except Err Unit × World
  | 0, _, w => (.ok (), w)
  | remaining + 1, i, w =>
    match genFiles[i]? with
    | none => (.error (.panic (.ext "index out of range")), w)
    | some genFile =>
      match env.SaveAs w genFile genDoc with
      | .error err => (.error err, w)
      | .ok _ => saveLoop env genDoc genFiles remaining (i + 1)
          (w ++ [Event.saveGenDoc genFile genDoc])

/-- The zero value of `time.Time`, the genesis time of a document built without one. -/
def zeroTime : Time := 0

/-- The function `initGenFiles` (lines 330-379). -/
def initGenFiles (env : Env) (chainID stakeDenom unbondingPeriod : String)
    (genAccounts : List String) (genBalances : List Balance) (genFiles : List Path)
    (numValidators : Int) (w : World) : Except Err Unit × World :=
  match composeTemplate env genAccounts genBalances with
  | .error err => (.error err, w)
  | .ok appGenStateJSON =>
    let genDoc : GenesisDoc :=
      { GenesisTime := zeroTime, ChainID := chainID, Validators := [],
        AppState := some appGenStateJSON }
    match initGenesis env.cdc env.lib genDoc stakeDenom unbondingPeriod with
    | .error err => (.error err, w)
    | .ok appState =>
      let genDoc : GenesisDoc := { genDoc with AppState := appState }
      -- generate empty genesis files for each validator and save
      saveLoop env genDoc genFiles numValidators.toNat 0 w

/-- Lines 164-180 of `InitTestnet`: the stake denom, the validator coins and the unbonding
period, read from the flags before the loop. -/
def readFlags (env : Env) (cmd : Cmd) : Except Err (String × List Coin × String) :=
  match cmd.GetString flagStakeDenom with
  | .error err => .error err
  | .ok stakeDenom =>
    match cmd.GetString flagInitialCoins with
    | .error err => .error err
    | .ok initialCoins =>
      match env.ParseCoinsNormalized initialCoins with
      | .error err => .error err
      | .ok valCoins =>
        match cmd.GetString flagUnbondingPeriod with
        | .error err => .error err
        | .ok unbondingPeriod => .ok (stakeDenom, valCoins, unbondingPeriod)

/-- Lines 145-151: the application configuration written for every node. -/
def mkSimappConfig (minGasPrices chainID : String) : AppConfig :=
  { MinGasPrices := minGasPrices, APIEnable := true, TelemetryEnabled := true,
    PrometheusRetentionTime := 60, EnableHostnameLabel := false,
    GlobalLabels := [["chain_id", chainID]] }

/-- Lines 142-163: the loop variables before the first iteration. -/
def initialLoopState (nodeConfig : NodeConfig) (numValidators : Int) : LoopState :=
  { initialPort := startPort, nodes := [],
    nodeIDs := List.replicate numValidators.toNat "",
    valPubKeys := List.replicate numValidators.toNat [],
    genAccounts := [], genBalances := [], genFiles := [], nodeConfig := nodeConfig }

/-- Lines 297-327 of `InitTestnet`: what follows the provisioning loop. -/
def finishTestnet (env : Env) (cmd : Cmd) (outputDir chainID nodeDirPrefix nodeDaemonHome
    stakeDenom unbondingPeriod : String) (numValidators : Int) (st : LoopState)
    (w : World) : Except Err Unit × World :=
  let genAccounts := env.SanitizeGenesisAccounts st.genAccounts
  let genBalances := env.SanitizeGenesisBalances st.genBalances
  match initGenFiles env chainID stakeDenom unbondingPeriod genAccounts genBalances
      st.genFiles numValidators w with
  | (.error err, w) => (.error err, w)
  | (.ok _, w) =>
    match collectGenFiles env.collect st.nodeConfig chainID st.nodeIDs st.valPubKeys
        numValidators outputDir nodeDirPrefix nodeDaemonHome w with
    | (.error err, w) => (.error err, w)
    | (.ok _, w) =>
      match cmd.GetString flagDockerTag with
      | .error err => (.error err, w)
      | .ok dockerTag =>
        match docker st.nodes dockerTag with
        | .error err => (.error err, w)
        | .ok definition =>
          match writeFile env "docker-compose.yml" [outputDir] (stringBytes definition) w with
          | (.error err, w) => (.error err, w)
          | (.ok _, w) =>
            (.ok (), w ++ [Event.printErrf ("Successfully initialized "
              ++ fmtInt numValidators ++ " node directories\n")])

/-- The function `InitTestnet` (lines 121-328). -/
def InitTestnet (env : Env) (cmd : Cmd) (nodeConfig : NodeConfig)
    (outputDir chainID minGasPrices nodeDirPrefix nodeDaemonHome _startingIPAddress
      keyringBackend algoStr : String) (numValidators : Int) (w : World) :
    Except Err Unit × World :=
  let chainID := if chainID = "" then "chain-" ++ env.randStr else chainID
  if makeSliceOk numValidators = false then
    (.error (.panic (.ext "makeslice: len out of range")), w)
  else
    let simappConfig := mkSimappConfig minGasPrices chainID
    match readFlags env cmd with
    | .error err => (.error err, w)
    | .ok (stakeDenom, valCoins, unbondingPeriod) =>
      -- generate private keys, node IDs, and initial transactions
      match provisionLoop env cmd outputDir chainID nodeDirPrefix nodeDaemonHome
          keyringBackend algoStr stakeDenom valCoins simappConfig numValidators.toNat 0
          (initialLoopState nodeConfig numValidators) w with
      | (.error err, w) => (.error err, w)
      | (.ok st, w) =>
        finishTestnet env cmd outputDir chainID nodeDirPrefix nodeDaemonHome stakeDenom
          unbondingPeriod numValidators st w

/-! ## A small concrete environment for `InitTestnet` -/

/-- A toy stand-in for `json.Marshal` on the state map: each entry is written as the
length of its key, the key, the length of its value (255 for nil) and the value. -/
def encodeMap : AppMap → Bytes
  | [] => []
  | (k, v) :: rest =>
    (k.length.toUInt8 :: asciiBytes k)
      ++ (match v with
          | none => [255]
          | some b => b.length.toUInt8 :: b)
      ++ encodeMap rest

/-- The inverse of `encodeMap`, with `fuel` bounding the number of entries. -/
def decodeMap : Nat → Bytes → Option AppMap
  | _, [] => some []
  | 0, _ :: _ => none
  | fuel + 1, n :: bs =>
    let key := String.mk ((bs.take n.toNat).map (fun b => Char.ofNat b.toNat))
    match bs.drop n.toNat with
    | [] => none
    | l :: bs =>
      if l = 255 then (decodeMap fuel bs).map (fun m => (key, none) :: m)
      else (decodeMap fuel (bs.drop l.toNat)).map (fun m => (key, some (bs.take l.toNat)) :: m)

/-- A toy library whose marshaller and unmarshaller are `encodeMap` and `decodeMap`. -/
def runLib : Lib :=
  { demoLib with
    jsonUnmarshal := fun raw =>
      match raw with
      | none => .error (.ext "unexpected end of JSON input")
      | some bz =>
        match decodeMap bz.length bz with
        | none => .error (.ext "invalid character")
        | some m => .ok m
    jsonMarshal := fun m => .ok (encodeMap m)
    jsonMarshalIndent := fun m => .ok (encodeMap m) }

/-- A toy collector environment: a genesis file reads back as the document last saved or
exported at its path, and the replay returns the application state of the document it
is given, with the number of the replay appended (it fails on a document without an
application state). -/
def fileEnv : CollectEnv where
  tmtimeNow _ := 1636000000 * Second
  GenesisDocFromFile w path :=
    match w.reverse.findSome? (fun e => match e with
        | .saveGenDoc f doc => if f = path then some doc else none
        | .exportGenesis f doc => if f = path then some doc else none
        | _ => none) with
    | some doc => .ok doc
    | none => .error (.ext "no such file or directory")
  GenAppStateFromConfig w _ _ genDoc :=
    match genDoc.AppState with
    | none => .error (.ext "unexpected end of JSON input")
    | some bz => .ok (bz ++ [(replayedStates w).length.toUInt8])
  ExportGenesisFileWithTime _ _ _ _ _ := .ok ()

/-- A toy environment in which every call succeeds.  The keyring supports `secp256k1`
only and the backend `test` only. -/
def demoEnv : Env where
  cdc := demoCdc
  lib := runLib
  collect := fileEnv
  randStr := "abcdef"
  ParseCoinsNormalized s :=
    if s = "1000000000ustarx" then .ok [{ Denom := "ustarx", Amount := 1000000000 }]
    else .error (.ext "invalid coin expression")
  SortCoins cs := cs
  MkdirAll _ _ _ := .ok ()
  EnsureDir _ _ _ := .ok ()
  WriteFile _ _ _ _ := .ok ()
  InitializeNodeValidatorFiles _ cfg := .ok ("id-" ++ cfg.Moniker, asciiBytes cfg.Moniker)
  KeyringNew _ backend _ :=
    if backend = "test" then .ok () else .error (.ext "unknown keyring backend")
  SupportedAlgorithms _ := ["secp256k1"]
  NewSigningAlgoFromString s algos :=
    if s ∈ algos then .ok s else .error (.ext "provided algorithm is not supported")
  GenerateSaveCoinKey _ _ name _ := .ok ("stars1" ++ name, "seed of " ++ name)
  jsonMarshalSecret s := .ok (asciiBytes s)
  NewMsgCreateValidator addr _ _ _ := .ok (asciiBytes addr)
  SetMsgs _ := .ok ()
  Sign _ _ _ _ name _ := .ok (asciiBytes name)
  TxJSONEncoder tx := .ok (tx.Msgs.flatten ++ tx.Signatures.flatten)
  SanitizeGenesisAccounts accs := accs
  SanitizeGenesisBalances bals := bals
  DefaultGenesis := demoTemplate
  PackAccounts accs := .ok (accs.map asciiBytes)
  SaveAs _ _ _ := .ok ()

/-- The flags as the command defines them (lines 98-113), with docker tag `v1`. -/
def demoCmd : Cmd where
  GetString name :=
    if name = flagStakeDenom then .ok "ustarx"
    else if name = flagInitialCoins then .ok "1000000000ustarx"
    else if name = flagUnbondingPeriod then .ok "72h"
    else if name = flagDockerTag then .ok "v1"
    else .error (.ext "flag accessed but not defined")
  GetInt64 name :=
    if name = flagInitialStakingAmount then .ok 100000000
    else .error (.ext "flag accessed but not defined")

/-- The same flags with the unbonding period `72x`, which is not a duration. -/
def badPeriodCmd : Cmd :=
  { demoCmd with
    GetString := fun name =>
      if name = flagUnbondingPeriod then .ok "72x" else demoCmd.GetString name }

/-- The toy environment with a replay that fails for every node. -/
def failingReplayEnv : Env :=
  { demoEnv with
    collect := { fileEnv with
      GenAppStateFromConfig := fun _ _ _ _ => .error (.ext "there must be at least one genesis tx") } }

/-! ## Views of the effect log -/

/-- The directories created by `os.MkdirAll` so far, with the mode passed. -/
def mkdirPaths (w : World) : List (Path × Nat) :=
  w.filterMap (fun e => match e with
    | .mkdirAll p perm => some (p, perm)
    | _ => none)

/-- The files written by `writeFile` so far, with the mode passed. -/
def writes (w : World) : List (Path × Nat) :=
  w.filterMap (fun e => match e with
    | .writeFile f _ perm => some (f, perm)
    | _ => none)

/-- The arguments of the calls to `os.RemoveAll` so far. -/
def removals (w : World) : List Path :=
  w.filterMap (fun e => match e with
    | .removeAll p => some p
    | _ => none)

/-- The value of a decimal numeral continued from `acc`. -/
def digitsValue (acc : Nat) (l : List Char) : Nat :=
  l.foldl (fun a c => 10 * a + (c.toNat - 48)) acc

/-- The directory `MkdirAll` creates for the node named `name` (line 203). -/
def nodeConfigDir (outputDir name nodeDaemonHome : String) : Path :=
  [outputDir, name, nodeDaemonHome, "config"]

/-- The mnemonic file of the node named `name` (line 244). -/
def keySeedFile (outputDir name nodeDaemonHome : String) : Path :=
  [outputDir, name, nodeDaemonHome, "key_seed.json"]

/-- The gentx file of the node named `name` (line 290). -/
def gentxFile (outputDir name : String) : Path :=
  [outputDir, "gentxs", name ++ ".json"]

/-- The two logs show the same directories created, the same files written through
`writeFile` and the same removals. -/
def SameFiles (w w' : World) : Prop :=
  mkdirPaths w' = mkdirPaths w ∧ writes w' = writes w ∧ removals w' = removals w

/-- The run of `InitTestnet` in the toy environment with two validators, from an empty
log. -/
def demoRun : Except Err Unit × World :=
  InitTestnet demoEnv demoCmd demoNodeConfig "out" "testnet-1" "0.000006ustarx" "node"
    "starsd" "192.168.0.1" "test" "secp256k1" 2 []

/-- The run of `InitTestnet` in the toy environment with one validator and the unbonding
period `72x`, from an empty log. -/
def badPeriodRun : Except Err Unit × World :=
  InitTestnet demoEnv badPeriodCmd demoNodeConfig "out" "testnet-1" "0.000006ustarx" "node"
    "starsd" "192.168.0.1" "test" "secp256k1" 1 []

/-- The provisioning loop of that run. -/
def badPeriodLoop : Except Err LoopState × World :=
  provisionLoop demoEnv badPeriodCmd "out" "testnet-1" "node" "starsd" "test" "secp256k1"
    "ustarx" [{ Denom := "ustarx", Amount := 1000000000 }]
    (mkSimappConfig "0.000006ustarx" "testnet-1") 1 0 (initialLoopState demoNodeConfig 1) []

/-- The loop variables that loop ends with. -/
def badPeriodState : LoopState :=
  match badPeriodLoop.1 with
  | .ok st => st
  | .error _ => initialLoopState demoNodeConfig 1

/-- The template state composed in that run: the default genesis with the account and
the balance of node 0. -/
def badPeriodTemplate : AppMap :=
  (demoTemplate.set authModuleName
      (some (6 :: asciiBytes "stars1node0" ++ [10]))).set bankModuleName (some [7, 11])

/-- Node `name` fails to be provisioned from the log `w` with error `e` at one of the
three calls whose error branch calls `os.RemoveAll`: `os.MkdirAll` (line 203),
`genutil.InitializeNodeValidatorFiles` (line 210) or `server.GenerateSaveCoinKey`
(line 230); the calls before the failing one succeed. -/
def ProvisioningFailure (env : Env) (outputDir name nodeDaemonHome keyringBackend
    algoStr : String) (cfg : NodeConfig) (w : World) (e : Err) : Prop :=
  let nodeDir : Path := [outputDir, name, nodeDaemonHome]
  let nodeConfig : NodeConfig :=
    { RootDir := nodeDir, Moniker := name, RPCListenAddress := "tcp://0.0.0.0:26657",
      Genesis := cfg.Genesis }
  let kb : Keyring := { Backend := keyringBackend, RootDir := nodeDir }
  let w1 := w ++ [Event.mkdirAll (nodeConfigDir outputDir name nodeDaemonHome) nodeDirPerm]
  let w2 := w1 ++ [Event.initNodeValidatorFiles nodeDir]
  let w3 := w2 ++ [Event.keyringNew nodeDir]
  env.MkdirAll w (nodeConfigDir outputDir name nodeDaemonHome) nodeDirPerm = .error e
  ∨ (env.MkdirAll w (nodeConfigDir outputDir name nodeDaemonHome) nodeDirPerm = .ok ()
      ∧ env.InitializeNodeValidatorFiles w1 nodeConfig = .error e)
  ∨ (env.MkdirAll w (nodeConfigDir outputDir name nodeDaemonHome) nodeDirPerm = .ok ()
      ∧ ∃ nodeID valPubKey algo,
          env.InitializeNodeValidatorFiles w1 nodeConfig = .ok (nodeID, valPubKey)
          ∧ env.KeyringNew w2 keyringBackend nodeDir = .ok ()
          ∧ env.NewSigningAlgoFromString algoStr (env.SupportedAlgorithms kb) = .ok algo
          ∧ env.GenerateSaveCoinKey w3 kb name algo = .error e)

/-- The run of `InitTestnet` in the toy environment with one validator and the signing
algorithm `ed25519`, which the toy keyring does not support. -/
def unsupportedAlgoRun : Except Err Unit × World :=
  InitTestnet demoEnv demoCmd demoNodeConfig "out" "testnet-1" "0.000006ustarx" "node"
    "starsd" "192.168.0.1" "test" "ed25519" 1 []

/-- The run of `InitTestnet` with one validator in the toy environment whose replay
fails. -/
def failingReplayRun : Except Err Unit × World :=
  InitTestnet failingReplayEnv demoCmd demoNodeConfig "out" "testnet-1" "0.000006ustarx"
    "node" "starsd" "192.168.0.1" "test" "secp256k1" 1 []

/-- The toy environment in which the account key of `node1` cannot be saved. -/
def failingKeyEnv : Env :=
  { demoEnv with
    GenerateSaveCoinKey := fun w kb name algo =>
      if name = "node1" then .error (.ext "keyring: cannot save key")
      else demoEnv.GenerateSaveCoinKey w kb name algo }

/-- The provisioning of node 0 in that environment, for a run with two validators. -/
def failingKeyLoop : Except Err LoopState × World :=
  provisionLoop failingKeyEnv demoCmd "out" "testnet-1" "node" "starsd" "test" "secp256k1"
    "ustarx" [{ Denom := "ustarx", Amount := 1000000000 }]
    (mkSimappConfig "0.000006ustarx" "testnet-1") 1 0 (initialLoopState demoNodeConfig 2) []

/-- The loop variables after node 0 in that run. -/
def failingKeyState : LoopState :=
  match failingKeyLoop.1 with
  | .ok st => st
  | .error _ => initialLoopState demoNodeConfig 2

/-- Every file written through `writeFile` between the two logs was written with the
mode `perm`. -/
def NewWritesHaveMode (perm : Nat) (w w' : World) : Prop :=
  ∃ fs, writes w' = writes w ++ fs ∧ ∀ x ∈ fs, x.2 = perm

/-- The permission bits a file mode grants to the group and to other users. -/
def groupOtherBits (perm : Nat) : Nat := perm &&& 0o077

/-! ## The template application state and the clock -/

/-- Lines 336-370 of `initGenFiles`: the template application state, which is the result
of `initGenesis` on the composed default state. -/
def templateAppState (env : Env) (chainID stakeDenom unbondingPeriod : String)
    (genAccounts : List String) (genBalances : List Balance) : Except Err RawMessage :=
  match composeTemplate env genAccounts genBalances with
  | .error err => .error err
  | .ok appGenStateJSON =>
    initGenesis env.cdc env.lib
      { GenesisTime := zeroTime, ChainID := chainID, Validators := [],
        AppState := some appGenStateJSON } stakeDenom unbondingPeriod

/-- The same environment when `time.Now()` reads `t` at line 544: a run of the same
command, with the same collaborators, at another moment. -/
def Env.atTime (env : Env) (t : Time) : Env :=
  { env with lib := { env.lib with timeNow := t } }

/-- Whether a call returned without error. -/
def succeeded {α : Type} (r : Except Err α) : Bool :=
  match r with
  | .ok _ => true
  | .error _ => false

/-- Eight bytes of an instant, most significant first. -/
def timeBytes (t : Time) : Bytes :=
  (List.range 8).map (fun k => (t.toNat / 256 ^ (7 - k) % 256).toUInt8)

/-- The toy codec with a mint encoding that includes the start time. -/
def timedCdc : JSONCodec :=
  { demoCdc with
    MustMarshalMint := fun s =>
      .ok (4 :: asciiBytes s.Params.MintDenom ++ timeBytes s.Params.StartTime ++ s.Other) }

/-- The toy environment with that codec. -/
def timedEnv : Env := { demoEnv with cdc := timedCdc }

/-- The balance of node 0 in the toy runs. -/
def demoBalance : Balance :=
  { Address := "stars1node0", Coins := [{ Denom := "ustarx", Amount := 1000000000 }] }

/-! ## The descriptor template (`dockerComposeDefinition`, lines 451-464) -/

/-- A piece of the range body of the template: literal text, a field of the node of the
current iteration, or the tag of the data. -/
inductive TemplateItem where
  | text (s : String)
  | nodeName
  | outsidePortRange
  | insidePortRange
  | apiPort
  | grpcPort
  | tag
  deriving DecidableEq, Repr

/-- A template of the shape of the descriptor: text, one range over the nodes, text. -/
structure ComposeTemplate where
  before : String
  body : List TemplateItem
  after : String
  deriving DecidableEq, Repr

/-- The constant `dockerComposeDefinition` as written in the source, tabs included. -/
def dockerComposeDefinition : ComposeTemplate :=
  { before := "# Stargaze Testnet\nversion: '3.1'\nservices:"
    body :=
      [.text "\n\t", .nodeName,
       .text ":\n\t\timage: publicawesome/stargaze:", .tag,
       .text "\n\t\trestart: always\n\t\tports:\n\t\t\t- ", .outsidePortRange,
       .text ":", .insidePortRange,
       .text "\n\t\t\t- ", .apiPort,
       .text ":1317\n\t\t\t- ", .grpcPort,
       .text ":9090\n\t\tvolumes:\n\t\t\t- ./", .nodeName,
       .text "/starsd:/data/.starsd/\n"]
    after := "\n" }

/-- The call `strings.ReplaceAll(s, "\t", "  ")` of line 467. -/
def replaceTabs (s : String) : String :=
  String.mk (s.data.flatMap (fun c => if c = Char.ofNat 9 then [' ', ' '] else [c]))

/-- Line 467 on the template: the tabs of its text are replaced, its actions hold none. -/
def ComposeTemplate.replaceTabs (t : ComposeTemplate) : ComposeTemplate :=
  { before := Stargaze.replaceTabs t.before
    body := t.body.map (fun item =>
      match item with
      | .text s => .text (Stargaze.replaceTabs s)
      | other => other)
    after := Stargaze.replaceTabs t.after }

/-- What one piece of the range body writes for a node. -/
def renderItem (node : TestnetNode) (tag : String) : TemplateItem → String
  | .text s => s
  | .nodeName => node.Name
  | .outsidePortRange => node.OutsidePortRange
  | .insidePortRange => node.InsidePortRange
  | .apiPort => node.APIPort
  | .grpcPort => node.GRPCPort
  | .tag => tag

/-- The execution of the template (line 478) on the data of lines 472-475. -/
def executeTemplate (t : ComposeTemplate) (nodes : List TestnetNode) (tag : String) :
    String :=
  t.before
    ++ String.join (nodes.map (fun node => String.join (t.body.map (renderItem node tag))))
    ++ t.after

/-- The node list `InitTestnet` builds for `n` validators with the directory prefix
`nodeDirPrefix` (lines 183-198). -/
def nodesFor (nodeDirPrefix : String) (n : Nat) : List TestnetNode :=
  (List.range n).map (fun i => mkTestnetNode (nodeDirName nodeDirPrefix i) (initialPortAt i))

/-! ## The hub snapshot (`cmd/starsd/cmd/hub.go`) -/

/-- HubSnapshotAccount provide fields of snapshot per account (hub.go, line 24). -/
structure HubSnapshotAccount where
  AtomAddress : String
  AtomStaker : Bool
  StargazeDelegator : Bool
  deriving DecidableEq, Repr

/-- The function `isIn` (hub.go, lines 30-37). -/
def isIn (s : String) : List String → Bool
  | [] => false
  | t :: ss => if t = s then true else isIn s ss

/-- The type `sdk.Dec`, a fixed-point decimal with 18 places: the integer number of
units of `10 ^ (-18)`. -/
abbrev Dec := Int

/-- The constructor `sdk.NewDec(n)`. -/
def NewDec (n : Int) : Dec := n * 10 ^ 18

/-- A `stakingtypes.Validator`, with the fields the conversion of shares reads. -/
structure Validator where
  OperatorAddress : String
  Tokens : Int
  DelegatorShares : Dec
  deriving DecidableEq, Repr

/-- A `stakingtypes.Delegation`. -/
structure Delegation where
  DelegatorAddress : String
  ValidatorAddress : String
  Shares : Dec
  deriving DecidableEq, Repr

/-- The decimal routines of the SDK the aggregation calls.  Each of them panics when its
result is not representable (or on a division by zero): that is the `error` case.
`Fits` tells whether a sum is representable, `Dec.Add` panics when it is not. -/
structure DecLib where
  TokensFromShares : Validator → Dec → Except Err Dec
  Quo : Dec → Dec → Except Err Dec
  Fits : Dec → Bool

/-- The method `Dec.Add`. -/
def DecLib.Add (lib : DecLib) (a b : Dec) : Except Err Dec :=
  if lib.Fits (a + b) then .ok (a + b) else .error (.panic (.ext "Int overflow"))

/-- A Go map with string keys, kept as an association list. -/
abbrev GoMap (α : Type) := List (String × α)

/-- The read `v, ok := m[k]`. -/
def GoMap.find {α : Type} : GoMap α → String → Option α
  | [], _ => none
  | (k', v) :: rest, k => if k' = k then some v else GoMap.find rest k

/-- The write `m[k] = v`. -/
def GoMap.insert {α : Type} : GoMap α → String → α → GoMap α
  | [], k, v => [(k, v)]
  | (k', v') :: rest, k, v =>
    if k' = k then (k, v) :: rest else (k', v') :: GoMap.insert rest k v

/-- The operator address compared with at line 126 of hub.go. -/
def stargazeValidator : String := "cosmosvaloper1et77usu8q2hargvyusl4qzryev8x8t9wwqkxfs"

/-- The variables the delegation loop updates (hub.go, lines 68 and 89-91). -/
structure SnapshotState where
  amounts : GoMap Dec
  snapshotAccs : GoMap HubSnapshotAccount
  stakers : Int
  delegators : Int
  deriving DecidableEq, Repr

/-- Lines 84-88 of hub.go: the map from operator address to validator. -/
def validatorMap (validators : List Validator) : GoMap Validator :=
  validators.foldl (fun m validator => m.insert validator.OperatorAddress validator) []

/-- Lines 93-133 of hub.go: the body of the delegation loop. -/
def snapshotStep (lib : DecLib) (validators : GoMap Validator) (exchanges : List String)
    (st : SnapshotState) (delegation : Delegation) : Except Err SnapshotState :=
  if isIn delegation.ValidatorAddress exchanges then .ok st
  else
    match validators.find delegation.ValidatorAddress with
    | none => .error (.panic (.ext "missing validator"))
    | some val =>
      let address := delegation.DelegatorAddress
      match lib.TokensFromShares val delegation.Shares with
      | .error err => .error (.panic err)
      | .ok tokens =>
        match lib.Quo tokens (NewDec 1000000) with
        | .error err => .error (.panic err)
        | .ok delegationAmount =>
          let current : Dec :=
            match st.amounts.find address with
            | some current => current
            | none => 0
          match lib.Add current delegationAmount with
          | .error err => .error err
          | .ok newAmount =>
            let amounts := st.amounts.insert address newAmount
            let acc : HubSnapshotAccount :=
              match st.snapshotAccs.find address with
              | some acc => acc
              | none => { AtomAddress := address, AtomStaker := false,
                          StargazeDelegator := false }
            -- MIN 5ATOM
            let staker : Bool := decide (NewDec 5 ≤ newAmount)
            let acc : HubSnapshotAccount := if staker then { acc with AtomStaker := true } else acc
            let stakers := if staker then wrapInt (st.stakers + 1) else st.stakers
            let stargazer : Bool :=
              decide (delegation.ValidatorAddress = stargazeValidator)
                && decide (NewDec 5 ≤ delegationAmount)
            let acc : HubSnapshotAccount :=
              if stargazer then { acc with StargazeDelegator := true } else acc
            let delegators := if stargazer then wrapInt (st.delegators + 1) else st.delegators
            let snapshotAccs :=
              if stargazer || staker then st.snapshotAccs.insert address acc
              else st.snapshotAccs
            .ok { amounts := amounts, snapshotAccs := snapshotAccs, stakers := stakers,
                  delegators := delegators }

/-- Line 92 of hub.go: `for _, delegation := range stakingGenState.Delegations`. -/
def snapshotLoop (lib : DecLib) (validators : GoMap Validator) (exchanges : List String) :
    SnapshotState → List Delegation → Except Err SnapshotState
  | st, [] => .ok st
  | st, delegation :: rest =>
    match snapshotStep lib validators exchanges st delegation with
    | .error err => .error err
    | .ok st => snapshotLoop lib validators exchanges st rest

/-- Lines 68 and 84-134 of hub.go: the aggregation of the delegations of an exported
staking state, from empty maps and zero counters. -/
def hubSnapshot (lib : DecLib) (validators : List Validator) (delegations : List Delegation)
    (exchanges : List String) : Except Err SnapshotState :=
  snapshotLoop lib (validatorMap validators) exchanges
    { amounts := [], snapshotAccs := [], stakers := 0, delegators := 0 } delegations

/-- The converted amount of a delegation (line 103 of hub.go), zero when it cannot be
computed. -/
def convertedAmount (lib : DecLib) (validators : GoMap Validator) (delegation : Delegation) :
    Dec :=
  match validators.find delegation.ValidatorAddress with
  | none => 0
  | some val =>
    match lib.TokensFromShares val delegation.Shares with
    | .error _ => 0
    | .ok tokens =>
      match lib.Quo tokens (NewDec 1000000) with
      | .error _ => 0
      | .ok delegationAmount => delegationAmount

/-- The sum the snapshot is specified by: the converted amounts of the delegations of
`address` to validators that are not members of the exclusion list.  It is written with
list membership, not with the function `isIn` of the code. -/
def stakedTotal (lib : DecLib) (validators : GoMap Validator) (exchanges : List String)
    (address : String) : List Delegation → Dec
  | [] => 0
  | delegation :: rest =>
    (if delegation.ValidatorAddress ∉ exchanges ∧ delegation.DelegatorAddress = address
      then convertedAmount lib validators delegation else 0)
    + stakedTotal lib validators exchanges address rest

/-- A toy decimal library: one token per share, exact division, no overflow. -/
def demoDecLib : DecLib where
  TokensFromShares _ shares := .ok shares
  Quo a b := if b = 0 then .error (.ext "division by zero") else .ok (a * 10 ^ 18 / b)
  Fits _ := true

/-- Four validators: an ordinary one, two exchanges and the stargaze validator. -/
def demoValidators : List Validator :=
  [{ OperatorAddress := "valoper1", Tokens := 100, DelegatorShares := NewDec 100 },
   { OperatorAddress := "exchange1", Tokens := 100, DelegatorShares := NewDec 100 },
   { OperatorAddress := "exchange2", Tokens := 100, DelegatorShares := NewDec 100 },
   { OperatorAddress := stargazeValidator, Tokens := 100, DelegatorShares := NewDec 100 }]

/-- The exclusion list of the demonstration, with two exchanges. -/
def demoExchanges : List String := ["exchange1", "exchange2"]

/-- Delegations, in millionths: alice 3 and 3 to the ordinary validator, bob 4 to it,
carol 10 to the first exchange, erin 10 to the second exchange and 2 to the ordinary
validator, dave 7 to the stargaze validator. -/
def demoDelegations : List Delegation :=
  [{ DelegatorAddress := "alice", ValidatorAddress := "valoper1", Shares := NewDec 3000000 },
   { DelegatorAddress := "bob", ValidatorAddress := "valoper1", Shares := NewDec 4000000 },
   { DelegatorAddress := "carol", ValidatorAddress := "exchange1", Shares := NewDec 10000000 },
   { DelegatorAddress := "erin", ValidatorAddress := "exchange2", Shares := NewDec 10000000 },
   { DelegatorAddress := "alice", ValidatorAddress := "valoper1", Shares := NewDec 3000000 },
   { DelegatorAddress := "erin", ValidatorAddress := "valoper1", Shares := NewDec 2000000 },
   { DelegatorAddress := "dave", ValidatorAddress := stargazeValidator,
     Shares := NewDec 7000000 }]

/-- The state the aggregation of the toy delegations ends with. -/
def demoSnapshotState : SnapshotState :=
  match hubSnapshot demoDecLib demoValidators demoDelegations demoExchanges with
  | .ok st => st
  | .error _ => { amounts := [], snapshotAccs := [], stakers := 0, delegators := 0 }

/-- The invariant of the delegation loop with respect to the totals `T` accumulated so
far: the totals are non-negative, the map `amounts` holds them, an address is in the
snapshot exactly when its total has reached five, and every account of the snapshot is
flagged as staker under its own address. -/
def SnapshotInv (T : String → Dec) (st : SnapshotState) : Prop :=
  (∀ a, 0 ≤ T a)
  ∧ (∀ a, (st.amounts.find a).getD 0 = T a)
  ∧ (∀ a, (st.snapshotAccs.find a).isSome = true ↔ NewDec 5 ≤ T a)
  ∧ (∀ a acc, st.snapshotAccs.find a = some acc → acc.AtomStaker = true ∧ acc.AtomAddress = a)

/-! ## Theorems -/

set_option maxRecDepth 100000

theorem wrapInt_of_small (x : Int) (h0 : 0 ≤ x) (h1 : x < 2 ^ 63) : wrapInt x = x := by
  unfold wrapInt
  omega

theorem initialPortAt_eq (i : Nat) (h : (16 : Int) * i < 2 ^ 63) :
    initialPortAt i = 26656 + 5 * (i : Int) := by
  induction i with
  | zero => simp [initialPortAt, startPort]
  | succ k ih =>
    have hk : (16 : Int) * k < 2 ^ 63 := by push_cast at h; omega
    have e := ih hk
    simp only [initialPortAt, nextInitialPort, allocatedPorts, e]
    have e1 : wrapInt (26656 + 5 * (k : Int) + 4) = 26656 + 5 * (k : Int) + 4 :=
      wrapInt_of_small _ (by omega) (by omega)
    have e2 : wrapInt (26656 + 5 * (k : Int) + 4 + 1) = 26656 + 5 * (k : Int) + 4 + 1 :=
      wrapInt_of_small _ (by omega) (by omega)
    rw [e1, e2]
    push_cast
    ring

theorem hostPorts_initialPortAt (i : Nat) (h : (16 : Int) * i < 2 ^ 63) :
    hostPorts (initialPortAt i)
      = [26656 + 5 * (i : Int), 26656 + 5 * (i : Int) + 1, 26656 + 5 * (i : Int) + 2,
         26656 + 5 * (i : Int) + 3, 26656 + 5 * (i : Int) + 4] := by
  have e := initialPortAt_eq i h
  have e2 : wrapInt (26656 + 5 * (i : Int) + 2) = 26656 + 5 * (i : Int) + 2 :=
    wrapInt_of_small _ (by omega) (by omega)
  have e3 : wrapInt (26656 + 5 * (i : Int) + 3) = 26656 + 5 * (i : Int) + 3 :=
    wrapInt_of_small _ (by omega) (by omega)
  have e4 : wrapInt (26656 + 5 * (i : Int) + 4) = 26656 + 5 * (i : Int) + 4 :=
    wrapInt_of_small _ (by omega) (by omega)
  have hlen : (26656 + 5 * (i : Int) + 2 - (26656 + 5 * (i : Int)) + 1).toNat = 3 := by omega
  simp only [hostPorts, portRange, e, e2, e3, e4, hlen]
  simp [List.range_succ]

theorem makeSliceOk_bound (N : Int) (hN : makeSliceOk N = true) (i : Nat) (hi : (i : Int) < N) :
    (16 : Int) * i < 2 ^ 63 := by
  simp only [makeSliceOk, Bool.and_eq_true, decide_eq_true_eq] at hN
  omega

/-! ### The application-state map -/

theorem AppMap.get_set_same (m : AppMap) (k : String) (v : RawMessage) :
    (m.set k v).get k = v := by
  induction m with
  | nil => simp [AppMap.set, AppMap.get]
  | cons e rest ih =>
    obtain ⟨k', v'⟩ := e
    by_cases hk : k' = k
    · simp [AppMap.set, AppMap.get, hk]
    · simp [AppMap.set, AppMap.get, hk, ih]

theorem AppMap.get_set_ne (m : AppMap) (k k2 : String) (v : RawMessage) (hne : k ≠ k2) :
    (m.set k v).get k2 = m.get k2 := by
  induction m with
  | nil => simp [AppMap.set, AppMap.get, hne]
  | cons e rest ih =>
    obtain ⟨k', v'⟩ := e
    by_cases hk : k' = k
    · subst hk
      simp [AppMap.set, AppMap.get, hne]
    · by_cases hk2 : k' = k2
      · subst hk2
        simp [AppMap.set, AppMap.get, hk]
      · simp [AppMap.set, AppMap.get, hk, hk2, ih]

theorem AppMap.has_of_get (m : AppMap) (k : String) (bz : Bytes) (h : m.get k = some bz) :
    m.has k = true := by
  induction m with
  | nil => simp [AppMap.get] at h
  | cons e rest ih =>
    obtain ⟨k', v'⟩ := e
    by_cases hk : k' = k
    · simp [AppMap.has, hk]
    · simp only [AppMap.get, hk, if_false] at h
      simp [AppMap.has, hk, ih h]

theorem AppMap.keys_set_of_has (m : AppMap) (k : String) (v : RawMessage)
    (h : m.has k = true) : (m.set k v).map Prod.fst = m.map Prod.fst := by
  induction m with
  | nil => simp [AppMap.has] at h
  | cons e rest ih =>
    obtain ⟨k', v'⟩ := e
    by_cases hk : k' = k
    · simp [AppMap.set, hk]
    · simp only [AppMap.has, hk, if_false] at h
      simp [AppMap.set, hk, ih h]

theorem Overrides.keys {name : String} {m m' : AppMap} (h : Overrides name m m') :
    m'.map Prod.fst = m.map Prod.fst := by
  rcases h with ⟨_, rfl⟩ | ⟨bz, out, hg, rfl⟩
  · rfl
  · exact AppMap.keys_set_of_has m name _ (AppMap.has_of_get m name bz hg)

theorem Overrides.get_ne {name : String} {m m' : AppMap} (h : Overrides name m m')
    (k : String) (hne : name ≠ k) : m'.get k = m.get k := by
  rcases h with ⟨_, rfl⟩ | ⟨bz, out, _, rfl⟩
  · rfl
  · exact AppMap.get_set_ne m name k _ hne

theorem Overrides.get_none {name : String} {m m' : AppMap} (h : Overrides name m m')
    (k : String) (hk : m.get k = none) : m'.get k = none := by
  by_cases hne : name = k
  · subst hne
    rcases h with ⟨_, rfl⟩ | ⟨bz, out, hg, rfl⟩
    · exact hk
    · rw [hk] at hg; cases hg
  · rw [h.get_ne k hne]; exact hk

/-! ### The five override steps -/

theorem migrateStaking_ok {cdc : JSONCodec} {lib : Lib} {d up : String} {m m' : AppMap}
    (h : migrateStaking cdc lib d up m = .ok m') :
    (m.get stakingModuleName = none ∧ m' = m)
    ∨ ∃ bz st dur out, m.get stakingModuleName = some bz
        ∧ cdc.UnmarshalStaking bz = .ok st
        ∧ lib.ParseDuration up = .ok dur
        ∧ cdc.MustMarshalStaking
            { Params := { UnbondingTime := dur, BondDenom := d, Other := st.Params.Other },
              Other := st.Other } = .ok out
        ∧ m' = m.set stakingModuleName (some out) := by
  unfold migrateStaking at h
  split at h
  · left
    rename_i hg
    exact ⟨hg, by cases h; rfl⟩
  · rename_i bz hg
    split at h
    · cases h
    · rename_i st hst
      split at h
      · cases h
      · rename_i dur hdur
        dsimp only at h
        split at h
        · cases h
        · rename_i out hout
          right
          exact ⟨bz, st, dur, out, hg, hst, hdur, hout, by cases h; rfl⟩

theorem migrateCrisis_ok {cdc : JSONCodec} {d : String} {m m' : AppMap}
    (h : migrateCrisis cdc d m = .ok m') :
    (m.get crisisModuleName = none ∧ m' = m)
    ∨ ∃ bz st out, m.get crisisModuleName = some bz
        ∧ cdc.UnmarshalCrisis bz = .ok st
        ∧ cdc.MustMarshalCrisis
            { ConstantFee := { Denom := d, Amount := st.ConstantFee.Amount },
              Other := st.Other } = .ok out
        ∧ m' = m.set crisisModuleName (some out) := by
  unfold migrateCrisis at h
  split at h
  · left
    rename_i hg
    exact ⟨hg, by cases h; rfl⟩
  · rename_i bz hg
    split at h
    · cases h
    · rename_i st hst
      dsimp only at h
      split at h
      · cases h
      · rename_i out hout
        right
        exact ⟨bz, st, out, hg, hst, hout, by cases h; rfl⟩

theorem migrateGov_ok {cdc : JSONCodec} {lib : Lib} {d : String} {m m' : AppMap}
    (h : migrateGov cdc lib d m = .ok m') :
    (m.get govModuleName = none ∧ m' = m)
    ∨ ∃ bz st coins out, m.get govModuleName = some bz
        ∧ cdc.UnmarshalGov bz = .ok st
        ∧ lib.NewCoins [{ Denom := d, Amount := 10000000 }] = .ok coins
        ∧ cdc.MustMarshalGov
            { DepositParams := { MinDeposit := coins, Other := st.DepositParams.Other },
              Other := st.Other } = .ok out
        ∧ m' = m.set govModuleName (some out) := by
  unfold migrateGov at h
  split at h
  · left
    rename_i hg
    exact ⟨hg, by cases h; rfl⟩
  · rename_i bz hg
    split at h
    · cases h
    · rename_i st hst
      split at h
      · cases h
      · rename_i coin hcoin
        have hc : coin = { Denom := d, Amount := 10000000 } := by
          unfold Lib.NewCoin at hcoin
          split at hcoin
          · cases hcoin
          · cases hcoin; rfl
        subst hc
        split at h
        · cases h
        · rename_i coins hcoins
          dsimp only at h
          split at h
          · cases h
          · rename_i out hout
            right
            exact ⟨bz, st, coins, out, hg, hst, hcoins, hout, by cases h; rfl⟩

theorem migrateMint_ok {cdc : JSONCodec} {lib : Lib} {d : String} {m m' : AppMap}
    (h : migrateMint cdc lib d m = .ok m') :
    (m.get mintModuleName = none ∧ m' = m)
    ∨ ∃ bz st out, m.get mintModuleName = some bz
        ∧ cdc.UnmarshalMint bz = .ok st
        ∧ cdc.MustMarshalMint
            { Params := { MintDenom := d, StartTime := lib.timeNow, Other := st.Params.Other },
              Other := st.Other } = .ok out
        ∧ m' = m.set mintModuleName (some out) := by
  unfold migrateMint at h
  split at h
  · left
    rename_i hg
    exact ⟨hg, by cases h; rfl⟩
  · rename_i bz hg
    split at h
    · cases h
    · rename_i st hst
      dsimp only at h
      split at h
      · cases h
      · rename_i out hout
        right
        exact ⟨bz, st, out, hg, hst, hout, by cases h; rfl⟩

theorem migrateClaim_ok {cdc : JSONCodec} {lib : Lib} {d : String} {m m' : AppMap}
    (h : migrateClaim cdc lib d m = .ok m') :
    (m.get claimModuleName = none ∧ m' = m)
    ∨ ∃ bz st out, m.get claimModuleName = some bz
        ∧ cdc.UnmarshalClaim bz = .ok st
        ∧ cdc.MustMarshalClaim
            { ModuleAccountBalance := { Denom := d, Amount := st.ModuleAccountBalance.Amount },
              Params := { ClaimDenom := d, Other := st.Params.Other },
              Other := st.Other } = .ok out
        ∧ m' = m.set claimModuleName (some out) := by
  unfold migrateClaim at h
  split at h
  · left
    rename_i hg
    exact ⟨hg, by cases h; rfl⟩
  · rename_i bz hg
    split at h
    · cases h
    · rename_i st hst
      split at h
      · cases h
      · rename_i coin hcoin
        have hc : coin = { Denom := d, Amount := st.ModuleAccountBalance.Amount } := by
          unfold Lib.NewCoin at hcoin
          split at hcoin
          · cases hcoin
          · cases hcoin; rfl
        subst hc
        dsimp only at h
        split at h
        · cases h
        · rename_i out hout
          right
          exact ⟨bz, st, out, hg, hst, hout, by cases h; rfl⟩

theorem migrateStaking_overrides {cdc : JSONCodec} {lib : Lib} {d up : String}
    {m m' : AppMap} (h : migrateStaking cdc lib d up m = .ok m') :
    Overrides stakingModuleName m m' := by
  rcases migrateStaking_ok h with h0 | ⟨bz, _, _, out, hg, _, _, _, hm⟩
  · exact Or.inl h0
  · exact Or.inr ⟨bz, out, hg, hm⟩

theorem migrateCrisis_overrides {cdc : JSONCodec} {d : String} {m m' : AppMap}
    (h : migrateCrisis cdc d m = .ok m') : Overrides crisisModuleName m m' := by
  rcases migrateCrisis_ok h with h0 | ⟨bz, _, out, hg, _, _, hm⟩
  · exact Or.inl h0
  · exact Or.inr ⟨bz, out, hg, hm⟩

theorem migrateGov_overrides {cdc : JSONCodec} {lib : Lib} {d : String} {m m' : AppMap}
    (h : migrateGov cdc lib d m = .ok m') : Overrides govModuleName m m' := by
  rcases migrateGov_ok h with h0 | ⟨bz, _, _, out, hg, _, _, _, hm⟩
  · exact Or.inl h0
  · exact Or.inr ⟨bz, out, hg, hm⟩

theorem migrateMint_overrides {cdc : JSONCodec} {lib : Lib} {d : String} {m m' : AppMap}
    (h : migrateMint cdc lib d m = .ok m') : Overrides mintModuleName m m' := by
  rcases migrateMint_ok h with h0 | ⟨bz, _, out, hg, _, _, hm⟩
  · exact Or.inl h0
  · exact Or.inr ⟨bz, out, hg, hm⟩

theorem migrateClaim_overrides {cdc : JSONCodec} {lib : Lib} {d : String} {m m' : AppMap}
    (h : migrateClaim cdc lib d m = .ok m') : Overrides claimModuleName m m' := by
  rcases migrateClaim_ok h with h0 | ⟨bz, _, out, hg, _, _, hm⟩
  · exact Or.inl h0
  · exact Or.inr ⟨bz, out, hg, hm⟩

/-- A successful run of the five overrides decomposes into its five steps. -/
theorem migrateAppState_steps {cdc : JSONCodec} {lib : Lib} {d up : String} {m m5 : AppMap}
    (h : migrateAppState cdc lib d up m = .ok m5) :
    ∃ m1 m2 m3 m4, migrateStaking cdc lib d up m = .ok m1
      ∧ migrateCrisis cdc d m1 = .ok m2
      ∧ migrateGov cdc lib d m2 = .ok m3
      ∧ migrateMint cdc lib d m3 = .ok m4
      ∧ migrateClaim cdc lib d m4 = .ok m5 := by
  unfold migrateAppState at h
  split at h
  · cases h
  · rename_i m1 h1
    split at h
    · cases h
    · rename_i m2 h2
      split at h
      · cases h
      · rename_i m3 h3
        split at h
        · cases h
        · rename_i m4 h4
          exact ⟨m1, m2, m3, m4, h1, h2, h3, h4, h⟩

/-- The five overrides keep the key set of the map. -/
theorem migrateAppState_keys {cdc : JSONCodec} {lib : Lib} {d up : String} {m m5 : AppMap}
    (h : migrateAppState cdc lib d up m = .ok m5) : m5.map Prod.fst = m.map Prod.fst := by
  obtain ⟨m1, m2, m3, m4, h1, h2, h3, h4, h5⟩ := migrateAppState_steps h
  rw [(migrateClaim_overrides h5).keys, (migrateMint_overrides h4).keys,
    (migrateGov_overrides h3).keys, (migrateCrisis_overrides h2).keys,
    (migrateStaking_overrides h1).keys]

/-- The five overrides leave the entry of every other module alone. -/
theorem migrateAppState_frame {cdc : JSONCodec} {lib : Lib} {d up : String} {m m5 : AppMap}
    (h : migrateAppState cdc lib d up m = .ok m5) (k : String)
    (hk : k ∉ overriddenModules) : m5.get k = m.get k := by
  obtain ⟨m1, m2, m3, m4, h1, h2, h3, h4, h5⟩ := migrateAppState_steps h
  simp only [overriddenModules, List.mem_cons, List.mem_singleton, List.not_mem_nil,
    or_false, not_or] at hk
  obtain ⟨k1, k2, k3, k4, k5⟩ := hk
  rw [(migrateClaim_overrides h5).get_ne k (Ne.symm k5),
    (migrateMint_overrides h4).get_ne k (Ne.symm k4),
    (migrateGov_overrides h3).get_ne k (Ne.symm k3),
    (migrateCrisis_overrides h2).get_ne k (Ne.symm k2),
    (migrateStaking_overrides h1).get_ne k (Ne.symm k1)]

/-- The five overrides never give a value to a key that had none. -/
theorem migrateAppState_get_none {cdc : JSONCodec} {lib : Lib} {d up : String}
    {m m5 : AppMap} (h : migrateAppState cdc lib d up m = .ok m5) (k : String)
    (hk : m.get k = none) : m5.get k = none := by
  obtain ⟨m1, m2, m3, m4, h1, h2, h3, h4, h5⟩ := migrateAppState_steps h
  exact (migrateClaim_overrides h5).get_none k
    ((migrateMint_overrides h4).get_none k
      ((migrateGov_overrides h3).get_none k
        ((migrateCrisis_overrides h2).get_none k
          ((migrateStaking_overrides h1).get_none k hk))))

/-- What the run leaves under the staking key when the module was present. -/
theorem migrateAppState_staking {cdc : JSONCodec} {lib : Lib} {d up : String}
    {m m5 : AppMap} (h : migrateAppState cdc lib d up m = .ok m5)
    {bz : Bytes} (hg : m.get stakingModuleName = some bz) :
    ∃ st dur out, cdc.UnmarshalStaking bz = .ok st
      ∧ lib.ParseDuration up = .ok dur
      ∧ cdc.MustMarshalStaking
          { Params := { UnbondingTime := dur, BondDenom := d, Other := st.Params.Other },
            Other := st.Other } = .ok out
      ∧ m5.get stakingModuleName = some out := by
  obtain ⟨m1, m2, m3, m4, h1, h2, h3, h4, h5⟩ := migrateAppState_steps h
  rcases migrateStaking_ok h1 with ⟨h0, _⟩ | ⟨bz', st, dur, out, hg', hst, hdur, hout, hm⟩
  · rw [hg] at h0; cases h0
  · rw [hg] at hg'; cases hg'
    refine ⟨st, dur, out, hst, hdur, hout, ?_⟩
    rw [(migrateClaim_overrides h5).get_ne _ (by decide),
      (migrateMint_overrides h4).get_ne _ (by decide),
      (migrateGov_overrides h3).get_ne _ (by decide),
      (migrateCrisis_overrides h2).get_ne _ (by decide), hm]
    exact AppMap.get_set_same _ _ _

/-- What the run leaves under the crisis key when the module was present. -/
theorem migrateAppState_crisis {cdc : JSONCodec} {lib : Lib} {d up : String}
    {m m5 : AppMap} (h : migrateAppState cdc lib d up m = .ok m5)
    {bz : Bytes} (hg : m.get crisisModuleName = some bz) :
    ∃ st out, cdc.UnmarshalCrisis bz = .ok st
      ∧ cdc.MustMarshalCrisis
          { ConstantFee := { Denom := d, Amount := st.ConstantFee.Amount },
            Other := st.Other } = .ok out
      ∧ m5.get crisisModuleName = some out := by
  obtain ⟨m1, m2, m3, m4, h1, h2, h3, h4, h5⟩ := migrateAppState_steps h
  have hg1 : m1.get crisisModuleName = some bz := by
    rw [(migrateStaking_overrides h1).get_ne _ (by decide)]; exact hg
  rcases migrateCrisis_ok h2 with ⟨h0, _⟩ | ⟨bz', st, out, hg', hst, hout, hm⟩
  · rw [hg1] at h0; cases h0
  · rw [hg1] at hg'; cases hg'
    refine ⟨st, out, hst, hout, ?_⟩
    rw [(migrateClaim_overrides h5).get_ne _ (by decide),
      (migrateMint_overrides h4).get_ne _ (by decide),
      (migrateGov_overrides h3).get_ne _ (by decide), hm]
    exact AppMap.get_set_same _ _ _

/-- What the run leaves under the mint key when the module was present. -/
theorem migrateAppState_mint {cdc : JSONCodec} {lib : Lib} {d up : String}
    {m m5 : AppMap} (h : migrateAppState cdc lib d up m = .ok m5)
    {bz : Bytes} (hg : m.get mintModuleName = some bz) :
    ∃ st out, cdc.UnmarshalMint bz = .ok st
      ∧ cdc.MustMarshalMint
          { Params := { MintDenom := d, StartTime := lib.timeNow, Other := st.Params.Other },
            Other := st.Other } = .ok out
      ∧ m5.get mintModuleName = some out := by
  obtain ⟨m1, m2, m3, m4, h1, h2, h3, h4, h5⟩ := migrateAppState_steps h
  have hg3 : m3.get mintModuleName = some bz := by
    rw [(migrateGov_overrides h3).get_ne _ (by decide),
      (migrateCrisis_overrides h2).get_ne _ (by decide),
      (migrateStaking_overrides h1).get_ne _ (by decide)]
    exact hg
  rcases migrateMint_ok h4 with ⟨h0, _⟩ | ⟨bz', st, out, hg', hst, hout, hm⟩
  · rw [hg3] at h0; cases h0
  · rw [hg3] at hg'; cases hg'
    refine ⟨st, out, hst, hout, ?_⟩
    rw [(migrateClaim_overrides h5).get_ne _ (by decide), hm]
    exact AppMap.get_set_same _ _ _

/-- What the run leaves under the claim key when the module was present. -/
theorem migrateAppState_claim {cdc : JSONCodec} {lib : Lib} {d up : String}
    {m m5 : AppMap} (h : migrateAppState cdc lib d up m = .ok m5)
    {bz : Bytes} (hg : m.get claimModuleName = some bz) :
    ∃ st out, cdc.UnmarshalClaim bz = .ok st
      ∧ cdc.MustMarshalClaim
          { ModuleAccountBalance := { Denom := d, Amount := st.ModuleAccountBalance.Amount },
            Params := { ClaimDenom := d, Other := st.Params.Other },
            Other := st.Other } = .ok out
      ∧ m5.get claimModuleName = some out := by
  obtain ⟨m1, m2, m3, m4, h1, h2, h3, h4, h5⟩ := migrateAppState_steps h
  have hg4 : m4.get claimModuleName = some bz := by
    rw [(migrateMint_overrides h4).get_ne _ (by decide),
      (migrateGov_overrides h3).get_ne _ (by decide),
      (migrateCrisis_overrides h2).get_ne _ (by decide),
      (migrateStaking_overrides h1).get_ne _ (by decide)]
    exact hg
  rcases migrateClaim_ok h5 with ⟨h0, _⟩ | ⟨bz', st, out, hg', hst, hout, hm⟩
  · rw [hg4] at h0; cases h0
  · rw [hg4] at hg'; cases hg'
    refine ⟨st, out, hst, hout, ?_⟩
    rw [hm]
    exact AppMap.get_set_same _ _ _

/-- A successful `initGenesis` is a successful unmarshal, run of overrides and marshal. -/
theorem initGenesis_ok {cdc : JSONCodec} {lib : Lib} {genDoc : GenesisDoc} {d up : String}
    {out : RawMessage} (h : initGenesis cdc lib genDoc d up = .ok out) :
    ∃ m m5 bz, lib.jsonUnmarshal genDoc.AppState = .ok m
      ∧ migrateAppState cdc lib d up m = .ok m5
      ∧ lib.jsonMarshal m5 = .ok bz ∧ out = some bz := by
  unfold initGenesis at h
  split at h
  · cases h
  · rename_i m hm
    split at h
    · cases h
    · rename_i m5 h5
      split at h
      · cases h
      · rename_i bz hbz
        exact ⟨m, m5, bz, hm, h5, hbz, by cases h; rfl⟩

/-! ### When the overrides return -/

theorem migrateStaking_succeeds {cdc : JSONCodec} {lib : Lib} {d up : String} {m : AppMap}
    (hdec : ∀ bz, m.get stakingModuleName = some bz → ∃ s, cdc.UnmarshalStaking bz = .ok s)
    (hparse : m.get stakingModuleName ≠ none → ∃ dur, lib.ParseDuration up = .ok dur)
    (hmar : ∀ s, ∃ b, cdc.MustMarshalStaking s = .ok b) :
    ∃ m', migrateStaking cdc lib d up m = .ok m' := by
  cases hg : m.get stakingModuleName with
  | none => exact ⟨m, by simp [migrateStaking, hg]⟩
  | some bz =>
    obtain ⟨st, hst⟩ := hdec bz hg
    obtain ⟨dur, hdur⟩ := hparse (by rw [hg]; simp)
    obtain ⟨b, hb⟩ := hmar
      { Params := { UnbondingTime := dur, BondDenom := d, Other := st.Params.Other },
        Other := st.Other }
    exact ⟨m.set stakingModuleName (some b), by simp [migrateStaking, hg, hst, hdur, hb]⟩

theorem migrateCrisis_succeeds {cdc : JSONCodec} {d : String} {m : AppMap}
    (hdec : ∀ bz, m.get crisisModuleName = some bz → ∃ s, cdc.UnmarshalCrisis bz = .ok s)
    (hmar : ∀ s, ∃ b, cdc.MustMarshalCrisis s = .ok b) :
    ∃ m', migrateCrisis cdc d m = .ok m' := by
  cases hg : m.get crisisModuleName with
  | none => exact ⟨m, by simp [migrateCrisis, hg]⟩
  | some bz =>
    obtain ⟨st, hst⟩ := hdec bz hg
    obtain ⟨b, hb⟩ := hmar
      { ConstantFee := { Denom := d, Amount := st.ConstantFee.Amount }, Other := st.Other }
    exact ⟨m.set crisisModuleName (some b), by simp [migrateCrisis, hg, hst, hb]⟩

theorem migrateGov_succeeds {cdc : JSONCodec} {lib : Lib} {d : String} {m : AppMap}
    (hdec : ∀ bz, m.get govModuleName = some bz → ∃ s, cdc.UnmarshalGov bz = .ok s)
    (hlib : lib.AcceptsDenom d)
    (hmar : ∀ s, ∃ b, cdc.MustMarshalGov s = .ok b) :
    ∃ m', migrateGov cdc lib d m = .ok m' := by
  cases hg : m.get govModuleName with
  | none => exact ⟨m, by simp [migrateGov, hg]⟩
  | some bz =>
    obtain ⟨st, hst⟩ := hdec bz hg
    obtain ⟨coins, hcoins⟩ := hlib.2.1 [{ Denom := d, Amount := 10000000 }]
    obtain ⟨b, hb⟩ := hmar
      { DepositParams := { MinDeposit := coins, Other := st.DepositParams.Other },
        Other := st.Other }
    exact ⟨m.set govModuleName (some b), by simp [migrateGov, Lib.NewCoin, hg, hst, hlib.1, hcoins, hb]⟩

theorem migrateMint_succeeds {cdc : JSONCodec} {lib : Lib} {d : String} {m : AppMap}
    (hdec : ∀ bz, m.get mintModuleName = some bz → ∃ s, cdc.UnmarshalMint bz = .ok s)
    (hmar : ∀ s, ∃ b, cdc.MustMarshalMint s = .ok b) :
    ∃ m', migrateMint cdc lib d m = .ok m' := by
  cases hg : m.get mintModuleName with
  | none => exact ⟨m, by simp [migrateMint, hg]⟩
  | some bz =>
    obtain ⟨st, hst⟩ := hdec bz hg
    obtain ⟨b, hb⟩ := hmar
      { Params := { MintDenom := d, StartTime := lib.timeNow, Other := st.Params.Other },
        Other := st.Other }
    exact ⟨m.set mintModuleName (some b), by simp [migrateMint, hg, hst, hb]⟩

theorem migrateClaim_succeeds {cdc : JSONCodec} {lib : Lib} {d : String} {m : AppMap}
    (hdec : ∀ bz, m.get claimModuleName = some bz → ∃ s, cdc.UnmarshalClaim bz = .ok s)
    (hlib : lib.AcceptsDenom d)
    (hmar : ∀ s, ∃ b, cdc.MustMarshalClaim s = .ok b) :
    ∃ m', migrateClaim cdc lib d m = .ok m' := by
  cases hg : m.get claimModuleName with
  | none => exact ⟨m, by simp [migrateClaim, hg]⟩
  | some bz =>
    obtain ⟨st, hst⟩ := hdec bz hg
    obtain ⟨b, hb⟩ := hmar
      { ModuleAccountBalance := { Denom := d, Amount := st.ModuleAccountBalance.Amount },
        Params := { ClaimDenom := d, Other := st.Params.Other },
        Other := st.Other }
    exact ⟨m.set claimModuleName (some b), by simp [migrateClaim, Lib.NewCoin, hg, hst, hlib.1, hb]⟩

/-- The five overrides return a map when every module is absent or decodable, the
duration parses if the staking module is present, and no callee panics. -/
theorem migrateAppState_succeeds {cdc : JSONCodec} {lib : Lib} {d up : String} {m : AppMap}
    (hdec : cdc.DecodesPresent m)
    (hparse : m.get stakingModuleName ≠ none → ∃ dur, lib.ParseDuration up = .ok dur)
    (hmar : cdc.MarshalsAll) (hlib : lib.AcceptsDenom d) :
    ∃ m5, migrateAppState cdc lib d up m = .ok m5 := by
  obtain ⟨d1, d2, d3, d4, d5⟩ := hdec
  obtain ⟨a1, a2, a3, a4, a5⟩ := hmar
  obtain ⟨m1, h1⟩ := @migrateStaking_succeeds cdc lib d up m d1 hparse a1
  have o1 := migrateStaking_overrides h1
  obtain ⟨m2, h2⟩ := @migrateCrisis_succeeds cdc d m1
    (by rw [o1.get_ne _ (by decide)]; exact d2) a2
  have o2 := migrateCrisis_overrides h2
  obtain ⟨m3, h3⟩ := @migrateGov_succeeds cdc lib d m2
    (by rw [o2.get_ne _ (by decide), o1.get_ne _ (by decide)]; exact d3) hlib a3
  have o3 := migrateGov_overrides h3
  obtain ⟨m4, h4⟩ := @migrateMint_succeeds cdc lib d m3
    (by rw [o3.get_ne _ (by decide), o2.get_ne _ (by decide), o1.get_ne _ (by decide)]
        exact d4) a4
  have o4 := migrateMint_overrides h4
  obtain ⟨m5, h5⟩ := @migrateClaim_succeeds cdc lib d m4
    (by rw [o4.get_ne _ (by decide), o3.get_ne _ (by decide), o2.get_ne _ (by decide),
          o1.get_ne _ (by decide)]
        exact d5) hlib a5
  exact ⟨m5, by simp [migrateAppState, h1, h2, h3, h4, h5]⟩

/-- With a decoded input map, `initGenesis` returns under the same conditions. -/
theorem initGenesis_succeeds {cdc : JSONCodec} {lib : Lib} {genDoc : GenesisDoc}
    {d up : String} {m : AppMap} (hm : lib.jsonUnmarshal genDoc.AppState = .ok m)
    (hdec : cdc.DecodesPresent m)
    (hparse : m.get stakingModuleName ≠ none → ∃ dur, lib.ParseDuration up = .ok dur)
    (hmar : cdc.MarshalsAll) (hlib : lib.AcceptsDenom d) :
    ∃ bz, initGenesis cdc lib genDoc d up = .ok (some bz) := by
  obtain ⟨m5, h5⟩ := @migrateAppState_succeeds cdc lib d up m hdec hparse hmar hlib
  obtain ⟨bz, hbz⟩ := hlib.2.2 m5
  exact ⟨bz, by simp [initGenesis, hm, h5, hbz]⟩

/-- What the run leaves under the governance key when the module was present. -/
theorem migrateAppState_gov {cdc : JSONCodec} {lib : Lib} {d up : String}
    {m m5 : AppMap} (h : migrateAppState cdc lib d up m = .ok m5)
    {bz : Bytes} (hg : m.get govModuleName = some bz) :
    ∃ st coins out, cdc.UnmarshalGov bz = .ok st
      ∧ lib.NewCoins [{ Denom := d, Amount := 10000000 }] = .ok coins
      ∧ cdc.MustMarshalGov
          { DepositParams := { MinDeposit := coins, Other := st.DepositParams.Other },
            Other := st.Other } = .ok out
      ∧ m5.get govModuleName = some out := by
  obtain ⟨m1, m2, m3, m4, h1, h2, h3, h4, h5⟩ := migrateAppState_steps h
  have hg2 : m2.get govModuleName = some bz := by
    rw [(migrateCrisis_overrides h2).get_ne _ (by decide),
      (migrateStaking_overrides h1).get_ne _ (by decide)]
    exact hg
  rcases migrateGov_ok h3 with ⟨h0, _⟩ | ⟨bz', st, coins, out, hg', hst, hcoins, hout, hm⟩
  · rw [hg2] at h0; cases h0
  · rw [hg2] at hg'; cases hg'
    refine ⟨st, coins, out, hst, hcoins, hout, ?_⟩
    rw [(migrateClaim_overrides h5).get_ne _ (by decide),
      (migrateMint_overrides h4).get_ne _ (by decide), hm]
    exact AppMap.get_set_same _ _ _

/-- The constructor `sdk.NewCoin` returns exactly when the coin validates. -/
theorem newCoin_ok {lib : Lib} {d : String} {a : Int} {c : Coin}
    (h : lib.NewCoin d a = .ok c) : lib.ValidateCoin { Denom := d, Amount := a } = .ok () := by
  unfold Lib.NewCoin at h
  split at h
  · cases h
  · rename_i u hu
    cases u
    exact hu

/-- A governance step that returns on a present module has validated its coin. -/
theorem migrateGov_validates {cdc : JSONCodec} {lib : Lib} {d : String} {m m' : AppMap}
    (h : migrateGov cdc lib d m = .ok m') {bz : Bytes} (hg : m.get govModuleName = some bz) :
    lib.ValidateCoin { Denom := d, Amount := 10000000 } = .ok () := by
  unfold migrateGov at h
  rw [hg] at h
  dsimp only at h
  split at h
  · cases h
  · split at h
    · cases h
    · rename_i coin hcoin
      exact newCoin_ok hcoin

/-- A claim step that returns on a present module has validated the stored amount in the
new denom. -/
theorem migrateClaim_validates {cdc : JSONCodec} {lib : Lib} {d : String} {m m' : AppMap}
    (h : migrateClaim cdc lib d m = .ok m') {bz : Bytes}
    (hg : m.get claimModuleName = some bz) :
    ∃ st, cdc.UnmarshalClaim bz = .ok st
      ∧ lib.ValidateCoin { Denom := d, Amount := st.ModuleAccountBalance.Amount } = .ok () := by
  unfold migrateClaim at h
  rw [hg] at h
  dsimp only at h
  split at h
  · cases h
  · rename_i st hst
    split at h
    · cases h
    · rename_i coin hcoin
      exact ⟨st, hst, newCoin_ok hcoin⟩

/-! ### Exactly when the overrides return -/

theorem migrateStaking_returns {cdc : JSONCodec} {lib : Lib} {d up : String} {m : AppMap}
    (hc : ∀ bz, m.get stakingModuleName = some bz →
      ∃ st dur out, cdc.UnmarshalStaking bz = .ok st
        ∧ lib.ParseDuration up = .ok dur
        ∧ cdc.MustMarshalStaking
            { Params := { UnbondingTime := dur, BondDenom := d, Other := st.Params.Other },
              Other := st.Other } = .ok out) :
    ∃ m', migrateStaking cdc lib d up m = .ok m' := by
  cases hg : m.get stakingModuleName with
  | none => exact ⟨m, by simp [migrateStaking, hg]⟩
  | some bz =>
    obtain ⟨st, dur, out, hst, hdur, hout⟩ := hc bz hg
    exact ⟨m.set stakingModuleName (some out), by simp [migrateStaking, hg, hst, hdur, hout]⟩

theorem migrateCrisis_returns {cdc : JSONCodec} {d : String} {m : AppMap}
    (hc : ∀ bz, m.get crisisModuleName = some bz →
      ∃ st out, cdc.UnmarshalCrisis bz = .ok st
        ∧ cdc.MustMarshalCrisis
            { ConstantFee := { Denom := d, Amount := st.ConstantFee.Amount },
              Other := st.Other } = .ok out) :
    ∃ m', migrateCrisis cdc d m = .ok m' := by
  cases hg : m.get crisisModuleName with
  | none => exact ⟨m, by simp [migrateCrisis, hg]⟩
  | some bz =>
    obtain ⟨st, out, hst, hout⟩ := hc bz hg
    exact ⟨m.set crisisModuleName (some out), by simp [migrateCrisis, hg, hst, hout]⟩

theorem migrateGov_returns {cdc : JSONCodec} {lib : Lib} {d : String} {m : AppMap}
    (hc : ∀ bz, m.get govModuleName = some bz →
      ∃ st coins out, cdc.UnmarshalGov bz = .ok st
        ∧ lib.ValidateCoin { Denom := d, Amount := 10000000 } = .ok ()
        ∧ lib.NewCoins [{ Denom := d, Amount := 10000000 }] = .ok coins
        ∧ cdc.MustMarshalGov
            { DepositParams := { MinDeposit := coins, Other := st.DepositParams.Other },
              Other := st.Other } = .ok out) :
    ∃ m', migrateGov cdc lib d m = .ok m' := by
  cases hg : m.get govModuleName with
  | none => exact ⟨m, by simp [migrateGov, hg]⟩
  | some bz =>
    obtain ⟨st, coins, out, hst, hval, hcoins, hout⟩ := hc bz hg
    exact ⟨m.set govModuleName (some out),
      by simp [migrateGov, Lib.NewCoin, hg, hst, hval, hcoins, hout]⟩

theorem migrateMint_returns {cdc : JSONCodec} {lib : Lib} {d : String} {m : AppMap}
    (hc : ∀ bz, m.get mintModuleName = some bz →
      ∃ st out, cdc.UnmarshalMint bz = .ok st
        ∧ cdc.MustMarshalMint
            { Params := { MintDenom := d, StartTime := lib.timeNow, Other := st.Params.Other },
              Other := st.Other } = .ok out) :
    ∃ m', migrateMint cdc lib d m = .ok m' := by
  cases hg : m.get mintModuleName with
  | none => exact ⟨m, by simp [migrateMint, hg]⟩
  | some bz =>
    obtain ⟨st, out, hst, hout⟩ := hc bz hg
    exact ⟨m.set mintModuleName (some out), by simp [migrateMint, hg, hst, hout]⟩

theorem migrateClaim_returns {cdc : JSONCodec} {lib : Lib} {d : String} {m : AppMap}
    (hc : ∀ bz, m.get claimModuleName = some bz →
      ∃ st out, cdc.UnmarshalClaim bz = .ok st
        ∧ lib.ValidateCoin { Denom := d, Amount := st.ModuleAccountBalance.Amount } = .ok ()
        ∧ cdc.MustMarshalClaim
            { ModuleAccountBalance := { Denom := d, Amount := st.ModuleAccountBalance.Amount },
              Params := { ClaimDenom := d, Other := st.Params.Other },
              Other := st.Other } = .ok out) :
    ∃ m', migrateClaim cdc lib d m = .ok m' := by
  cases hg : m.get claimModuleName with
  | none => exact ⟨m, by simp [migrateClaim, hg]⟩
  | some bz =>
    obtain ⟨st, out, hst, hval, hout⟩ := hc bz hg
    exact ⟨m.set claimModuleName (some out),
      by simp [migrateClaim, Lib.NewCoin, hg, hst, hval, hout]⟩

/-- The five overrides return a map exactly when the calls made for the modules present
in the input map return. -/
theorem migrateAppState_returns_iff (cdc : JSONCodec) (lib : Lib) (d up : String)
    (m : AppMap) :
    (∃ m5, migrateAppState cdc lib d up m = .ok m5) ↔ OverridesReturn cdc lib d up m := by
  constructor
  · rintro ⟨m5, h⟩
    obtain ⟨m1, m2, m3, m4, h1, h2, h3, h4, h5⟩ := migrateAppState_steps h
    refine ⟨?_, ?_, ?_, ?_, ?_⟩
    · intro bz hg
      obtain ⟨st, dur, out, e1, e2, e3, _⟩ := migrateAppState_staking h hg
      exact ⟨st, dur, out, e1, e2, e3⟩
    · intro bz hg
      obtain ⟨st, out, e1, e2, _⟩ := migrateAppState_crisis h hg
      exact ⟨st, out, e1, e2⟩
    · intro bz hg
      obtain ⟨st, coins, out, e1, e2, e3, _⟩ := migrateAppState_gov h hg
      have hg2 : m2.get govModuleName = some bz := by
        rw [(migrateCrisis_overrides h2).get_ne _ (by decide),
          (migrateStaking_overrides h1).get_ne _ (by decide)]
        exact hg
      exact ⟨st, coins, out, e1, migrateGov_validates h3 hg2, e2, e3⟩
    · intro bz hg
      obtain ⟨st, out, e1, e2, _⟩ := migrateAppState_mint h hg
      exact ⟨st, out, e1, e2⟩
    · intro bz hg
      obtain ⟨st, out, e1, e2, _⟩ := migrateAppState_claim h hg
      have hg4 : m4.get claimModuleName = some bz := by
        rw [(migrateMint_overrides h4).get_ne _ (by decide),
          (migrateGov_overrides h3).get_ne _ (by decide),
          (migrateCrisis_overrides h2).get_ne _ (by decide),
          (migrateStaking_overrides h1).get_ne _ (by decide)]
        exact hg
      obtain ⟨st', e1', hval⟩ := migrateClaim_validates h5 hg4
      rw [e1] at e1'
      cases e1'
      exact ⟨st, out, e1, hval, e2⟩
  · rintro ⟨c1, c2, c3, c4, c5⟩
    obtain ⟨m1, h1⟩ := @migrateStaking_returns cdc lib d up m c1
    have o1 := migrateStaking_overrides h1
    obtain ⟨m2, h2⟩ := @migrateCrisis_returns cdc d m1
      (by rw [o1.get_ne _ (by decide)]; exact c2)
    have o2 := migrateCrisis_overrides h2
    obtain ⟨m3, h3⟩ := @migrateGov_returns cdc lib d m2
      (by rw [o2.get_ne _ (by decide), o1.get_ne _ (by decide)]; exact c3)
    have o3 := migrateGov_overrides h3
    obtain ⟨m4, h4⟩ := @migrateMint_returns cdc lib d m3
      (by rw [o3.get_ne _ (by decide), o2.get_ne _ (by decide), o1.get_ne _ (by decide)]
          exact c4)
    have o4 := migrateMint_overrides h4
    obtain ⟨m5, h5⟩ := @migrateClaim_returns cdc lib d m4
      (by rw [o4.get_ne _ (by decide), o3.get_ne _ (by decide), o2.get_ne _ (by decide),
            o1.get_ne _ (by decide)]
          exact c5)
    exact ⟨m5, by simp [migrateAppState, h1, h2, h3, h4, h5]⟩

/-- With a decoded input map, `initGenesis` returns exactly when the calls made for the
modules present return and `json.Marshal` encodes the map the overrides produce. -/
theorem initGenesis_returns_iff {cdc : JSONCodec} {lib : Lib} {genDoc : GenesisDoc}
    {d up : String} {m : AppMap} (hm : lib.jsonUnmarshal genDoc.AppState = .ok m) :
    (∃ bz, initGenesis cdc lib genDoc d up = .ok (some bz))
      ↔ (OverridesReturn cdc lib d up m
          ∧ ∀ m5, migrateAppState cdc lib d up m = .ok m5 → ∃ b, lib.jsonMarshal m5 = .ok b) := by
  constructor
  · rintro ⟨bz, h⟩
    obtain ⟨m0, m5, b, hm0, h5, hb, _⟩ := initGenesis_ok h
    rw [hm] at hm0
    cases hm0
    refine ⟨(migrateAppState_returns_iff cdc lib d up m).1 ⟨m5, h5⟩, ?_⟩
    intro m5' h5'
    rw [h5] at h5'
    cases h5'
    exact ⟨b, hb⟩
  · rintro ⟨hc, hj⟩
    obtain ⟨m5, h5⟩ := (migrateAppState_returns_iff cdc lib d up m).2 hc
    obtain ⟨b, hb⟩ := hj m5 h5
    exact ⟨b, by simp [initGenesis, hm, h5, hb]⟩

/-- C3: for every validator count `N` accepted by the slice allocations of `InitTestnet`
and all node indices `i, j < N`, the loop variable `initialPort` equals `26656 + 5 * i`
on entry to iteration `i`; the record of node `i` names the outside range
`26656 + 5 * i` to `26656 + 5 * i + 2`, the API port `26656 + 5 * i + 3` and the gRPC port
`26656 + 5 * i + 4`, five consecutive host ports; the first port is strictly increasing in
the index and the blocks of two different nodes share no port. -/
theorem C3_port_blocks (N : Int) (hN : makeSliceOk N = true) (i j : Nat)
    (hi : (i : Int) < N) (hj : (j : Int) < N) (name : String) :
    initialPortAt i = 26656 + 5 * (i : Int)
    ∧ hostPorts (initialPortAt i)
        = [26656 + 5 * (i : Int), 26656 + 5 * (i : Int) + 1, 26656 + 5 * (i : Int) + 2,
           26656 + 5 * (i : Int) + 3, 26656 + 5 * (i : Int) + 4]
    ∧ (mkTestnetNode name (initialPortAt i)).OutsidePortRange
        = fmtInt (26656 + 5 * (i : Int)) ++ "-" ++ fmtInt (26656 + 5 * (i : Int) + 2)
    ∧ (mkTestnetNode name (initialPortAt i)).APIPort = fmtInt (26656 + 5 * (i : Int) + 3)
    ∧ (mkTestnetNode name (initialPortAt i)).GRPCPort = fmtInt (26656 + 5 * (i : Int) + 4)
    ∧ (i < j → initialPortAt i < initialPortAt j)
    ∧ (i ≠ j → ∀ p, p ∈ hostPorts (initialPortAt i) → p ∉ hostPorts (initialPortAt j)) := by
  have bi := makeSliceOk_bound N hN i hi
  have bj := makeSliceOk_bound N hN j hj
  have ei := initialPortAt_eq i bi
  have ej := initialPortAt_eq j bj
  have e2 : wrapInt (26656 + 5 * (i : Int) + 2) = 26656 + 5 * (i : Int) + 2 :=
    wrapInt_of_small _ (by omega) (by omega)
  have e3 : wrapInt (26656 + 5 * (i : Int) + 3) = 26656 + 5 * (i : Int) + 3 :=
    wrapInt_of_small _ (by omega) (by omega)
  have e4 : wrapInt (26656 + 5 * (i : Int) + 4) = 26656 + 5 * (i : Int) + 4 :=
    wrapInt_of_small _ (by omega) (by omega)
  refine ⟨ei, hostPorts_initialPortAt i bi, ?_, ?_, ?_, ?_, ?_⟩
  · simp only [mkTestnetNode, ei, e2]
  · simp only [mkTestnetNode, ei, e3]
  · simp only [mkTestnetNode, ei, e4]
  · intro hij
    rw [ei, ej]
    omega
  · intro hij p hp hq
    rw [hostPorts_initialPortAt i bi] at hp
    rw [hostPorts_initialPortAt j bj] at hq
    simp only [List.mem_cons, List.mem_singleton, List.not_mem_nil, or_false] at hp hq
    omega

/-- Witness of C3 at `N = 4`, nodes 1 and 3. -/
theorem C3_port_blocks_witness :
    makeSliceOk 4 = true
    ∧ initialPortAt 1 = 26661
    ∧ hostPorts (initialPortAt 1) = [26661, 26662, 26663, 26664, 26665]
    ∧ (mkTestnetNode "node1" (initialPortAt 1)).OutsidePortRange = "26661-26663"
    ∧ (mkTestnetNode "node1" (initialPortAt 1)).APIPort = "26664"
    ∧ (mkTestnetNode "node1" (initialPortAt 1)).GRPCPort = "26665"
    ∧ initialPortAt 1 < initialPortAt 3
    ∧ (26663 : Int) ∉ hostPorts (initialPortAt 3) := by
  have h := C3_port_blocks 4 (by decide) 1 3 (by decide) (by decide) "node1"
  refine ⟨by decide, h.1, h.2.1, ?_, ?_, ?_, h.2.2.2.2.2.1 (by decide), ?_⟩
  · rw [h.2.2.1]; decide
  · rw [h.2.2.2.1]; decide
  · rw [h.2.2.2.2.1]; decide
  · exact h.2.2.2.2.2.2 (by decide) 26663 (by rw [h.2.1]; decide)

/-! ### The toy environment is well behaved -/

theorem demoCdc_marshalsAll : demoCdc.MarshalsAll :=
  ⟨fun _ => ⟨_, rfl⟩, fun _ => ⟨_, rfl⟩, fun _ => ⟨_, rfl⟩, fun _ => ⟨_, rfl⟩, fun _ => ⟨_, rfl⟩⟩

theorem demoCdc_decodesPresent (m : AppMap) : demoCdc.DecodesPresent m :=
  ⟨fun _ _ => ⟨_, rfl⟩, fun _ _ => ⟨_, rfl⟩, fun _ _ => ⟨_, rfl⟩, fun _ _ => ⟨_, rfl⟩,
    fun _ _ => ⟨_, rfl⟩⟩

theorem demoLib_acceptsDenom : demoLib.AcceptsDenom "ustarx" :=
  ⟨fun _ => by simp [demoLib], fun _ => ⟨_, rfl⟩, fun _ => ⟨_, rfl⟩⟩

/-! ### Claims on `initGenesis` -/

/-- C5: for every stake denom `d` and every template state in which the staking, crisis,
mint and token-claim modules are present and decodable, whenever `initGenesis` returns a
state, that state is the encoding of a map whose staking entry encodes a state with bond
denom `d`, whose crisis entry encodes a constant fee in denom `d`, whose mint entry encodes
mint denom `d` and whose claim entry encodes claim denom `d`.  Next to these four the run
writes two more denoms, both overrides of the stake denom: the governance minimum deposit
becomes the coin list the library builds from 10,000,000 `d`, and the stored balance of
the claim module account keeps its amount and gets the denom `d`.  Nothing else differs
from the input: the other content of the five states (and the amounts next to the
overridden denoms) is carried over, an absent governance module stays absent, and the
entry of every module outside the five overridden ones is unchanged.  The state is
returned exactly when the calls made for the modules present return and the resulting map
encodes. -/
theorem C5_denoms_overridden (cdc : JSONCodec) (lib : Lib) (genDoc : GenesisDoc)
    (d up : String) (m : AppMap) (b1 b2 b3 b4 : Bytes)
    (st : StakingGenesisState) (cr : CrisisGenesisState) (mi : MintGenesisState)
    (cl : ClaimGenesisState)
    (hm : lib.jsonUnmarshal genDoc.AppState = .ok m)
    (h1 : m.get stakingModuleName = some b1) (hst : cdc.UnmarshalStaking b1 = .ok st)
    (h2 : m.get crisisModuleName = some b2) (hcr : cdc.UnmarshalCrisis b2 = .ok cr)
    (h3 : m.get mintModuleName = some b3) (hmi : cdc.UnmarshalMint b3 = .ok mi)
    (h4 : m.get claimModuleName = some b4) (hcl : cdc.UnmarshalClaim b4 = .ok cl) :
    (∀ out, initGenesis cdc lib genDoc d up = .ok out →
      ∃ m' bz, out = some bz ∧ lib.jsonMarshal m' = .ok bz
        ∧ (∃ st' o, m'.get stakingModuleName = some o ∧ cdc.MustMarshalStaking st' = .ok o
            ∧ st'.Params.BondDenom = d ∧ st'.Params.Other = st.Params.Other
            ∧ st'.Other = st.Other)
        ∧ (∃ cr' o, m'.get crisisModuleName = some o ∧ cdc.MustMarshalCrisis cr' = .ok o
            ∧ cr'.ConstantFee.Denom = d ∧ cr'.ConstantFee.Amount = cr.ConstantFee.Amount
            ∧ cr'.Other = cr.Other)
        ∧ (∃ mi' o, m'.get mintModuleName = some o ∧ cdc.MustMarshalMint mi' = .ok o
            ∧ mi'.Params.MintDenom = d ∧ mi'.Params.Other = mi.Params.Other
            ∧ mi'.Other = mi.Other)
        ∧ (∃ cl' o, m'.get claimModuleName = some o ∧ cdc.MustMarshalClaim cl' = .ok o
            ∧ cl'.Params.ClaimDenom = d ∧ cl'.Params.Other = cl.Params.Other
            ∧ cl'.ModuleAccountBalance.Denom = d
            ∧ cl'.ModuleAccountBalance.Amount = cl.ModuleAccountBalance.Amount
            ∧ cl'.Other = cl.Other)
        ∧ (∀ b5, m.get govModuleName = some b5 →
            ∃ gv gv' coins o, cdc.UnmarshalGov b5 = .ok gv
              ∧ m'.get govModuleName = some o ∧ cdc.MustMarshalGov gv' = .ok o
              ∧ lib.NewCoins [{ Denom := d, Amount := 10000000 }] = .ok coins
              ∧ gv'.DepositParams.MinDeposit = coins
              ∧ gv'.DepositParams.Other = gv.DepositParams.Other
              ∧ gv'.Other = gv.Other)
        ∧ (m.get govModuleName = none → m'.get govModuleName = none)
        ∧ (∀ k, k ∉ overriddenModules → m'.get k = m.get k))
    ∧ ((∃ bz, initGenesis cdc lib genDoc d up = .ok (some bz))
        ↔ (OverridesReturn cdc lib d up m
            ∧ ∀ m5, migrateAppState cdc lib d up m = .ok m5 →
                ∃ b, lib.jsonMarshal m5 = .ok b)) := by
  refine ⟨?_, initGenesis_returns_iff hm⟩
  intro out hout
  obtain ⟨m0, m5, bz, hm0, h5, hbz, rfl⟩ := initGenesis_ok hout
  rw [hm] at hm0
  cases hm0
  refine ⟨m5, bz, rfl, hbz, ?_, ?_, ?_, ?_, ?_,
    fun hk => migrateAppState_get_none h5 _ hk, fun k hk => migrateAppState_frame h5 k hk⟩
  · obtain ⟨st', dur, o, e1, _, e3, e4⟩ := migrateAppState_staking h5 h1
    rw [hst] at e1; cases e1
    exact ⟨_, o, e4, e3, rfl, rfl, rfl⟩
  · obtain ⟨cr', o, e1, e3, e4⟩ := migrateAppState_crisis h5 h2
    rw [hcr] at e1; cases e1
    exact ⟨_, o, e4, e3, rfl, rfl, rfl⟩
  · obtain ⟨mi', o, e1, e3, e4⟩ := migrateAppState_mint h5 h3
    rw [hmi] at e1; cases e1
    exact ⟨_, o, e4, e3, rfl, rfl, rfl⟩
  · obtain ⟨cl', o, e1, e3, e4⟩ := migrateAppState_claim h5 h4
    rw [hcl] at e1; cases e1
    exact ⟨_, o, e4, e3, rfl, rfl, rfl, rfl, rfl⟩
  · intro b5 h5g
    obtain ⟨gv, coins, o, e1, e2, e3, e4⟩ := migrateAppState_gov h5 h5g
    exact ⟨gv, _, coins, o, e1, e4, e3, e2, rfl, rfl, rfl⟩

/-- The calls made for the eight-module template return in the toy environment with the
validating library. -/
theorem overridesReturn_demoTemplate :
    OverridesReturn demoCdc sdkLikeLib "ustarx" "72h" demoTemplate := by
  refine ⟨?_, ?_, ?_, ?_, ?_⟩
  · intro bz _
    exact ⟨_, _, _, rfl, rfl, rfl⟩
  · intro bz _
    exact ⟨_, _, rfl, rfl⟩
  · intro bz _
    exact ⟨_, [{ Denom := "ustarx", Amount := 10000000 }], _, rfl, by decide, by decide, rfl⟩
  · intro bz _
    exact ⟨_, _, rfl, rfl⟩
  · intro bz _
    exact ⟨_, _, rfl, rfl, rfl⟩

/-- Witness of C5: the toy environment with the validating library, stake denom `ustarx`,
unbonding period `72h`; the governance minimum deposit comes out as 10,000,000 `ustarx`
and the `ibc` entry is untouched. -/
theorem C5_denoms_overridden_witness :
    (∃ bz, initGenesis demoCdc sdkLikeLib demoGenDoc "ustarx" "72h" = .ok (some bz))
    ∧ (∀ out, initGenesis demoCdc sdkLikeLib demoGenDoc "ustarx" "72h" = .ok out →
        ∃ m' bz, out = some bz ∧ sdkLikeLib.jsonMarshal m' = .ok bz
          ∧ (∃ st' o, m'.get stakingModuleName = some o
              ∧ demoCdc.MustMarshalStaking st' = .ok o ∧ st'.Params.BondDenom = "ustarx")
          ∧ (∃ gv' o, m'.get govModuleName = some o
              ∧ demoCdc.MustMarshalGov gv' = .ok o
              ∧ gv'.DepositParams.MinDeposit = [{ Denom := "ustarx", Amount := 10000000 }]
              ∧ gv'.DepositParams.Other = [] ∧ gv'.Other = [14])
          ∧ m'.get "ibc" = some [17]) := by
  have h := C5_denoms_overridden demoCdc sdkLikeLib demoGenDoc "ustarx" "72h" demoTemplate
    [12] [13] [15] [16] _ _ _ _ rfl rfl rfl rfl rfl rfl rfl rfl rfl
  refine ⟨h.2.2 ⟨overridesReturn_demoTemplate, ?_⟩, ?_⟩
  · intro m5 h5
    have e : migrateAppState demoCdc sdkLikeLib "ustarx" "72h" demoTemplate
        = .ok [("auth", some [10]), ("bank", some [11]),
            ("staking", some (1 :: asciiBytes "ustarx" ++ [12])),
            ("crisis", some (2 :: asciiBytes "ustarx" ++ [13])),
            ("gov", some [3, 14]),
            ("mint", some (4 :: asciiBytes "ustarx" ++ [15])),
            ("claim", some (5 :: asciiBytes "ustarx" ++ [16])), ("ibc", some [17])] := by
      decide
    rw [e] at h5
    cases h5
    exact ⟨_, rfl⟩
  · intro out hout
    obtain ⟨m', bz, e1, e2, ⟨st', o, a1, a2, a3, _⟩, _, _, _, hgov, _, hk⟩ := h.1 out hout
    obtain ⟨gv, gv', coins, o5, g1, g2, g3, g4, g5, g6, g7⟩ := hgov [14] rfl
    have hc : coins = [{ Denom := "ustarx", Amount := 10000000 }] := by
      have e : sdkLikeLib.NewCoins [{ Denom := "ustarx", Amount := 10000000 }]
          = .ok [{ Denom := "ustarx", Amount := 10000000 }] := by decide
      rw [e] at g4
      cases g4
      rfl
    have hgv : gv.DepositParams.Other = [] ∧ gv.Other = [14] := by
      simp only [demoCdc, Except.ok.injEq] at g1
      subst g1
      exact ⟨rfl, rfl⟩
    refine ⟨m', bz, e1, e2, ⟨st', o, a1, a2, a3⟩, ⟨gv', o5, g2, g3, ?_, ?_, ?_⟩,
      by rw [hk "ibc" (by decide)]; rfl⟩
    · rw [g5, hc]
    · rw [g6, hgv.1]
    · rw [g7, hgv.2]

/-- C6: when the staking module is present in the template and the unbonding-period
string parses as the duration `dur`, every state `initGenesis` returns encodes a staking
state whose unbonding time is `dur`; when the string is `72h`, parsed by the library as
72 hours, that value is exactly 259200 seconds.  The state is returned whenever the
present modules decode and no callee panics. -/
theorem C6_unbonding_time (cdc : JSONCodec) (lib : Lib) (genDoc : GenesisDoc)
    (d up : String) (m : AppMap) (b1 : Bytes) (dur : Duration)
    (hm : lib.jsonUnmarshal genDoc.AppState = .ok m)
    (h1 : m.get stakingModuleName = some b1)
    (hp : lib.ParseDuration up = .ok dur) :
    (∀ out, initGenesis cdc lib genDoc d up = .ok out →
      ∃ m' bz st' o, out = some bz ∧ lib.jsonMarshal m' = .ok bz
        ∧ m'.get stakingModuleName = some o ∧ cdc.MustMarshalStaking st' = .ok o
        ∧ st'.Params.UnbondingTime = dur
        ∧ (up = "72h" → dur = 72 * Hour → st'.Params.UnbondingTime = 259200 * Second))
    ∧ (cdc.DecodesPresent m → cdc.MarshalsAll → lib.AcceptsDenom d →
        ∃ bz, initGenesis cdc lib genDoc d up = .ok (some bz)) := by
  constructor
  · intro out hout
    obtain ⟨m0, m5, bz, hm0, h5, hbz, rfl⟩ := initGenesis_ok hout
    rw [hm] at hm0
    cases hm0
    obtain ⟨st, dur', o, _, e2, e3, e4⟩ := migrateAppState_staking h5 h1
    rw [hp] at e2
    cases e2
    refine ⟨m5, bz, _, o, rfl, hbz, e4, e3, rfl, ?_⟩
    intro _ hd
    simp only [hd, Hour, Second]
    norm_num
  · intro hdec hmar hlib
    exact initGenesis_succeeds hm hdec (fun _ => ⟨dur, hp⟩) hmar hlib

/-- Witness of C6: the toy environment with the unbonding period `72h`. -/
theorem C6_unbonding_time_witness :
    (∃ bz, initGenesis demoCdc demoLib demoGenDoc "ustarx" "72h" = .ok (some bz))
    ∧ (∀ out, initGenesis demoCdc demoLib demoGenDoc "ustarx" "72h" = .ok out →
        ∃ m' bz st' o, out = some bz ∧ demoLib.jsonMarshal m' = .ok bz
          ∧ m'.get stakingModuleName = some o ∧ demoCdc.MustMarshalStaking st' = .ok o
          ∧ st'.Params.UnbondingTime = 259200 * Second) := by
  have h := C6_unbonding_time demoCdc demoLib demoGenDoc "ustarx" "72h" demoTemplate
    [12] (72 * Hour) rfl rfl rfl
  refine ⟨h.2 (demoCdc_decodesPresent _) demoCdc_marshalsAll demoLib_acceptsDenom, ?_⟩
  intro out hout
  obtain ⟨m', bz, st', o, e1, e2, e3, e4, _, e6⟩ := h.1 out hout
  exact ⟨m', bz, st', o, e1, e2, e3, e4, e6 rfl rfl⟩

/-- With none of the five modules in the map the overrides return the map itself. -/
theorem migrateAppState_of_absent (cdc : JSONCodec) (lib : Lib) (d up : String) (m : AppMap)
    (h : ∀ k, k ∈ overriddenModules → m.get k = none) :
    migrateAppState cdc lib d up m = .ok m := by
  have e1 := h stakingModuleName (by simp [overriddenModules])
  have e2 := h crisisModuleName (by simp [overriddenModules])
  have e3 := h govModuleName (by simp [overriddenModules])
  have e4 := h mintModuleName (by simp [overriddenModules])
  have e5 := h claimModuleName (by simp [overriddenModules])
  simp [migrateAppState, migrateStaking, migrateCrisis, migrateGov, migrateMint,
    migrateClaim, e1, e2, e3, e4, e5]

/-- Taking the value of a key away from a map leaves the calls made for the modules
present returning. -/
theorem overridesReturn_remove {cdc : JSONCodec} {lib : Lib} {d up : String} {m : AppMap}
    (k : String) (h : OverridesReturn cdc lib d up m) :
    OverridesReturn cdc lib d up (m.set k none) := by
  have key : ∀ name bz, (m.set k none).get name = some bz → m.get name = some bz := by
    intro name bz hb
    by_cases hk : k = name
    · subst hk
      rw [AppMap.get_set_same] at hb
      cases hb
    · rw [AppMap.get_set_ne _ _ _ _ hk] at hb
      exact hb
  obtain ⟨c1, c2, c3, c4, c5⟩ := h
  exact ⟨fun bz hb => c1 bz (key _ bz hb), fun bz hb => c2 bz (key _ bz hb),
    fun bz hb => c3 bz (key _ bz hb), fun bz hb => c4 bz (key _ bz hb),
    fun bz hb => c5 bz (key _ bz hb)⟩

/-- C8: for every template state map, absence of an overridden module is not an error:
`initGenesis` returns exactly when the calls made for the modules that are present return
and the resulting map encodes, an absent module asking for nothing; each of the five
override steps returns the map it is given, unchanged, when its module is absent; if the
five overrides return on a map they still return once the value of any key (any of the
five modules in particular) is taken away; with all five absent `initGenesis` returns the
encoding of the unchanged map; whenever it returns, the result encodes a map with the
same keys as the input (no entry is added), a key without a value still has none, and the
entry of every module other than the five is unchanged. -/
theorem C8_absent_modules (cdc : JSONCodec) (lib : Lib) (genDoc : GenesisDoc)
    (d up : String) (m : AppMap)
    (hm : lib.jsonUnmarshal genDoc.AppState = .ok m) :
    ((∃ bz, initGenesis cdc lib genDoc d up = .ok (some bz))
        ↔ (OverridesReturn cdc lib d up m
            ∧ ∀ m5, migrateAppState cdc lib d up m = .ok m5 →
                ∃ b, lib.jsonMarshal m5 = .ok b))
    ∧ (∀ m0 : AppMap,
        (m0.get stakingModuleName = none → migrateStaking cdc lib d up m0 = .ok m0)
        ∧ (m0.get crisisModuleName = none → migrateCrisis cdc d m0 = .ok m0)
        ∧ (m0.get govModuleName = none → migrateGov cdc lib d m0 = .ok m0)
        ∧ (m0.get mintModuleName = none → migrateMint cdc lib d m0 = .ok m0)
        ∧ (m0.get claimModuleName = none → migrateClaim cdc lib d m0 = .ok m0))
    ∧ (∀ (m0 : AppMap) (k : String), (∃ m5, migrateAppState cdc lib d up m0 = .ok m5) →
        ∃ m5, migrateAppState cdc lib d up (m0.set k none) = .ok m5)
    ∧ ((∀ k, k ∈ overriddenModules → m.get k = none) →
        ∀ bz, lib.jsonMarshal m = .ok bz →
          initGenesis cdc lib genDoc d up = .ok (some bz))
    ∧ (∀ out, initGenesis cdc lib genDoc d up = .ok out →
        ∃ m' bz, out = some bz ∧ lib.jsonMarshal m' = .ok bz
          ∧ m'.map Prod.fst = m.map Prod.fst
          ∧ (∀ k, m.get k = none → m'.get k = none)
          ∧ (∀ k, k ∉ overriddenModules → m'.get k = m.get k)) := by
  refine ⟨initGenesis_returns_iff hm, ?_, ?_, ?_, ?_⟩
  · intro m0
    refine ⟨?_, ?_, ?_, ?_, ?_⟩
    · intro h0; simp [migrateStaking, h0]
    · intro h0; simp [migrateCrisis, h0]
    · intro h0; simp [migrateGov, h0]
    · intro h0; simp [migrateMint, h0]
    · intro h0; simp [migrateClaim, h0]
  · intro m0 k h0
    exact (migrateAppState_returns_iff cdc lib d up _).2
      (overridesReturn_remove k ((migrateAppState_returns_iff cdc lib d up m0).1 h0))
  · intro habs bz hbz
    simp [initGenesis, hm, migrateAppState_of_absent cdc lib d up m habs, hbz]
  · intro out hout
    obtain ⟨m0, m5, bz, hm0, h5, hbz, rfl⟩ := initGenesis_ok hout
    rw [hm] at hm0
    cases hm0
    exact ⟨m5, bz, rfl, hbz, migrateAppState_keys h5,
      fun k hk => migrateAppState_get_none h5 k hk,
      fun k hk => migrateAppState_frame h5 k hk⟩

/-- The calls made for the template without the staking module return in the toy
environment with the validating library, whatever the unbonding period. -/
theorem overridesReturn_demoPartialTemplate (up : String) :
    OverridesReturn demoCdc sdkLikeLib "ustarx" up demoPartialTemplate := by
  refine ⟨?_, ?_, ?_, ?_, ?_⟩
  · intro bz hb
    have e : demoPartialTemplate.get stakingModuleName = none := by decide
    rw [e] at hb
    cases hb
  · intro bz _
    exact ⟨_, _, rfl, rfl⟩
  · intro bz _
    exact ⟨_, [{ Denom := "ustarx", Amount := 10000000 }], _, rfl, by decide, by decide, rfl⟩
  · intro bz _
    exact ⟨_, _, rfl, rfl⟩
  · intro bz _
    exact ⟨_, _, rfl, rfl, rfl⟩

/-- The validating library does not accept every amount, every coin list and every map. -/
theorem sdkLikeLib_not_acceptsDenom : ¬ sdkLikeLib.AcceptsDenom "ustarx" := by
  intro h
  have e := h.1 (-1)
  revert e
  decide

/-- Witness of C8: a template without the staking module and with the four other
overridden modules, a library that rejects negative amounts, and an unbonding period that
does not parse: `initGenesis` returns, the staking key is still absent and the `ibc` entry
is unchanged.  With none of the five modules the result is the encoding of the input. -/
theorem C8_absent_modules_witness :
    sdkLikeLib.jsonUnmarshal demoPartialGenDoc.AppState = .ok demoPartialTemplate
    ∧ demoPartialTemplate.get stakingModuleName = none
    ∧ (∃ bz, initGenesis demoCdc sdkLikeLib demoPartialGenDoc "ustarx" "72x" = .ok (some bz))
    ∧ (∀ out, initGenesis demoCdc sdkLikeLib demoPartialGenDoc "ustarx" "72x" = .ok out →
        ∃ m' bz, out = some bz ∧ sdkLikeLib.jsonMarshal m' = .ok bz
          ∧ m'.map Prod.fst = demoPartialTemplate.map Prod.fst
          ∧ m'.get stakingModuleName = none
          ∧ m'.get "ibc" = some [17])
    ∧ initGenesis demoCdc sdkLikeLib demoBareGenDoc "ustarx" "72x" = .ok (some [10, 11]) := by
  have h := C8_absent_modules demoCdc sdkLikeLib demoPartialGenDoc "ustarx" "72x"
    demoPartialTemplate rfl
  have hb := C8_absent_modules demoCdc sdkLikeLib demoBareGenDoc "ustarx" "72x"
    demoBareTemplate rfl
  refine ⟨rfl, by decide, h.1.2 ⟨overridesReturn_demoPartialTemplate "72x", ?_⟩, ?_,
    hb.2.2.2.1 (by decide) [10, 11] (by decide)⟩
  · intro m5 h5
    have e : migrateAppState demoCdc sdkLikeLib "ustarx" "72x" demoPartialTemplate
        = .ok [("auth", some [10]), ("bank", some [11]),
            ("crisis", some (2 :: asciiBytes "ustarx" ++ [13])),
            ("gov", some [3, 14]),
            ("mint", some (4 :: asciiBytes "ustarx" ++ [15])),
            ("claim", some (5 :: asciiBytes "ustarx" ++ [16])), ("ibc", some [17])] := by
      decide
    rw [e] at h5
    cases h5
    exact ⟨_, rfl⟩
  · intro out hout
    obtain ⟨m', bz, e1, e2, e3, e4, e5⟩ := h.2.2.2.2 out hout
    exact ⟨m', bz, e1, e2, e3, e4 _ (by decide), by rw [e5 "ibc" (by decide)]; rfl⟩

/-! ### `collectGenFiles` -/

theorem collectNode_ok {env : CollectEnv} {chainID : String} {nodeIDs : List String}
    {valPubKeys : List PubKey} {outputDir nodeDirPrefix nodeDaemonHome : String}
    {genTime : Time} {i : Nat} {cfg cfg' : NodeConfig} {a a' : RawMessage} {w w' : World}
    (h : collectNode env chainID nodeIDs valPubKeys outputDir nodeDirPrefix nodeDaemonHome
      genTime i cfg a w = (.ok (cfg', a'), w')) :
    ∃ r, a' = (if a = none then some r else a)
      ∧ cfg'.Genesis = cfg.Genesis
      ∧ w' = w ++ [Event.replay (Join [outputDir] [nodeDirName nodeDirPrefix i, nodeDaemonHome]) r,
          Event.exportGenesis (finalGenesisFile cfg outputDir nodeDirPrefix nodeDaemonHome i)
            { GenesisTime := genTime, ChainID := chainID, Validators := [], AppState := a' }] := by
  unfold collectNode at h
  dsimp only at h
  split at h
  · cases h
  · cases h
  · split at h
    · cases h
    · split at h
      · cases h
      · rename_i r _
        split at h
        · cases h
        · simp only [Prod.mk.injEq, Except.ok.injEq] at h
          obtain ⟨⟨hc, ha⟩, hw⟩ := h
          subst ha
          subst hw
          subst hc
          exact ⟨r, rfl, rfl, List.append_assoc _ _ _⟩

theorem exportedDocs_append (w1 w2 : World) :
    exportedDocs (w1 ++ w2) = exportedDocs w1 ++ exportedDocs w2 := by
  simp [exportedDocs, List.filterMap_append]

theorem exportedPaths_append (w1 w2 : World) :
    exportedPaths (w1 ++ w2) = exportedPaths w1 ++ exportedPaths w2 := by
  simp [exportedPaths, List.filterMap_append]

theorem replayedStates_append (w1 w2 : World) :
    replayedStates (w1 ++ w2) = replayedStates w1 ++ replayedStates w2 := by
  simp [replayedStates, List.filterMap_append]

/-- A successful run of the loop replays once and writes one document per iteration, to
the genesis file of the node of the iteration; the documents are those of `docsFor`. -/
theorem collectLoop_ok {env : CollectEnv} {chainID : String} {nodeIDs : List String}
    {valPubKeys : List PubKey} {outputDir nodeDirPrefix nodeDaemonHome : String}
    {genTime : Time} (k : Nat) :
    ∀ (i : Nat) (cfg : NodeConfig) (a : RawMessage) (w w' : World),
      collectLoop env chainID nodeIDs valPubKeys outputDir nodeDirPrefix nodeDaemonHome
        genTime k i cfg a w = (.ok (), w') →
      ∃ rs, rs.length = k ∧ replayedStates w' = replayedStates w ++ rs
        ∧ exportedDocs w' = exportedDocs w ++ docsFor chainID genTime a rs
        ∧ exportedPaths w' = exportedPaths w ++ (List.range k).map (fun t =>
            finalGenesisFile cfg outputDir nodeDirPrefix nodeDaemonHome (i + t)) := by
  induction k with
  | zero =>
    intro i cfg a w w' h
    simp only [collectLoop, Prod.mk.injEq, true_and] at h
    subst h
    exact ⟨[], rfl, by simp, by simp [docsFor], by simp⟩
  | succ k ih =>
    intro i cfg a w w' h
    unfold collectLoop at h
    split at h
    · cases h
    · rename_i cfg1 a1 w1 hnode
      obtain ⟨r, ha, hg, hw⟩ := collectNode_ok hnode
      obtain ⟨rs, hlen, hrep, hexp, hpath⟩ := ih (i + 1) cfg1 a1 w1 w' h
      refine ⟨r :: rs, by simp [hlen], ?_, ?_, ?_⟩
      · rw [hrep, hw, replayedStates_append]
        simp [replayedStates]
      · rw [hexp, hw, exportedDocs_append]
        simp [exportedDocs, docsFor, ha]
      · rw [hpath, hw, exportedPaths_append, List.range_succ_eq_map]
        simp only [exportedPaths, List.filterMap_cons, List.filterMap_nil, List.map_cons,
          List.map_map, List.append_assoc, List.singleton_append, Nat.add_zero]
        congr 2
        apply List.map_congr_left
        intro t _
        simp only [finalGenesisFile, Function.comp, hg]
        have e : i + 1 + t = i + t.succ := by omega
        rw [e]

theorem docsFor_length (chainID : String) (genTime : Time) (rs : List Bytes) :
    ∀ a, (docsFor chainID genTime a rs).length = rs.length := by
  induction rs with
  | nil => intro a; rfl
  | cons r rs ih => intro a; simp [docsFor, ih]

theorem docsFor_header (chainID : String) (genTime : Time) (rs : List Bytes) :
    ∀ a doc, doc ∈ docsFor chainID genTime a rs →
      doc.ChainID = chainID ∧ doc.GenesisTime = genTime ∧ doc.Validators = [] := by
  induction rs with
  | nil => intro a doc h; simp [docsFor] at h
  | cons r rs ih =>
    intro a doc h
    simp only [docsFor, List.mem_cons] at h
    rcases h with rfl | h
    · exact ⟨rfl, rfl, rfl⟩
    · exact ih _ doc h

/-- Once the variable `appState` is not nil, every later document carries it. -/
theorem docsFor_of_some (chainID : String) (genTime : Time) (rs : List Bytes)
    (bz : Bytes) : ∀ doc, doc ∈ docsFor chainID genTime (some bz) rs →
      doc.AppState = some bz := by
  induction rs with
  | nil => intro doc h; simp [docsFor] at h
  | cons r rs ih =>
    intro doc h
    simp only [docsFor, List.mem_cons] at h
    rcases h with rfl | h
    · simp
    · simp only [reduceCtorEq, if_false] at h
      exact ih doc h

/-- Entered with a nil `appState`, the loop writes the state replayed for its first node
into every document. -/
theorem docsFor_nil (chainID : String) (genTime : Time) (r : Bytes) (rs : List Bytes) :
    ∀ doc, doc ∈ docsFor chainID genTime none (r :: rs) → doc.AppState = some r := by
  intro doc hdoc
  simp only [docsFor, if_true, List.mem_cons] at hdoc
  rcases hdoc with rfl | hdoc
  · rfl
  · exact docsFor_of_some _ _ _ _ doc hdoc

/-- A successful `collectGenFiles` decomposes into the replayed states, the documents
`docsFor` derives from them starting from a nil `appState`, and the files written. -/
theorem collectGenFiles_ok {env : CollectEnv} {cfg : NodeConfig} {chainID : String}
    {nodeIDs : List String} {valPubKeys : List PubKey} {N : Int}
    {outputDir nodeDirPrefix nodeDaemonHome : String} {w w' : World}
    (h : collectGenFiles env cfg chainID nodeIDs valPubKeys N outputDir nodeDirPrefix
      nodeDaemonHome w = (.ok (), w')) :
    ∃ states, states.length = N.toNat
      ∧ replayedStates w' = replayedStates w ++ states
      ∧ exportedDocs w' = exportedDocs w ++ docsFor chainID (env.tmtimeNow w) none states
      ∧ exportedPaths w' = exportedPaths w ++ (List.range N.toNat).map (fun i =>
          finalGenesisFile cfg outputDir nodeDirPrefix nodeDaemonHome i) := by
  unfold collectGenFiles at h
  obtain ⟨rs, h1, h2, h3, h4⟩ := collectLoop_ok N.toNat 0 cfg none w w' h
  refine ⟨rs, h1, h2, h3, ?_⟩
  rw [h4]
  simp

/-- C1: when `collectGenFiles` succeeds it has replayed once per node (the states
`states`, whatever they are) and written one final document per node, the document of
node `i` to the genesis file of node `i`; the documents of any two nodes `i` and `j`
carry the same chain ID (the one passed in), the same genesis time (the reading of the
clock on entry, before the loop) and the same application-state bytes, and are equal as
documents, so that they differ in their file path only. -/
theorem C1_docs_agree (env : CollectEnv) (cfg : NodeConfig) (chainID : String)
    (nodeIDs : List String) (valPubKeys : List PubKey) (N : Int)
    (outputDir nodeDirPrefix nodeDaemonHome : String) (w w' : World)
    (h : collectGenFiles env cfg chainID nodeIDs valPubKeys N outputDir nodeDirPrefix
      nodeDaemonHome w = (.ok (), w')) :
    ∃ (states : List Bytes) (docs : List GenesisDoc),
      states.length = N.toNat ∧ docs.length = N.toNat
      ∧ replayedStates w' = replayedStates w ++ states
      ∧ exportedDocs w' = exportedDocs w ++ docs
      ∧ exportedPaths w' = exportedPaths w ++ (List.range N.toNat).map (fun i =>
          finalGenesisFile cfg outputDir nodeDirPrefix nodeDaemonHome i)
      ∧ ∀ (i j : Nat) (di dj : GenesisDoc), docs[i]? = some di → docs[j]? = some dj →
          di.ChainID = chainID ∧ dj.ChainID = chainID
          ∧ di.GenesisTime = env.tmtimeNow w ∧ dj.GenesisTime = env.tmtimeNow w
          ∧ di.AppState = dj.AppState ∧ di = dj := by
  obtain ⟨states, hlen, hrep, hexp, hpath⟩ := collectGenFiles_ok h
  refine ⟨states, _, hlen, ?_, hrep, hexp, hpath, ?_⟩
  · rw [docsFor_length, hlen]
  · intro i j di dj hi hj
    have mi := List.getElem?_mem hi
    have mj := List.getElem?_mem hj
    obtain ⟨ci, ti, vi⟩ := docsFor_header _ _ _ _ _ mi
    obtain ⟨cj, tj, vj⟩ := docsFor_header _ _ _ _ _ mj
    have hs : di.AppState = dj.AppState := by
      cases states with
      | nil => simp [docsFor] at hi
      | cons r rs => rw [docsFor_nil _ _ _ _ di mi, docsFor_nil _ _ _ _ dj mj]
    refine ⟨ci, cj, ti, tj, hs, ?_⟩
    cases di
    cases dj
    simp only at ci cj ti tj vi vj hs
    simp [ci, cj, ti, tj, vi, vj, hs]

/-- Witness of C1: three validators, each with its own replayed state; the three
documents carry the state of node 0 and go to the three genesis files. -/
theorem C1_docs_agree_witness :
    ((collectGenFiles perNodeEnv demoNodeConfig "chain-demo"
        ["id0", "id1", "id2"] [[1], [2], [3]] 3 "out" "node" "starsd" []).2.filterMap
        (fun e => match e with
          | .exportGenesis file doc => some (file, doc.AppState)
          | _ => none)
      = [(["out", "node0", "starsd", "config/genesis.json"], some [1]),
         (["out", "node1", "starsd", "config/genesis.json"], some [1]),
         (["out", "node2", "starsd", "config/genesis.json"], some [1])])
    ∧ ∃ (states : List Bytes) (docs : List GenesisDoc),
      states.length = (3 : Int).toNat ∧ docs.length = (3 : Int).toNat
      ∧ replayedStates (collectGenFiles perNodeEnv demoNodeConfig "chain-demo"
          ["id0", "id1", "id2"] [[1], [2], [3]] 3 "out" "node" "starsd" []).2
          = replayedStates [] ++ states
      ∧ exportedDocs (collectGenFiles perNodeEnv demoNodeConfig "chain-demo"
          ["id0", "id1", "id2"] [[1], [2], [3]] 3 "out" "node" "starsd" []).2
          = exportedDocs [] ++ docs
      ∧ exportedPaths (collectGenFiles perNodeEnv demoNodeConfig "chain-demo"
          ["id0", "id1", "id2"] [[1], [2], [3]] 3 "out" "node" "starsd" []).2
          = exportedPaths [] ++ (List.range (3 : Int).toNat).map (fun i =>
              finalGenesisFile demoNodeConfig "out" "node" "starsd" i)
      ∧ ∀ (i j : Nat) (di dj : GenesisDoc), docs[i]? = some di → docs[j]? = some dj →
          di.ChainID = "chain-demo" ∧ dj.ChainID = "chain-demo"
          ∧ di.GenesisTime = 1636000000 * Second ∧ dj.GenesisTime = 1636000000 * Second
          ∧ di.AppState = dj.AppState ∧ di = dj :=
  ⟨by decide,
    C1_docs_agree perNodeEnv demoNodeConfig "chain-demo" ["id0", "id1", "id2"]
      [[1], [2], [3]] 3 "out" "node" "starsd" [] _ (by decide)⟩

/-- C2: when `collectGenFiles` succeeds, whatever states `states` the replay returned for
the nodes, the application state written to the final document of every node is exactly
the state the replay returned for node 0, a state of length zero included: once node 0
has set the variable `appState` the test `appState == nil` never holds again. -/
theorem C2_canonical_state (env : CollectEnv) (cfg : NodeConfig) (chainID : String)
    (nodeIDs : List String) (valPubKeys : List PubKey) (N : Int)
    (outputDir nodeDirPrefix nodeDaemonHome : String) (w w' : World)
    (h : collectGenFiles env cfg chainID nodeIDs valPubKeys N outputDir nodeDirPrefix
      nodeDaemonHome w = (.ok (), w')) :
    ∃ (states : List Bytes) (docs : List GenesisDoc),
      states.length = N.toNat ∧ docs.length = N.toNat
      ∧ replayedStates w' = replayedStates w ++ states
      ∧ exportedDocs w' = exportedDocs w ++ docs
      ∧ (∀ (i : Nat), i < N.toNat → ∃ di, docs[i]? = some di)
      ∧ ∀ (i : Nat) (di : GenesisDoc), docs[i]? = some di →
          ∃ s0, states[0]? = some s0 ∧ di.AppState = some s0 := by
  obtain ⟨states, hlen, hrep, hexp, _⟩ := collectGenFiles_ok h
  have hdl : (docsFor chainID (env.tmtimeNow w) none states).length = N.toNat := by
    rw [docsFor_length, hlen]
  refine ⟨states, _, hlen, hdl, hrep, hexp, ?_, ?_⟩
  · intro i hi
    exact ⟨_, List.getElem?_eq_getElem (by rw [hdl]; exact hi)⟩
  · intro i di hi
    have mi := List.getElem?_mem hi
    cases states with
    | nil => simp [docsFor] at hi
    | cons r rs => exact ⟨r, by simp, docsFor_nil _ _ _ _ di mi⟩

/-- Witness of C2: three validators; the replay returns a state of length zero for node 0
and the bytes `[1]` for the two others, and every document carries the state of length
zero. -/
theorem C2_canonical_state_witness :
    (replayedStates (collectGenFiles emptyFirstEnv demoNodeConfig "chain-demo"
        ["id0", "id1", "id2"] [[1], [2], [3]] 3 "out" "node" "starsd" []).2
        = [[], [1], [1]]
      ∧ (exportedDocs (collectGenFiles emptyFirstEnv demoNodeConfig "chain-demo"
        ["id0", "id1", "id2"] [[1], [2], [3]] 3 "out" "node" "starsd" []).2).map
        (fun doc => doc.AppState) = [some [], some [], some []])
    ∧ ∃ (states : List Bytes) (docs : List GenesisDoc),
      states.length = (3 : Int).toNat ∧ docs.length = (3 : Int).toNat
      ∧ replayedStates (collectGenFiles emptyFirstEnv demoNodeConfig "chain-demo"
          ["id0", "id1", "id2"] [[1], [2], [3]] 3 "out" "node" "starsd" []).2
          = replayedStates [] ++ states
      ∧ exportedDocs (collectGenFiles emptyFirstEnv demoNodeConfig "chain-demo"
          ["id0", "id1", "id2"] [[1], [2], [3]] 3 "out" "node" "starsd" []).2
          = exportedDocs [] ++ docs
      ∧ (∀ (i : Nat), i < (3 : Int).toNat → ∃ di, docs[i]? = some di)
      ∧ ∀ (i : Nat) (di : GenesisDoc), docs[i]? = some di →
          ∃ s0, states[0]? = some s0 ∧ di.AppState = some s0 :=
  ⟨by decide,
    C2_canonical_state emptyFirstEnv demoNodeConfig "chain-demo" ["id0", "id1", "id2"]
      [[1], [2], [3]] 3 "out" "node" "starsd" [] _ (by decide)⟩

/-! ### Decimal rendering of the node index -/

theorem digitChar_value (k : Nat) (hk : k < 10) : (Nat.digitChar k).toNat - 48 = k := by
  interval_cases k <;> rfl

theorem digitsValue_toDigitsCore (fuel : Nat) :
    ∀ (n : Nat) (ds : List Char), n < fuel →
      digitsValue 0 (Nat.toDigitsCore 10 fuel n ds) = digitsValue n ds := by
  induction fuel with
  | zero => intro n ds h; omega
  | succ fuel ih =>
    intro n ds h
    simp only [Nat.toDigitsCore]
    split
    · rename_i h0
      have hn : n % 10 = n := by omega
      rw [hn]
      simp [digitsValue, digitChar_value n (by omega)]
    · rename_i h0
      rw [ih (n / 10) _ (by omega)]
      have : 10 * (n / 10) + n % 10 = n := by omega
      simp [digitsValue, digitChar_value (n % 10) (Nat.mod_lt _ (by decide)), this]

theorem fmtIdx_injective (i j : Nat) (h : fmtIdx i = fmtIdx j) : i = j := by
  have hi := digitsValue_toDigitsCore (i + 1) i [] (by omega)
  have hj := digitsValue_toDigitsCore (j + 1) j [] (by omega)
  have e : Nat.toDigits 10 i = Nat.toDigits 10 j := by
    have := congrArg String.data h
    simpa [fmtIdx, toString, Nat.repr, List.asString] using this
  simp only [Nat.toDigits] at e
  rw [e, hj] at hi
  simpa [digitsValue] using hi.symm

/-- Two node indices with the same directory name are equal. -/
theorem nodeDirName_injective (p : String) (i j : Nat)
    (h : nodeDirName p i = nodeDirName p j) : i = j := by
  apply fmtIdx_injective
  have := congrArg String.data h
  simp only [nodeDirName, String.data_append] at this
  exact String.ext (List.append_cancel_left this)

theorem nodeDirNames_nodup (p : String) (n : Nat) :
    ((List.range n).map (nodeDirName p)).Nodup :=
  (List.nodup_range n).map (fun i j h => nodeDirName_injective p i j h)

theorem gentxFiles_nodup (outputDir p : String) (n : Nat) :
    ((List.range n).map (fun i => gentxFile outputDir (nodeDirName p i))).Nodup := by
  refine (List.nodup_range n).map (fun i j h => ?_)
  simp only [gentxFile, List.cons.injEq, and_true, true_and] at h
  apply nodeDirName_injective p
  have := congrArg String.data h
  simp only [String.data_append] at this
  exact String.ext (List.append_cancel_right this)

/-! ### Views of the log -/

theorem mkdirPaths_append (w1 w2 : World) :
    mkdirPaths (w1 ++ w2) = mkdirPaths w1 ++ mkdirPaths w2 := by
  simp [mkdirPaths, List.filterMap_append]

theorem writes_append (w1 w2 : World) : writes (w1 ++ w2) = writes w1 ++ writes w2 := by
  simp [writes, List.filterMap_append]

theorem removals_append (w1 w2 : World) :
    removals (w1 ++ w2) = removals w1 ++ removals w2 := by
  simp [removals, List.filterMap_append]

/-! ### `writeFile` -/

theorem writeFile_ok {env : Env} {name : String} {dir : Path} {contents : Bytes}
    {w w' : World} {u : Unit} (h : writeFile env name dir contents w = (.ok u, w')) :
    w' = w ++ [Event.ensureDir dir 0o755, Event.writeFile (Join dir [name]) contents 0o644] := by
  unfold writeFile at h
  dsimp only at h
  split at h
  · cases h
  · split at h
    · cases h
    · cases h
      simp

/-! ### The provisioning loop -/

/-- A successful iteration of the provisioning loop creates one directory, writes the
mnemonic file and the gentx file of the node, removes nothing, appends the record of the
node and advances the port counter. -/
theorem provisionNode_ok {env : Env} {cmd : Cmd} {outputDir chainID nodeDirPrefix
    nodeDaemonHome keyringBackend algoStr stakeDenom : String} {valCoins : List Coin}
    {simappConfig : AppConfig} {i : Nat} {st st' : LoopState} {w w' : World}
    (h : provisionNode env cmd outputDir chainID nodeDirPrefix nodeDaemonHome keyringBackend
      algoStr stakeDenom valCoins simappConfig i st w = (.ok st', w')) :
    mkdirPaths w' = mkdirPaths w
        ++ [(nodeConfigDir outputDir (nodeDirName nodeDirPrefix i) nodeDaemonHome, nodeDirPerm)]
    ∧ writes w' = writes w
        ++ [(keySeedFile outputDir (nodeDirName nodeDirPrefix i) nodeDaemonHome, 0o644),
            (gentxFile outputDir (nodeDirName nodeDirPrefix i), 0o644)]
    ∧ removals w' = removals w
    ∧ st'.nodes = st.nodes ++ [mkTestnetNode (nodeDirName nodeDirPrefix i) st.initialPort]
    ∧ st'.initialPort = nextInitialPort st.initialPort := by
  unfold provisionNode at h
  try dsimp only at h
  split at h
  · cases h
  try dsimp only at h
  split at h
  · cases h
  try dsimp only at h
  split at h
  · cases h
  try dsimp only at h
  split at h
  · cases h
  try dsimp only at h
  split at h
  · cases h
  try dsimp only at h
  split at h
  · cases h
  try dsimp only at h
  split at h
  · cases h
  rename_i wk hk
  try dsimp only at h
  split at h
  · cases h
  try dsimp only at h
  split at h
  · cases h
  try dsimp only at h
  split at h
  · cases h
  try dsimp only at h
  split at h
  · cases h
  try dsimp only at h
  split at h
  · cases h
  try dsimp only at h
  split at h
  · cases h
  try dsimp only at h
  split at h
  · cases h
  rename_i wg hg
  have ek := writeFile_ok hk
  have eg := writeFile_ok hg
  simp only [Prod.mk.injEq, Except.ok.injEq] at h
  obtain ⟨rfl, rfl⟩ := h
  subst eg
  subst ek
  refine ⟨?_, ?_, ?_, rfl, rfl⟩
  · simp [mkdirPaths, List.filterMap_append, nodeConfigDir, Join]
  · simp [writes, List.filterMap_append, keySeedFile, gentxFile, Join]
  · simp [removals, List.filterMap_append]

/-- A successful run of `k` iterations from node `i` creates the directories, writes the
mnemonic and gentx files and appends the records of nodes `i` to `i + k - 1`. -/
theorem provisionLoop_ok {env : Env} {cmd : Cmd} {outputDir chainID nodeDirPrefix
    nodeDaemonHome keyringBackend algoStr stakeDenom : String} {valCoins : List Coin}
    {simappConfig : AppConfig} (k : Nat) :
    ∀ (i : Nat) (st st' : LoopState) (w w' : World),
      provisionLoop env cmd outputDir chainID nodeDirPrefix nodeDaemonHome keyringBackend
        algoStr stakeDenom valCoins simappConfig k i st w = (.ok st', w') →
      st.initialPort = initialPortAt i →
      mkdirPaths w' = mkdirPaths w ++ (List.range' i k).map (fun j =>
          (nodeConfigDir outputDir (nodeDirName nodeDirPrefix j) nodeDaemonHome, nodeDirPerm))
      ∧ writes w' = writes w ++ (List.range' i k).flatMap (fun j =>
          [(keySeedFile outputDir (nodeDirName nodeDirPrefix j) nodeDaemonHome, 0o644),
           (gentxFile outputDir (nodeDirName nodeDirPrefix j), 0o644)])
      ∧ removals w' = removals w
      ∧ st'.nodes = st.nodes ++ (List.range' i k).map (fun j =>
          mkTestnetNode (nodeDirName nodeDirPrefix j) (initialPortAt j))
      ∧ st'.initialPort = initialPortAt (i + k) := by
  induction k with
  | zero =>
    intro i st st' w w' h hp
    simp only [provisionLoop, Prod.mk.injEq, Except.ok.injEq] at h
    obtain ⟨rfl, rfl⟩ := h
    simp [hp]
  | succ k ih =>
    intro i st st' w w' h hp
    unfold provisionLoop at h
    split at h
    · cases h
    · rename_i st1 w1 hnode
      obtain ⟨a1, a2, a3, a4, a5⟩ := provisionNode_ok hnode
      have hp1 : st1.initialPort = initialPortAt (i + 1) := by
        rw [a5, hp]; rfl
      obtain ⟨b1, b2, b3, b4, b5⟩ := ih (i + 1) st1 st' w1 w' h hp1
      refine ⟨?_, ?_, ?_, ?_, ?_⟩
      · rw [b1, a1]; simp [List.range'_succ]
      · rw [b2, a2]; simp [List.range'_succ]
      · rw [b3, a3]
      · rw [b4, a4, hp]; simp [List.range'_succ]
      · rw [b5]; congr 1; omega

theorem sameFiles_refl (w : World) : SameFiles w w := ⟨rfl, rfl, rfl⟩

theorem sameFiles_trans {w1 w2 w3 : World} (h12 : SameFiles w1 w2) (h23 : SameFiles w2 w3) :
    SameFiles w1 w3 :=
  ⟨h23.1.trans h12.1, h23.2.1.trans h12.2.1, h23.2.2.trans h12.2.2⟩

theorem saveLoop_sameFiles {env : Env} {genDoc : GenesisDoc} {genFiles : List Path}
    (k : Nat) : ∀ (i : Nat) (w w' : World) (r : Except Err Unit),
      saveLoop env genDoc genFiles k i w = (r, w') → SameFiles w w' := by
  induction k with
  | zero =>
    intro i w w' r h
    simp only [saveLoop, Prod.mk.injEq] at h
    obtain ⟨_, rfl⟩ := h
    exact sameFiles_refl _
  | succ k ih =>
    intro i w w' r h
    unfold saveLoop at h
    split at h
    · cases h; exact sameFiles_refl _
    · split at h
      · cases h; exact sameFiles_refl _
      · refine sameFiles_trans ?_ (ih _ _ _ _ h)
        simp [SameFiles, mkdirPaths, writes, removals, List.filterMap_append]

theorem initGenFiles_sameFiles {env : Env} {chainID stakeDenom unbondingPeriod : String}
    {genAccounts : List String} {genBalances : List Balance} {genFiles : List Path}
    {N : Int} {w w' : World} {r : Except Err Unit}
    (h : initGenFiles env chainID stakeDenom unbondingPeriod genAccounts genBalances genFiles
      N w = (r, w')) : SameFiles w w' := by
  unfold initGenFiles at h
  split at h
  · cases h; exact sameFiles_refl _
  · dsimp only at h
    split at h
    · cases h; exact sameFiles_refl _
    · exact saveLoop_sameFiles _ _ _ _ _ h

theorem collectNode_sameFiles {env : CollectEnv} {chainID : String} {nodeIDs : List String}
    {valPubKeys : List PubKey} {outputDir nodeDirPrefix nodeDaemonHome : String}
    {genTime : Time} {i : Nat} {cfg : NodeConfig} {a : RawMessage} {w w' : World}
    {r : Except Err (NodeConfig × RawMessage)}
    (h : collectNode env chainID nodeIDs valPubKeys outputDir nodeDirPrefix nodeDaemonHome
      genTime i cfg a w = (r, w')) : SameFiles w w' := by
  unfold collectNode at h
  dsimp only at h
  split at h
  · cases h; exact sameFiles_refl _
  · cases h; exact sameFiles_refl _
  · split at h
    · cases h; exact sameFiles_refl _
    · split at h
      · cases h; exact sameFiles_refl _
      · split at h
        · cases h
          simp [SameFiles, mkdirPaths, writes, removals, List.filterMap_append]
        · cases h
          simp [SameFiles, mkdirPaths, writes, removals, List.filterMap_append]

theorem collectLoop_sameFiles {env : CollectEnv} {chainID : String} {nodeIDs : List String}
    {valPubKeys : List PubKey} {outputDir nodeDirPrefix nodeDaemonHome : String}
    {genTime : Time} (k : Nat) :
    ∀ (i : Nat) (cfg : NodeConfig) (a : RawMessage) (w w' : World) (r : Except Err Unit),
      collectLoop env chainID nodeIDs valPubKeys outputDir nodeDirPrefix nodeDaemonHome
        genTime k i cfg a w = (r, w') → SameFiles w w' := by
  induction k with
  | zero =>
    intro i cfg a w w' r h
    simp only [collectLoop, Prod.mk.injEq] at h
    obtain ⟨_, rfl⟩ := h
    exact sameFiles_refl _
  | succ k ih =>
    intro i cfg a w w' r h
    unfold collectLoop at h
    split at h
    · rename_i hnode
      cases h
      exact collectNode_sameFiles hnode
    · rename_i hnode
      exact sameFiles_trans (collectNode_sameFiles hnode) (ih _ _ _ _ _ _ h)

theorem collectGenFiles_sameFiles {env : CollectEnv} {cfg : NodeConfig} {chainID : String}
    {nodeIDs : List String} {valPubKeys : List PubKey} {N : Int}
    {outputDir nodeDirPrefix nodeDaemonHome : String} {w w' : World} {r : Except Err Unit}
    (h : collectGenFiles env cfg chainID nodeIDs valPubKeys N outputDir nodeDirPrefix
      nodeDaemonHome w = (r, w')) : SameFiles w w' := by
  unfold collectGenFiles at h
  exact collectLoop_sameFiles _ _ _ _ _ _ _ h

/-! ### After the loop -/

/-- A successful `finishTestnet` creates no directory, removes nothing and writes one
file through `writeFile`: the descriptor rendered by `docker` from the node list. -/
theorem finishTestnet_ok {env : Env} {cmd : Cmd} {outputDir chainID nodeDirPrefix
    nodeDaemonHome stakeDenom unbondingPeriod : String} {N : Int} {st : LoopState}
    {w w' : World}
    (h : finishTestnet env cmd outputDir chainID nodeDirPrefix nodeDaemonHome stakeDenom
      unbondingPeriod N st w = (.ok (), w')) :
    mkdirPaths w' = mkdirPaths w
    ∧ writes w' = writes w ++ [([outputDir, "docker-compose.yml"], 0o644)]
    ∧ removals w' = removals w
    ∧ ∃ tag definition, cmd.GetString flagDockerTag = .ok tag
        ∧ docker st.nodes tag = .ok definition
        ∧ Event.writeFile [outputDir, "docker-compose.yml"] (stringBytes definition) 0o644
            ∈ w' := by
  unfold finishTestnet at h
  dsimp only at h
  split at h
  · cases h
  rename_i w1 h1
  split at h
  · cases h
  rename_i w2 h2
  split at h
  · cases h
  rename_i tag htag
  split at h
  · cases h
  rename_i definition hdef
  split at h
  · cases h
  rename_i w3 h3
  have s1 := initGenFiles_sameFiles h1
  have s2 := collectGenFiles_sameFiles h2
  have e3 := writeFile_ok h3
  simp only [Prod.mk.injEq, true_and] at h
  subst h
  subst e3
  obtain ⟨m12, w12, r12⟩ := sameFiles_trans s1 s2
  refine ⟨?_, ?_, ?_, tag, definition, htag, hdef, ?_⟩
  · rw [mkdirPaths_append, mkdirPaths_append, m12]
    simp [mkdirPaths]
  · rw [writes_append, writes_append, w12]
    simp [writes, Join]
  · rw [removals_append, removals_append, r12]
    simp [removals]
  · simp [Join]

/-- A successful `InitTestnet` passed the slice allocation, read its flags, ran the
provisioning loop over all nodes and then `finishTestnet`. -/
theorem InitTestnet_ok {env : Env} {cmd : Cmd} {nodeConfig : NodeConfig}
    {outputDir chainID minGasPrices nodeDirPrefix nodeDaemonHome ip keyringBackend
      algoStr : String} {N : Int} {w w' : World}
    (h : InitTestnet env cmd nodeConfig outputDir chainID minGasPrices nodeDirPrefix
      nodeDaemonHome ip keyringBackend algoStr N w = (.ok (), w')) :
    makeSliceOk N = true
    ∧ ∃ stakeDenom valCoins unbondingPeriod st w1,
        readFlags env cmd = .ok (stakeDenom, valCoins, unbondingPeriod)
        ∧ provisionLoop env cmd outputDir
            (if chainID = "" then "chain-" ++ env.randStr else chainID) nodeDirPrefix
            nodeDaemonHome keyringBackend algoStr stakeDenom valCoins
            (mkSimappConfig minGasPrices
              (if chainID = "" then "chain-" ++ env.randStr else chainID))
            N.toNat 0 (initialLoopState nodeConfig N) w = (.ok st, w1)
        ∧ finishTestnet env cmd outputDir
            (if chainID = "" then "chain-" ++ env.randStr else chainID) nodeDirPrefix
            nodeDaemonHome stakeDenom unbondingPeriod N st w1 = (.ok (), w') := by
  unfold InitTestnet at h
  dsimp only at h
  split at h
  · cases h
  rename_i hmake
  split at h
  · cases h
  rename_i stakeDenom valCoins unbondingPeriod hflags
  split at h
  · cases h
  rename_i st w1 hloop
  exact ⟨by simpa using hmake, stakeDenom, valCoins, unbondingPeriod, st, w1, hflags, hloop, h⟩

/-- C4: for every validator count `N` and every node-directory prefix, a successful
`InitTestnet` run has created exactly the `N` node directories of the names
`prefix ++ i` (`i = 0 .. N-1`) and written exactly `N` gentx files `<prefix><i>.json` in
the shared `gentxs` directory (next to the `N` mnemonic files and the descriptor); the
names are pairwise distinct, so the gentx files are pairwise distinct and none
overwrites another; nothing was removed, and the node list handed to `docker` has
length `N`. -/
theorem C4_node_dirs_and_gentxs (env : Env) (cmd : Cmd) (nodeConfig : NodeConfig)
    (outputDir chainID minGasPrices nodeDirPrefix nodeDaemonHome ip keyringBackend
      algoStr : String) (N : Int) (w w' : World)
    (h : InitTestnet env cmd nodeConfig outputDir chainID minGasPrices nodeDirPrefix
      nodeDaemonHome ip keyringBackend algoStr N w = (.ok (), w')) :
    ((List.range N.toNat).map (nodeDirName nodeDirPrefix)).Nodup
    ∧ ((List.range N.toNat).map (nodeDirName nodeDirPrefix)).length = N.toNat
    ∧ mkdirPaths w' = mkdirPaths w ++ (List.range N.toNat).map (fun i =>
        (nodeConfigDir outputDir (nodeDirName nodeDirPrefix i) nodeDaemonHome, nodeDirPerm))
    ∧ writes w' = writes w
        ++ (List.range N.toNat).flatMap (fun i =>
            [(keySeedFile outputDir (nodeDirName nodeDirPrefix i) nodeDaemonHome, 0o644),
             (gentxFile outputDir (nodeDirName nodeDirPrefix i), 0o644)])
        ++ [([outputDir, "docker-compose.yml"], 0o644)]
    ∧ ((List.range N.toNat).map (fun i =>
        gentxFile outputDir (nodeDirName nodeDirPrefix i))).Nodup
    ∧ ((List.range N.toNat).map (fun i =>
        gentxFile outputDir (nodeDirName nodeDirPrefix i))).length = N.toNat
    ∧ removals w' = removals w
    ∧ ∃ nodes tag definition, nodes.length = N.toNat
        ∧ nodes = (List.range N.toNat).map (fun i =>
            mkTestnetNode (nodeDirName nodeDirPrefix i) (initialPortAt i))
        ∧ docker nodes tag = .ok definition
        ∧ Event.writeFile [outputDir, "docker-compose.yml"] (stringBytes definition) 0o644
            ∈ w' := by
  obtain ⟨_, stakeDenom, valCoins, up, st, w1, _, hloop, hfin⟩ := InitTestnet_ok h
  obtain ⟨a1, a2, a3, a4, _⟩ := provisionLoop_ok N.toNat 0 _ st w w1 hloop rfl
  obtain ⟨b1, b2, b3, tag, definition, _, hdef, hmem⟩ := finishTestnet_ok hfin
  have hnodes : st.nodes = (List.range N.toNat).map (fun i =>
      mkTestnetNode (nodeDirName nodeDirPrefix i) (initialPortAt i)) := by
    rw [a4, List.range_eq_range']
    simp [initialLoopState]
  refine ⟨nodeDirNames_nodup _ _, by simp, ?_, ?_, gentxFiles_nodup _ _ _, by simp, ?_, ?_⟩
  · rw [b1, a1, List.range_eq_range']
  · rw [b2, a2, List.range_eq_range']
  · rw [b3, a3]
  · exact ⟨st.nodes, tag, definition, by rw [hnodes]; simp, hnodes, hdef, hmem⟩

/-- Witness of C4: the toy environment with two validators. -/
theorem C4_node_dirs_and_gentxs_witness :
    demoRun.1 = .ok ()
    ∧ mkdirPaths demoRun.2
        = [(["out", "node0", "starsd", "config"], 0o755),
           (["out", "node1", "starsd", "config"], 0o755)]
    ∧ writes demoRun.2
        = [(["out", "node0", "starsd", "key_seed.json"], 0o644),
           (["out", "gentxs", "node0.json"], 0o644),
           (["out", "node1", "starsd", "key_seed.json"], 0o644),
           (["out", "gentxs", "node1.json"], 0o644),
           (["out", "docker-compose.yml"], 0o644)] := by
  have h := C4_node_dirs_and_gentxs demoEnv demoCmd demoNodeConfig "out" "testnet-1"
    "0.000006ustarx" "node" "starsd" "192.168.0.1" "test" "secp256k1" 2 [] demoRun.2
    (by decide)
  exact ⟨by decide, h.2.2.1.trans (by decide), h.2.2.2.1.trans (by decide)⟩

/-! ### The unbonding period is parsed after the provisioning loop -/

/-- When the template holds a decodable staking module and the unbonding period does not
parse, `initGenFiles` returns the parse error of `initGenesis` and has no effect. -/
theorem initGenFiles_parse_error {env : Env} {chainID stakeDenom unbondingPeriod : String}
    {genAccounts : List String} {genBalances : List Balance} {genFiles : List Path}
    {N : Int} {w : World} {raw bz : Bytes} {m : AppMap} {s : StakingGenesisState} {e : Err}
    (htemplate : composeTemplate env genAccounts genBalances = .ok raw)
    (hmap : env.lib.jsonUnmarshal (some raw) = .ok m)
    (hst : m.get stakingModuleName = some bz)
    (hdec : env.cdc.UnmarshalStaking bz = .ok s)
    (hparse : env.lib.ParseDuration unbondingPeriod = .error e) :
    initGenFiles env chainID stakeDenom unbondingPeriod genAccounts genBalances genFiles N w
      = (.error (.wrap "failed to parse unbonding period" e), w) := by
  simp [initGenFiles, htemplate, initGenesis, hmap, migrateAppState, migrateStaking, hst,
    hdec, hparse]

/-- C7 (counterexample): one validator and the unbonding period `72x`.  `InitTestnet`
returns the parse error, and at that point the node directory has been created, the
mnemonic file and the gentx file have been written, and nothing has been removed. -/
theorem C7_counterexample :
    badPeriodRun.1
      = .error (.wrap "failed to parse unbonding period"
          (.ext "time: unknown unit in duration"))
    ∧ mkdirPaths badPeriodRun.2 = [(["out", "node0", "starsd", "config"], 0o755)]
    ∧ writes badPeriodRun.2
        = [(["out", "node0", "starsd", "key_seed.json"], 0o644),
           (["out", "gentxs", "node0.json"], 0o644)]
    ∧ removals badPeriodRun.2 = [] := by
  decide

/-- C7 (amended): when the unbonding-period string is not a valid duration and the
template state holds a decodable staking module, `InitTestnet` returns the configuration
error `failed to parse unbonding period`, but only once the provisioning loop has run for
all `N` nodes: the string is first parsed inside `initGenesis`.  At the point the error is
returned the `N` node directories have been created, the `N` mnemonic files and the `N`
gentx files have been written, and nothing has been removed. -/
theorem C7_parse_error_after_provisioning (env : Env) (cmd : Cmd) (nodeConfig : NodeConfig)
    (outputDir chainID minGasPrices nodeDirPrefix nodeDaemonHome ip keyringBackend
      algoStr : String) (N : Int) (w w1 : World)
    (stakeDenom unbondingPeriod : String) (valCoins : List Coin) (st : LoopState)
    (raw bz : Bytes) (m : AppMap) (s : StakingGenesisState) (e : Err)
    (hmake : makeSliceOk N = true)
    (hflags : readFlags env cmd = .ok (stakeDenom, valCoins, unbondingPeriod))
    (hloop : provisionLoop env cmd outputDir
        (if chainID = "" then "chain-" ++ env.randStr else chainID) nodeDirPrefix
        nodeDaemonHome keyringBackend algoStr stakeDenom valCoins
        (mkSimappConfig minGasPrices
          (if chainID = "" then "chain-" ++ env.randStr else chainID))
        N.toNat 0 (initialLoopState nodeConfig N) w = (.ok st, w1))
    (htemplate : composeTemplate env (env.SanitizeGenesisAccounts st.genAccounts)
        (env.SanitizeGenesisBalances st.genBalances) = .ok raw)
    (hmap : env.lib.jsonUnmarshal (some raw) = .ok m)
    (hst : m.get stakingModuleName = some bz)
    (hdec : env.cdc.UnmarshalStaking bz = .ok s)
    (hparse : env.lib.ParseDuration unbondingPeriod = .error e) :
    InitTestnet env cmd nodeConfig outputDir chainID minGasPrices nodeDirPrefix
        nodeDaemonHome ip keyringBackend algoStr N w
      = (.error (.wrap "failed to parse unbonding period" e), w1)
    ∧ mkdirPaths w1 = mkdirPaths w ++ (List.range N.toNat).map (fun i =>
        (nodeConfigDir outputDir (nodeDirName nodeDirPrefix i) nodeDaemonHome, nodeDirPerm))
    ∧ writes w1 = writes w ++ (List.range N.toNat).flatMap (fun i =>
        [(keySeedFile outputDir (nodeDirName nodeDirPrefix i) nodeDaemonHome, 0o644),
         (gentxFile outputDir (nodeDirName nodeDirPrefix i), 0o644)])
    ∧ removals w1 = removals w := by
  obtain ⟨a1, a2, a3, _, _⟩ := provisionLoop_ok N.toNat 0 _ st w w1 hloop rfl
  refine ⟨?_, ?_, ?_, a3⟩
  · unfold InitTestnet
    simp only [hmake, hflags, hloop, Bool.true_eq_false, if_false]
    unfold finishTestnet
    simp only [initGenFiles_parse_error htemplate hmap hst hdec hparse]
  · rw [a1, List.range_eq_range']
  · rw [a2, List.range_eq_range']

/-- Witness of C7 (amended): the toy environment with one validator and the unbonding
period `72x`. -/
theorem C7_parse_error_after_provisioning_witness :
    InitTestnet demoEnv badPeriodCmd demoNodeConfig "out" "testnet-1" "0.000006ustarx"
        "node" "starsd" "192.168.0.1" "test" "secp256k1" 1 []
      = (.error (.wrap "failed to parse unbonding period"
          (.ext "time: unknown unit in duration")), badPeriodLoop.2)
    ∧ mkdirPaths badPeriodLoop.2 = [(["out", "node0", "starsd", "config"], 0o755)]
    ∧ writes badPeriodLoop.2
        = [(["out", "node0", "starsd", "key_seed.json"], 0o644),
           (["out", "gentxs", "node0.json"], 0o644)]
    ∧ removals badPeriodLoop.2 = [] := by
  have h := C7_parse_error_after_provisioning demoEnv badPeriodCmd demoNodeConfig "out"
    "testnet-1" "0.000006ustarx" "node" "starsd" "192.168.0.1" "test" "secp256k1" 1 []
    badPeriodLoop.2 "ustarx" "72x" [{ Denom := "ustarx", Amount := 1000000000 }]
    badPeriodState (encodeMap badPeriodTemplate) [12] badPeriodTemplate
    { Params := { UnbondingTime := 1814400 * Second, BondDenom := "stake", Other := [] },
      Other := [12] }
    (.ext "time: unknown unit in duration")
    (by decide) (by decide) (by decide) (by decide) (by decide) (by decide) (by decide)
    (by decide)
  exact ⟨h.1, h.2.1.trans (by decide), h.2.2.1.trans (by decide), h.2.2.2⟩

/-! ### Failure paths of `InitTestnet` -/

/-- The three failures of `ProvisioningFailure` make the iteration return the error after
a call to `os.RemoveAll` on the output directory. -/
theorem provisionNode_cleanup {env : Env} {cmd : Cmd} {outputDir chainID nodeDirPrefix
    nodeDaemonHome keyringBackend algoStr stakeDenom : String} {valCoins : List Coin}
    {simappConfig : AppConfig} {i : Nat} {st : LoopState} {w : World} {e : Err}
    (h : ProvisioningFailure env outputDir (nodeDirName nodeDirPrefix i) nodeDaemonHome
      keyringBackend algoStr st.nodeConfig w e) :
    ∃ evs, provisionNode env cmd outputDir chainID nodeDirPrefix nodeDaemonHome
        keyringBackend algoStr stakeDenom valCoins simappConfig i st w
          = (.error e, w ++ evs ++ [Event.removeAll [outputDir]])
      ∧ removals evs = [] := by
  simp only [ProvisioningFailure] at h
  rcases h with h1 | ⟨h1, h2⟩ | ⟨h1, nodeID, valPubKey, algo, h2, h3, h4, h5⟩
  · refine ⟨[], ?_, rfl⟩
    simp [provisionNode, Join, nodeConfigDir] at h1 ⊢
    simp [h1]
  · refine ⟨[Event.mkdirAll (nodeConfigDir outputDir (nodeDirName nodeDirPrefix i)
        nodeDaemonHome) nodeDirPerm], ?_, rfl⟩
    simp [provisionNode, Join, nodeConfigDir] at h1 h2 ⊢
    simp [h1, h2]
  · refine ⟨[Event.mkdirAll (nodeConfigDir outputDir (nodeDirName nodeDirPrefix i)
        nodeDaemonHome) nodeDirPerm,
        Event.initNodeValidatorFiles [outputDir, nodeDirName nodeDirPrefix i, nodeDaemonHome],
        Event.keyringNew [outputDir, nodeDirName nodeDirPrefix i, nodeDaemonHome]], ?_, rfl⟩
    simp [provisionNode, Join, nodeConfigDir] at h1 h2 h3 h4 h5 ⊢
    simp [h1, h2, h3, h4, h5]

/-- If the loop provisions `i` nodes and the next one fails, the loop returns that
failure however many iterations were still to come. -/
theorem provisionLoop_error_at {env : Env} {cmd : Cmd} {outputDir chainID nodeDirPrefix
    nodeDaemonHome keyringBackend algoStr stakeDenom : String} {valCoins : List Coin}
    {simappConfig : AppConfig} (i : Nat) :
    ∀ (i0 : Nat) (st st1 : LoopState) (w w1 w2 : World) (e : Err) (rest : Nat),
      provisionLoop env cmd outputDir chainID nodeDirPrefix nodeDaemonHome keyringBackend
        algoStr stakeDenom valCoins simappConfig i i0 st w = (.ok st1, w1) →
      provisionNode env cmd outputDir chainID nodeDirPrefix nodeDaemonHome keyringBackend
        algoStr stakeDenom valCoins simappConfig (i0 + i) st1 w1 = (.error e, w2) →
      provisionLoop env cmd outputDir chainID nodeDirPrefix nodeDaemonHome keyringBackend
        algoStr stakeDenom valCoins simappConfig (rest + i + 1) i0 st w = (.error e, w2) := by
  induction i with
  | zero =>
    intro i0 st st1 w w1 w2 e rest hloop hnode
    simp only [provisionLoop, Prod.mk.injEq, Except.ok.injEq] at hloop
    obtain ⟨rfl, rfl⟩ := hloop
    simp only [Nat.add_zero] at hnode ⊢
    unfold provisionLoop
    rw [hnode]
  | succ i ih =>
    intro i0 st st1 w w1 w2 e rest hloop hnode
    unfold provisionLoop at hloop
    split at hloop
    · cases hloop
    · rename_i st' w' hfirst
      have hnode' : provisionNode env cmd outputDir chainID nodeDirPrefix nodeDaemonHome
          keyringBackend algoStr stakeDenom valCoins simappConfig (i0 + 1 + i) st1 w1
            = (.error e, w2) := by
        have : i0 + 1 + i = i0 + (i + 1) := by omega
        rw [this]; exact hnode
      have := ih (i0 + 1) st' st1 w' w1 w2 e rest hloop hnode'
      have hcount : rest + (i + 1) + 1 = (rest + i + 1) + 1 := by omega
      rw [hcount]
      unfold provisionLoop
      rw [hfirst]
      exact this

theorem writeFile_frame {env : Env} {name : String} {dir : Path} {contents : Bytes}
    {w w' : World} {r : Except Err Unit} (h : writeFile env name dir contents w = (r, w')) :
    mkdirPaths w' = mkdirPaths w ∧ removals w' = removals w := by
  unfold writeFile at h
  dsimp only at h
  split at h
  · cases h; exact ⟨rfl, rfl⟩
  · split at h
    · cases h
      simp [mkdirPaths, removals, List.filterMap_append]
    · cases h
      simp [mkdirPaths, removals, List.filterMap_append]

/-- Whatever its result, `finishTestnet` calls `os.RemoveAll` on nothing. -/
theorem finishTestnet_removals {env : Env} {cmd : Cmd} {outputDir chainID nodeDirPrefix
    nodeDaemonHome stakeDenom unbondingPeriod : String} {N : Int} {st : LoopState}
    {w w' : World} {r : Except Err Unit}
    (h : finishTestnet env cmd outputDir chainID nodeDirPrefix nodeDaemonHome stakeDenom
      unbondingPeriod N st w = (r, w')) : removals w' = removals w := by
  unfold finishTestnet at h
  dsimp only at h
  split at h
  · rename_i h1
    cases h
    exact (initGenFiles_sameFiles h1).2.2
  rename_i w1 h1
  have s1 := (initGenFiles_sameFiles h1).2.2
  split at h
  · rename_i h2
    cases h
    rw [(collectGenFiles_sameFiles h2).2.2, s1]
  rename_i w2 h2
  have s2 := (collectGenFiles_sameFiles h2).2.2
  split at h
  · cases h; rw [s2, s1]
  split at h
  · cases h; rw [s2, s1]
  split at h
  · rename_i h3
    cases h
    rw [(writeFile_frame h3).2, s2, s1]
  · rename_i w3 h3
    cases h
    rw [removals_append, (writeFile_frame h3).2, s2, s1]
    simp [removals]

/-- C9 (counterexample): with one validator, an unsupported signing algorithm makes
`InitTestnet` return the error while the node directory it created stays in place (no
call to `os.RemoveAll`); and when the replay of the collector fails, `InitTestnet`
returns the error with the mnemonic file and the gentx file written and nothing
removed. -/
theorem C9_counterexample :
    unsupportedAlgoRun.1 = .error (.ext "provided algorithm is not supported")
    ∧ mkdirPaths unsupportedAlgoRun.2 = [(["out", "node0", "starsd", "config"], 0o755)]
    ∧ removals unsupportedAlgoRun.2 = []
    ∧ failingReplayRun.1 = .error (.ext "there must be at least one genesis tx")
    ∧ writes failingReplayRun.2
        = [(["out", "node0", "starsd", "key_seed.json"], 0o644),
           (["out", "gentxs", "node0.json"], 0o644)]
    ∧ removals failingReplayRun.2 = [] := by
  decide

/-- C9 (amended): for every node index `i < N`, if the first `i` nodes are provisioned
and the provisioning of node `i` fails at the creation of its directory, at the
initialisation of its node and validator keys, or at the generation and saving of its
account key in the keyring, then `InitTestnet` returns that error and its last effect is
the call `os.RemoveAll(outputDir)`.  Once the provisioning loop has completed, no path of
`InitTestnet`, failing or not, removes anything. -/
theorem C9_cleanup_on_provisioning_failure (env : Env) (cmd : Cmd) (nodeConfig : NodeConfig)
    (outputDir chainID minGasPrices nodeDirPrefix nodeDaemonHome ip keyringBackend
      algoStr : String) (N : Int) (w : World)
    (stakeDenom unbondingPeriod : String) (valCoins : List Coin)
    (hmake : makeSliceOk N = true)
    (hflags : readFlags env cmd = .ok (stakeDenom, valCoins, unbondingPeriod)) :
    (∀ (i : Nat) (st : LoopState) (w1 : World) (e : Err), i < N.toNat →
      provisionLoop env cmd outputDir
          (if chainID = "" then "chain-" ++ env.randStr else chainID) nodeDirPrefix
          nodeDaemonHome keyringBackend algoStr stakeDenom valCoins
          (mkSimappConfig minGasPrices
            (if chainID = "" then "chain-" ++ env.randStr else chainID))
          i 0 (initialLoopState nodeConfig N) w = (.ok st, w1) →
      ProvisioningFailure env outputDir (nodeDirName nodeDirPrefix i) nodeDaemonHome
          keyringBackend algoStr st.nodeConfig w1 e →
      ∃ w2, InitTestnet env cmd nodeConfig outputDir chainID minGasPrices nodeDirPrefix
            nodeDaemonHome ip keyringBackend algoStr N w = (.error e, w2)
        ∧ w2.getLast? = some (Event.removeAll [outputDir])
        ∧ removals w2 = removals w ++ [[outputDir]])
    ∧ (∀ (st : LoopState) (w1 w' : World) (r : Except Err Unit),
        provisionLoop env cmd outputDir
            (if chainID = "" then "chain-" ++ env.randStr else chainID) nodeDirPrefix
            nodeDaemonHome keyringBackend algoStr stakeDenom valCoins
            (mkSimappConfig minGasPrices
              (if chainID = "" then "chain-" ++ env.randStr else chainID))
            N.toNat 0 (initialLoopState nodeConfig N) w = (.ok st, w1) →
        InitTestnet env cmd nodeConfig outputDir chainID minGasPrices nodeDirPrefix
            nodeDaemonHome ip keyringBackend algoStr N w = (r, w') →
        removals w' = removals w) := by
  constructor
  · intro i st w1 e hi hloop hfail
    obtain ⟨evs, hnode, hevs⟩ := @provisionNode_cleanup env cmd outputDir
      (if chainID = "" then "chain-" ++ env.randStr else chainID) nodeDirPrefix
      nodeDaemonHome keyringBackend algoStr stakeDenom valCoins
      (mkSimappConfig minGasPrices
        (if chainID = "" then "chain-" ++ env.randStr else chainID)) i st w1 e hfail
    have hnode0 := hnode
    rw [← Nat.zero_add i] at hnode0
    have hall := provisionLoop_error_at i 0 _ st w w1 _ e (N.toNat - i - 1) hloop hnode0
    have hcount : N.toNat - i - 1 + i + 1 = N.toNat := by omega
    rw [hcount] at hall
    obtain ⟨_, _, a3, _, _⟩ := provisionLoop_ok i 0 _ st w w1 hloop rfl
    refine ⟨w1 ++ evs ++ [Event.removeAll [outputDir]], ?_, by simp, ?_⟩
    · unfold InitTestnet
      simp only [hmake, hflags, hall, Bool.true_eq_false, if_false]
    · rw [removals_append, removals_append, a3, hevs]
      simp [removals]
  · intro st w1 w' r hloop hrun
    obtain ⟨_, _, a3, _, _⟩ := provisionLoop_ok N.toNat 0 _ st w w1 hloop rfl
    unfold InitTestnet at hrun
    simp only [hmake, hflags, hloop, Bool.true_eq_false, if_false] at hrun
    rw [finishTestnet_removals hrun, a3]

/-- Witness of C9 (amended): two validators in the toy environment whose keyring cannot
save the account key of `node1`. -/
theorem C9_cleanup_on_provisioning_failure_witness :
    ∃ w2, InitTestnet failingKeyEnv demoCmd demoNodeConfig "out" "testnet-1"
          "0.000006ustarx" "node" "starsd" "192.168.0.1" "test" "secp256k1" 2 []
          = (.error (.ext "keyring: cannot save key"), w2)
      ∧ w2.getLast? = some (Event.removeAll ["out"])
      ∧ removals w2 = removals [] ++ [["out"]] :=
  (C9_cleanup_on_provisioning_failure failingKeyEnv demoCmd demoNodeConfig "out"
    "testnet-1" "0.000006ustarx" "node" "starsd" "192.168.0.1" "test" "secp256k1" 2 []
    "ustarx" "72h" [{ Denom := "ustarx", Amount := 1000000000 }] (by decide) (by decide)).1
    1 failingKeyState failingKeyLoop.2 (.ext "keyring: cannot save key") (by decide)
    (by decide)
    (by
      unfold ProvisioningFailure
      exact Or.inr (Or.inr ⟨by decide, "id-node1", asciiBytes "node1", "secp256k1",
        by decide, by decide, by decide, by decide⟩))

/-! ### The mode of the files written -/

theorem newWrites_refl (perm : Nat) (w : World) : NewWritesHaveMode perm w w :=
  ⟨[], by simp, by simp⟩

theorem newWrites_trans {perm : Nat} {w1 w2 w3 : World}
    (h12 : NewWritesHaveMode perm w1 w2) (h23 : NewWritesHaveMode perm w2 w3) :
    NewWritesHaveMode perm w1 w3 := by
  obtain ⟨f1, e1, m1⟩ := h12
  obtain ⟨f2, e2, m2⟩ := h23
  refine ⟨f1 ++ f2, by rw [e2, e1, List.append_assoc], ?_⟩
  intro x hx
  rcases List.mem_append.mp hx with hx | hx
  · exact m1 x hx
  · exact m2 x hx

theorem newWrites_append (perm : Nat) (w evs : World) (h : writes evs = []) :
    NewWritesHaveMode perm w (w ++ evs) :=
  ⟨[], by rw [writes_append, h], by simp⟩

theorem newWrites_of_eq (perm : Nat) {w w' : World} (h : writes w' = writes w) :
    NewWritesHaveMode perm w w' :=
  ⟨[], by rw [h]; simp, by simp⟩

/-- Whatever its result, `writeFile` writes with mode 0644 or not at all. -/
theorem writeFile_mode {env : Env} {name : String} {dir : Path} {contents : Bytes}
    {w w' : World} {r : Except Err Unit} (h : writeFile env name dir contents w = (r, w')) :
    NewWritesHaveMode 0o644 w w' := by
  unfold writeFile at h
  dsimp only at h
  split at h
  · cases h; exact newWrites_refl _ _
  · split at h
    · cases h
      exact newWrites_append _ _ _ rfl
    · cases h
      refine ⟨[(Join dir [name], 0o644)], ?_, by simp⟩
      simp [writes, List.filterMap_append]

/-- Whatever its result, an iteration of the provisioning loop writes with mode 0644
only. -/
theorem provisionNode_mode {env : Env} {cmd : Cmd} {outputDir chainID nodeDirPrefix
    nodeDaemonHome keyringBackend algoStr stakeDenom : String} {valCoins : List Coin}
    {simappConfig : AppConfig} {i : Nat} {st : LoopState} {w w' : World}
    {r : Except Err LoopState}
    (h : provisionNode env cmd outputDir chainID nodeDirPrefix nodeDaemonHome keyringBackend
      algoStr stakeDenom valCoins simappConfig i st w = (r, w')) :
    NewWritesHaveMode 0o644 w w' := by
  unfold provisionNode at h
  try dsimp only at h
  split at h
  · cases h
    exact newWrites_append _ _ _ rfl
  try dsimp only at h
  split at h
  · cases h
    simp only [List.append_assoc]
    exact newWrites_append _ _ _ rfl
  try dsimp only at h
  split at h
  · cases h
    simp only [List.append_assoc]
    exact newWrites_append _ _ _ rfl
  try dsimp only at h
  split at h
  · cases h
    simp only [List.append_assoc]
    exact newWrites_append _ _ _ rfl
  try dsimp only at h
  split at h
  · cases h
    simp only [List.append_assoc]
    exact newWrites_append _ _ _ rfl
  try dsimp only at h
  split at h
  · cases h
    simp only [List.append_assoc]
    exact newWrites_append _ _ _ rfl
  try dsimp only at h
  split at h
  · rename_i hk
    cases h
    refine newWrites_trans ?_ (writeFile_mode hk)
    simp only [List.append_assoc]
    exact newWrites_append _ _ _ rfl
  rename_i wk hk
  have hwk : NewWritesHaveMode 0o644 w wk := by
    refine newWrites_trans ?_ (writeFile_mode hk)
    simp only [List.append_assoc]
    exact newWrites_append _ _ _ rfl
  try dsimp only at h
  split at h
  · cases h
    exact hwk
  try dsimp only at h
  split at h
  · cases h
    exact hwk
  try dsimp only at h
  split at h
  · cases h
    exact hwk
  try dsimp only at h
  split at h
  · cases h
    exact hwk
  try dsimp only at h
  split at h
  · cases h
    exact hwk
  try dsimp only at h
  split at h
  · cases h
    exact hwk
  try dsimp only at h
  split at h
  · rename_i hg
    cases h
    exact newWrites_trans hwk (writeFile_mode hg)
  · rename_i wg hg
    cases h
    exact newWrites_trans (newWrites_trans hwk (writeFile_mode hg)) (newWrites_append _ _ _ rfl)

theorem provisionLoop_mode {env : Env} {cmd : Cmd} {outputDir chainID nodeDirPrefix
    nodeDaemonHome keyringBackend algoStr stakeDenom : String} {valCoins : List Coin}
    {simappConfig : AppConfig} (k : Nat) :
    ∀ (i : Nat) (st : LoopState) (w w' : World) (r : Except Err LoopState),
      provisionLoop env cmd outputDir chainID nodeDirPrefix nodeDaemonHome keyringBackend
        algoStr stakeDenom valCoins simappConfig k i st w = (r, w') →
      NewWritesHaveMode 0o644 w w' := by
  induction k with
  | zero =>
    intro i st w w' r h
    simp only [provisionLoop, Prod.mk.injEq] at h
    obtain ⟨_, rfl⟩ := h
    exact newWrites_refl _ _
  | succ k ih =>
    intro i st w w' r h
    unfold provisionLoop at h
    split at h
    · rename_i hnode
      cases h
      exact provisionNode_mode hnode
    · rename_i hnode
      exact newWrites_trans (provisionNode_mode hnode) (ih _ _ _ _ _ h)

theorem finishTestnet_mode {env : Env} {cmd : Cmd} {outputDir chainID nodeDirPrefix
    nodeDaemonHome stakeDenom unbondingPeriod : String} {N : Int} {st : LoopState}
    {w w' : World} {r : Except Err Unit}
    (h : finishTestnet env cmd outputDir chainID nodeDirPrefix nodeDaemonHome stakeDenom
      unbondingPeriod N st w = (r, w')) : NewWritesHaveMode 0o644 w w' := by
  unfold finishTestnet at h
  dsimp only at h
  split at h
  · rename_i h1
    cases h
    exact newWrites_of_eq _ (initGenFiles_sameFiles h1).2.1
  rename_i w1 h1
  have s1 : NewWritesHaveMode 0o644 w w1 :=
    newWrites_of_eq _ (initGenFiles_sameFiles h1).2.1
  split at h
  · rename_i h2
    cases h
    exact newWrites_trans s1 (newWrites_of_eq _ (collectGenFiles_sameFiles h2).2.1)
  rename_i w2 h2
  have s2 : NewWritesHaveMode 0o644 w w2 :=
    newWrites_trans s1 (newWrites_of_eq _ (collectGenFiles_sameFiles h2).2.1)
  split at h
  · cases h; exact s2
  split at h
  · cases h; exact s2
  split at h
  · rename_i h3
    cases h
    exact newWrites_trans s2 (writeFile_mode h3)
  · rename_i w3 h3
    cases h
    exact newWrites_trans (newWrites_trans s2 (writeFile_mode h3)) (newWrites_append _ _ _ rfl)

/-- Whatever its result, `InitTestnet` writes with mode 0644 only. -/
theorem InitTestnet_mode {env : Env} {cmd : Cmd} {nodeConfig : NodeConfig}
    {outputDir chainID minGasPrices nodeDirPrefix nodeDaemonHome ip keyringBackend
      algoStr : String} {N : Int} {w w' : World} {r : Except Err Unit}
    (h : InitTestnet env cmd nodeConfig outputDir chainID minGasPrices nodeDirPrefix
      nodeDaemonHome ip keyringBackend algoStr N w = (r, w')) :
    NewWritesHaveMode 0o644 w w' := by
  unfold InitTestnet at h
  dsimp only at h
  split at h
  · cases h; exact newWrites_refl _ _
  split at h
  · cases h; exact newWrites_refl _ _
  split at h
  · rename_i hloop
    cases h
    exact provisionLoop_mode _ _ _ _ _ _ hloop
  · rename_i st w1 hloop
    exact newWrites_trans (provisionLoop_mode _ _ _ _ _ _ hloop) (finishTestnet_mode h)

/-- C10 (counterexample): in the run of the toy environment the mnemonic file of node 0
is written with mode 0644, whose group and other bits are 044: the group and other users
may read the file. -/
theorem C10_counterexample :
    (["out", "node0", "starsd", "key_seed.json"], 0o644) ∈ writes demoRun.2
    ∧ groupOtherBits 0o644 = 0o044
    ∧ groupOtherBits 0o644 ≠ 0 := by
  decide

/-- C10 (amended): every file `InitTestnet` writes through `writeFile`, on every path,
failing or not, is written with the file mode 0644, and in a successful run the mnemonic
file `key_seed.json` of every node is among them.  The mode 0644 grants no write and no
execute permission to the group or to other users (its bits under 033 are zero), but it
grants read permission to both (its group and other bits are 044). -/
theorem C10_key_seed_mode (env : Env) (cmd : Cmd) (nodeConfig : NodeConfig)
    (outputDir chainID minGasPrices nodeDirPrefix nodeDaemonHome ip keyringBackend
      algoStr : String) (N : Int) (w w' : World) (r : Except Err Unit)
    (h : InitTestnet env cmd nodeConfig outputDir chainID minGasPrices nodeDirPrefix
      nodeDaemonHome ip keyringBackend algoStr N w = (r, w')) :
    NewWritesHaveMode 0o644 w w'
    ∧ (r = .ok () → ∀ i, i < N.toNat →
        (keySeedFile outputDir (nodeDirName nodeDirPrefix i) nodeDaemonHome, 0o644)
          ∈ writes w')
    ∧ groupOtherBits 0o644 = 0o044
    ∧ (0o644 : Nat) &&& 0o033 = 0 := by
  refine ⟨InitTestnet_mode h, ?_, by decide, by decide⟩
  intro hr i hi
  subst hr
  obtain ⟨_, stakeDenom, valCoins, up, st, w1, _, hloop, hfin⟩ := InitTestnet_ok h
  obtain ⟨_, a2, _, _, _⟩ := provisionLoop_ok N.toNat 0 _ st w w1 hloop rfl
  obtain ⟨_, b2, _, _⟩ := finishTestnet_ok hfin
  rw [b2, a2]
  apply List.mem_append_left
  apply List.mem_append_right
  rw [List.mem_flatMap]
  exact ⟨i, by simp [List.mem_range'_1, hi], by simp⟩

/-- Witness of C10 (amended): the run of the toy environment with two validators. -/
theorem C10_key_seed_mode_witness :
    NewWritesHaveMode 0o644 [] demoRun.2
    ∧ (["out", "node1", "starsd", "key_seed.json"], 0o644) ∈ writes demoRun.2 := by
  have h := C10_key_seed_mode demoEnv demoCmd demoNodeConfig "out" "testnet-1"
    "0.000006ustarx" "node" "starsd" "192.168.0.1" "test" "secp256k1" 2 [] demoRun.2
    (.ok ()) (by decide)
  exact ⟨h.1, h.2.1 rfl 1 (by decide)⟩

/-! ### The template application state and the clock -/

/-- The function `initGenFiles` saves, for every node, the document that carries the
template application state. -/
theorem initGenFiles_template (env : Env) (chainID stakeDenom unbondingPeriod : String)
    (genAccounts : List String) (genBalances : List Balance) (genFiles : List Path)
    (N : Int) (w : World) :
    initGenFiles env chainID stakeDenom unbondingPeriod genAccounts genBalances genFiles N w
      = match templateAppState env chainID stakeDenom unbondingPeriod genAccounts
          genBalances with
        | .error err => (.error err, w)
        | .ok appState =>
          saveLoop env
            { GenesisTime := zeroTime, ChainID := chainID, Validators := [],
              AppState := appState } genFiles N.toNat 0 w := by
  unfold initGenFiles templateAppState
  cases composeTemplate env genAccounts genBalances with
  | error err => rfl
  | ok raw => rfl

theorem templateAppState_ok {env : Env} {chainID stakeDenom unbondingPeriod : String}
    {genAccounts : List String} {genBalances : List Balance} {out : RawMessage}
    (h : templateAppState env chainID stakeDenom unbondingPeriod genAccounts genBalances
      = .ok out) :
    ∃ raw m m5 bz, composeTemplate env genAccounts genBalances = .ok raw
      ∧ env.lib.jsonUnmarshal (some raw) = .ok m
      ∧ migrateAppState env.cdc env.lib stakeDenom unbondingPeriod m = .ok m5
      ∧ env.lib.jsonMarshal m5 = .ok bz ∧ out = some bz := by
  unfold templateAppState at h
  split at h
  · cases h
  · rename_i raw hraw
    obtain ⟨m, m5, bz, hm, h5, hbz, hout⟩ := initGenesis_ok h
    exact ⟨raw, m, m5, bz, hraw, hm, h5, hbz, hout⟩

/-- Two runs of the five overrides that differ only in the reading of the clock agree on
every entry but the one of the mint module, and agree entirely when the mint module is
absent. -/
theorem migrateAppState_clock {cdc : JSONCodec} {lib : Lib} {t1 t2 : Time} {d up : String}
    {m m1 m2 : AppMap}
    (h1 : migrateAppState cdc { lib with timeNow := t1 } d up m = .ok m1)
    (h2 : migrateAppState cdc { lib with timeNow := t2 } d up m = .ok m2) :
    (∀ k, k ≠ mintModuleName → m1.get k = m2.get k)
    ∧ (m.get mintModuleName = none → m1 = m2) := by
  obtain ⟨a1, a2, a3, a4, s1, s2, s3, s4, s5⟩ := migrateAppState_steps h1
  obtain ⟨b1, b2, b3, b4, r1, r2, r3, r4, r5⟩ := migrateAppState_steps h2
  have e1 : a1 = b1 := by
    have : migrateStaking cdc { lib with timeNow := t1 } d up m
        = migrateStaking cdc { lib with timeNow := t2 } d up m := rfl
    rw [this, r1] at s1
    cases s1; rfl
  subst e1
  have e2 : a2 = b2 := by
    rw [r2] at s2
    cases s2; rfl
  subst e2
  have e3 : a3 = b3 := by
    have : migrateGov cdc { lib with timeNow := t1 } d a2
        = migrateGov cdc { lib with timeNow := t2 } d a2 := rfl
    rw [this, r3] at s3
    cases s3; rfl
  subst e3
  have o4a := migrateMint_overrides s4
  have o4b := migrateMint_overrides r4
  have hclaim4 : a4.get claimModuleName = b4.get claimModuleName := by
    rw [o4a.get_ne _ (by decide), o4b.get_ne _ (by decide)]
  constructor
  · intro k hk
    by_cases hc : k = claimModuleName
    · subst hc
      rcases migrateClaim_ok s5 with ⟨n1, rfl⟩ | ⟨bz, st, out, g1, u1, mo1, rfl⟩
      · rcases migrateClaim_ok r5 with ⟨n2, rfl⟩ | ⟨bz', st', out', g2, _, _, rfl⟩
        · exact hclaim4
        · rw [← hclaim4, n1] at g2; cases g2
      · rcases migrateClaim_ok r5 with ⟨n2, rfl⟩ | ⟨bz', st', out', g2, u2, mo2, rfl⟩
        · rw [hclaim4, n2] at g1; cases g1
        · rw [hclaim4, g2] at g1
          cases g1
          rw [u2] at u1
          cases u1
          rw [mo2] at mo1
          cases mo1
          rw [AppMap.get_set_same, AppMap.get_set_same]
    · rw [(migrateClaim_overrides s5).get_ne k (Ne.symm hc),
        (migrateClaim_overrides r5).get_ne k (Ne.symm hc),
        o4a.get_ne k (Ne.symm hk), o4b.get_ne k (Ne.symm hk)]
  · intro hnone
    have h3 : a3.get mintModuleName = none :=
      (migrateGov_overrides s3).get_none _
        ((migrateCrisis_overrides s2).get_none _
          ((migrateStaking_overrides s1).get_none _ hnone))
    have e4 : a4 = b4 := by
      rcases migrateMint_ok s4 with ⟨_, rfl⟩ | ⟨bz, _, _, g, _, _, _⟩
      · rcases migrateMint_ok r4 with ⟨_, rfl⟩ | ⟨bz', _, _, g', _, _, _⟩
        · rfl
        · rw [h3] at g'; cases g'
      · rw [h3] at g; cases g
    subst e4
    have : migrateClaim cdc { lib with timeNow := t1 } d a4
        = migrateClaim cdc { lib with timeNow := t2 } d a4 := rfl
    rw [this, r5] at s5
    cases s5; rfl

/-- C11 (counterexample): two compositions of the template state with the same flags,
the same chain ID, the same account and the same balance, sixty seconds apart.  Both
return, and the two application states differ. -/
theorem C11_counterexample :
    succeeded (templateAppState (timedEnv.atTime (1636000000 * Second)) "testnet-1"
        "ustarx" "72h" ["stars1node0"] [demoBalance]) = true
    ∧ succeeded (templateAppState (timedEnv.atTime (1636000060 * Second)) "testnet-1"
        "ustarx" "72h" ["stars1node0"] [demoBalance]) = true
    ∧ templateAppState (timedEnv.atTime (1636000000 * Second)) "testnet-1" "ustarx" "72h"
        ["stars1node0"] [demoBalance]
      ≠ templateAppState (timedEnv.atTime (1636000060 * Second)) "testnet-1" "ustarx" "72h"
        ["stars1node0"] [demoBalance] := by
  decide

/-- C11 (amended): for two runs with identical flags, the same chain ID, the same
collaborators and the same key material, taken at the times `t1` and `t2`, the template
application states produced by `initGenFiles` and `initGenesis` encode two maps with the
same keys that agree on the entry of every module except the mint module; when the mint
module is present its two entries encode the same state up to the start time, which is
the reading of `time.Now()` in each run.  The two template states are identical when the
mint module is absent or the two readings are equal. -/
theorem C11_template_clock (env : Env) (t1 t2 : Time)
    (chainID stakeDenom unbondingPeriod : String) (genAccounts : List String)
    (genBalances : List Balance) (out1 out2 : RawMessage)
    (h1 : templateAppState (env.atTime t1) chainID stakeDenom unbondingPeriod genAccounts
      genBalances = .ok out1)
    (h2 : templateAppState (env.atTime t2) chainID stakeDenom unbondingPeriod genAccounts
      genBalances = .ok out2) :
    ∃ raw m m1 m2 b1 b2,
      composeTemplate env genAccounts genBalances = .ok raw
      ∧ env.lib.jsonUnmarshal (some raw) = .ok m
      ∧ env.lib.jsonMarshal m1 = .ok b1 ∧ out1 = some b1
      ∧ env.lib.jsonMarshal m2 = .ok b2 ∧ out2 = some b2
      ∧ m1.map Prod.fst = m2.map Prod.fst
      ∧ (∀ k, k ≠ mintModuleName → m1.get k = m2.get k)
      ∧ (∀ bz, m.get mintModuleName = some bz →
          ∃ st o1 o2, env.cdc.UnmarshalMint bz = .ok st
            ∧ env.cdc.MustMarshalMint
                { Params := { MintDenom := stakeDenom, StartTime := t1,
                              Other := st.Params.Other },
                  Other := st.Other } = .ok o1
            ∧ env.cdc.MustMarshalMint
                { Params := { MintDenom := stakeDenom, StartTime := t2,
                              Other := st.Params.Other },
                  Other := st.Other } = .ok o2
            ∧ m1.get mintModuleName = some o1 ∧ m2.get mintModuleName = some o2)
      ∧ (m.get mintModuleName = none → out1 = out2)
      ∧ (t1 = t2 → out1 = out2) := by
  obtain ⟨raw, m, m1, b1, c1, u1, g1, j1, rfl⟩ := templateAppState_ok h1
  obtain ⟨raw', m', m2, b2, c2, u2, g2, j2, rfl⟩ := templateAppState_ok h2
  have c1' : composeTemplate env genAccounts genBalances = .ok raw := c1
  have c2' : composeTemplate env genAccounts genBalances = .ok raw' := c2
  rw [c1'] at c2'
  cases c2'
  have u1' : env.lib.jsonUnmarshal (some raw) = .ok m := u1
  have u2' : env.lib.jsonUnmarshal (some raw) = .ok m' := u2
  rw [u1'] at u2'
  cases u2'
  have j1' : env.lib.jsonMarshal m1 = .ok b1 := j1
  have j2' : env.lib.jsonMarshal m2 = .ok b2 := j2
  have g1' : migrateAppState env.cdc { env.lib with timeNow := t1 } stakeDenom
      unbondingPeriod m = .ok m1 := g1
  have g2' : migrateAppState env.cdc { env.lib with timeNow := t2 } stakeDenom
      unbondingPeriod m = .ok m2 := g2
  obtain ⟨hframe, habsent⟩ := migrateAppState_clock g1' g2'
  refine ⟨raw, m, m1, m2, b1, b2, c1', u1', j1', rfl, j2', rfl, ?_, hframe, ?_, ?_, ?_⟩
  · rw [migrateAppState_keys g1', migrateAppState_keys g2']
  · intro bz hbz
    obtain ⟨st, o1, d1, e1, f1⟩ := migrateAppState_mint g1' hbz
    obtain ⟨st', o2, d2, e2, f2⟩ := migrateAppState_mint g2' hbz
    rw [d1] at d2
    cases d2
    exact ⟨st, o1, o2, d1, e1, e2, f1, f2⟩
  · intro hnone
    have := habsent hnone
    subst this
    rw [j1'] at j2'
    cases j2'
    rfl
  · intro ht
    subst ht
    rw [g1'] at g2'
    cases g2'
    rw [j1'] at j2'
    cases j2'
    rfl

/-- Witness of C11 (amended): the two compositions of the counterexample. -/
theorem C11_template_clock_witness :
    ∃ raw m m1 m2 b1 b2,
      composeTemplate timedEnv ["stars1node0"] [demoBalance] = .ok raw
      ∧ timedEnv.lib.jsonUnmarshal (some raw) = .ok m
      ∧ timedEnv.lib.jsonMarshal m1 = .ok b1
      ∧ templateAppState (timedEnv.atTime (1636000000 * Second)) "testnet-1" "ustarx"
          "72h" ["stars1node0"] [demoBalance] = .ok (some b1)
      ∧ timedEnv.lib.jsonMarshal m2 = .ok b2
      ∧ templateAppState (timedEnv.atTime (1636000060 * Second)) "testnet-1" "ustarx"
          "72h" ["stars1node0"] [demoBalance] = .ok (some b2)
      ∧ (∀ k, k ≠ mintModuleName → m1.get k = m2.get k) := by
  obtain ⟨raw, m, m1, m2, b1, b2, a1, a2, a3, a4, a5, a6, _, a8, _⟩ :=
    C11_template_clock timedEnv (1636000000 * Second) (1636000060 * Second) "testnet-1"
      "ustarx" "72h" ["stars1node0"] [demoBalance]
      (templateAppState (timedEnv.atTime (1636000000 * Second)) "testnet-1" "ustarx"
        "72h" ["stars1node0"] [demoBalance]).toOption.join
      (templateAppState (timedEnv.atTime (1636000060 * Second)) "testnet-1" "ustarx"
        "72h" ["stars1node0"] [demoBalance]).toOption.join
      (by decide) (by decide)
  exact ⟨raw, m, m1, m2, b1, b2, a1, a2, a3, by rw [← a4]; decide, a5,
    by rw [← a6]; decide, a8⟩

/-! ### The descriptor -/

/-- After the tabs are replaced, the range body of the template renders, for one node,
the service block `dockerService`. -/
theorem dockerService_eq (node : TestnetNode) (tag : String) :
    String.join (dockerComposeDefinition.replaceTabs.body.map (renderItem node tag))
      = dockerService node tag := by
  have hb : dockerComposeDefinition.replaceTabs.body =
      [.text "\n  ", .nodeName,
       .text ":\n    image: publicawesome/stargaze:", .tag,
       .text "\n    restart: always\n    ports:\n      - ", .outsidePortRange,
       .text ":", .insidePortRange,
       .text "\n      - ", .apiPort,
       .text ":1317\n      - ", .grpcPort,
       .text ":9090\n    volumes:\n      - ./", .nodeName,
       .text "/starsd:/data/.starsd/\n"] := by decide
  rw [hb]
  simp [String.join, renderItem, dockerService]

/-- The function `docker` returns the execution of the template of the source. -/
theorem docker_eq_execute (nodes : List TestnetNode) (tag : String) :
    docker nodes tag = .ok (executeTemplate dockerComposeDefinition.replaceTabs nodes tag) := by
  have hbefore : dockerComposeDefinition.replaceTabs.before
      = "# Stargaze Testnet\nversion: '3.1'\nservices:" := by decide
  have hafter : dockerComposeDefinition.replaceTabs.after = "\n" := by decide
  have hfun : (fun node => String.join
      (dockerComposeDefinition.replaceTabs.body.map (renderItem node tag)))
      = (fun node => dockerService node tag) := funext (fun node => dockerService_eq node tag)
  unfold docker executeTemplate
  rw [hbefore, hafter, hfun]

/-- C12: for every node list and image tag, `docker` succeeds; its result is the
execution of the template of the source: the header, then exactly one service block per
node, in list order, then a newline.  The block of a node names the image
`publicawesome/stargaze:<tag>`, maps the host port range of the node to its inside range,
its API port to 1317 and its gRPC port to 9090, and mounts `./<name>/starsd`.  For the two
nodes built from the starting port 26656 and the tag `v1` the result has two blocks, with
the host ranges 26656-26658 and 26661-26663 and the image `publicawesome/stargaze:v1`. -/
theorem C12_docker_render (nodes : List TestnetNode) (tag : String) :
    docker nodes tag = .ok (executeTemplate dockerComposeDefinition.replaceTabs nodes tag)
    ∧ docker nodes tag
        = .ok ("# Stargaze Testnet\nversion: '3.1'\nservices:"
            ++ String.join (nodes.map (fun node => dockerService node tag)) ++ "\n")
    ∧ (nodes.map (fun node => dockerService node tag)).length = nodes.length
    ∧ (∀ node : TestnetNode, dockerService node tag
        = "\n  " ++ node.Name ++ ":\n    image: publicawesome/stargaze:" ++ tag
          ++ "\n    restart: always\n    ports:\n      - "
          ++ node.OutsidePortRange ++ ":" ++ node.InsidePortRange
          ++ "\n      - " ++ node.APIPort ++ ":1317\n      - " ++ node.GRPCPort
          ++ ":9090\n    volumes:\n      - ./" ++ node.Name ++ "/starsd:/data/.starsd/\n")
    ∧ docker (nodesFor "node" 2) "v1"
        = .ok ("# Stargaze Testnet\nversion: '3.1'\nservices:"
            ++ "\n  node0:\n    image: publicawesome/stargaze:v1\n    restart: always"
            ++ "\n    ports:\n      - 26656-26658:26656-26658\n      - 26659:1317"
            ++ "\n      - 26660:9090\n    volumes:\n      - ./node0/starsd:/data/.starsd/\n"
            ++ "\n  node1:\n    image: publicawesome/stargaze:v1\n    restart: always"
            ++ "\n    ports:\n      - 26661-26663:26656-26658\n      - 26664:1317"
            ++ "\n      - 26665:9090\n    volumes:\n      - ./node1/starsd:/data/.starsd/\n"
            ++ "\n") := by
  refine ⟨docker_eq_execute nodes tag, rfl, by simp, fun node => rfl, by decide⟩

/-! ### The hub snapshot -/

theorem GoMap.find_insert_same {α : Type} (m : GoMap α) (k : String) (v : α) :
    (m.insert k v).find k = some v := by
  induction m with
  | nil => simp [GoMap.insert, GoMap.find]
  | cons e rest ih =>
    obtain ⟨k', v'⟩ := e
    by_cases hk : k' = k
    · simp [GoMap.insert, GoMap.find, hk]
    · simp [GoMap.insert, GoMap.find, hk, ih]

theorem GoMap.find_insert_ne {α : Type} (m : GoMap α) (k k2 : String) (v : α)
    (hne : k ≠ k2) : (m.insert k v).find k2 = m.find k2 := by
  induction m with
  | nil => simp [GoMap.insert, GoMap.find, hne]
  | cons e rest ih =>
    obtain ⟨k', v'⟩ := e
    by_cases hk : k' = k
    · subst hk
      simp [GoMap.insert, GoMap.find, hne]
    · by_cases hk2 : k' = k2
      · subst hk2
        simp [GoMap.insert, GoMap.find, hk]
      · simp [GoMap.insert, GoMap.find, hk, hk2, ih]

/-- The function `isIn` decides membership in the list: it looks at every element. -/
theorem isIn_iff_mem (s : String) (ss : List String) : isIn s ss = true ↔ s ∈ ss := by
  induction ss with
  | nil => simp [isIn]
  | cons t ss ih =>
    unfold isIn
    by_cases ht : t = s
    · simp [ht]
    · have hts : ¬ s = t := fun e => ht e.symm
      simp [ht, hts, ih]

theorem isIn_eq_false_iff (s : String) (ss : List String) : isIn s ss = false ↔ s ∉ ss := by
  rw [← isIn_iff_mem]
  simp

/-- A delegation to a validator of the exclusion list leaves the state alone. -/
theorem snapshotStep_excluded (lib : DecLib) (validators : GoMap Validator)
    (exchanges : List String) (st : SnapshotState) (d : Delegation)
    (hex : d.ValidatorAddress ∈ exchanges) :
    snapshotStep lib validators exchanges st d = .ok st := by
  simp [snapshotStep, (isIn_iff_mem _ _).2 hex]

/-- What a successful iteration on a delegation to a validator outside the exclusion list
does to the two maps. -/
theorem snapshotStep_ok {lib : DecLib} {validators : GoMap Validator}
    {exchanges : List String} {st st' : SnapshotState} {d : Delegation}
    (hmem : d.ValidatorAddress ∉ exchanges)
    (h : snapshotStep lib validators exchanges st d = .ok st') :
    st'.amounts = st.amounts.insert d.DelegatorAddress
        ((st.amounts.find d.DelegatorAddress).getD 0 + convertedAmount lib validators d)
    ∧ ((NewDec 5 ≤ (st.amounts.find d.DelegatorAddress).getD 0
            + convertedAmount lib validators d) →
        ∃ acc, st'.snapshotAccs = st.snapshotAccs.insert d.DelegatorAddress acc
          ∧ acc.AtomStaker = true
          ∧ acc.AtomAddress = ((st.snapshotAccs.find d.DelegatorAddress).getD
              { AtomAddress := d.DelegatorAddress, AtomStaker := false,
                StargazeDelegator := false }).AtomAddress)
    ∧ (¬ (NewDec 5 ≤ (st.amounts.find d.DelegatorAddress).getD 0
            + convertedAmount lib validators d) →
        ¬ (NewDec 5 ≤ convertedAmount lib validators d) →
        st'.snapshotAccs = st.snapshotAccs) := by
  have hex : isIn d.ValidatorAddress exchanges = false := (isIn_eq_false_iff _ _).2 hmem
  unfold snapshotStep at h
  simp only [hex, Bool.false_eq_true, if_false] at h
  split at h
  · cases h
  rename_i val hval
  split at h
  · cases h
  rename_i tokens htok
  split at h
  · cases h
  rename_i x hx
  have hconv : convertedAmount lib validators d = x := by
    simp [convertedAmount, hval, htok, hx]
  have hcur : (match st.amounts.find d.DelegatorAddress with
      | some current => current
      | none => (0 : Dec)) = (st.amounts.find d.DelegatorAddress).getD 0 := by
    cases st.amounts.find d.DelegatorAddress <;> rfl
  have hacc : (match st.snapshotAccs.find d.DelegatorAddress with
      | some acc => acc
      | none => ({ AtomAddress := d.DelegatorAddress, AtomStaker := false,
                   StargazeDelegator := false } : HubSnapshotAccount))
      = (st.snapshotAccs.find d.DelegatorAddress).getD
          { AtomAddress := d.DelegatorAddress, AtomStaker := false,
            StargazeDelegator := false } := by
    cases st.snapshotAccs.find d.DelegatorAddress <;> rfl
  rw [hcur, hacc] at h
  unfold DecLib.Add at h
  split at h
  · cases h
  rename_i newAmount hadd
  split at hadd
  · simp only [Except.ok.injEq] at hadd
    subst hadd
    simp only [Except.ok.injEq] at h
    subst h
    rw [hconv]
    refine ⟨rfl, ?_, ?_⟩
    · intro hs
      simp only [hs, decide_True, Bool.or_true, if_true]
      by_cases hg : d.ValidatorAddress = stargazeValidator ∧ NewDec 5 ≤ x
      · simp only [hg.1, hg.2, decide_True, Bool.and_self, if_true]
        exact ⟨_, rfl, rfl, rfl⟩
      · have : (decide (d.ValidatorAddress = stargazeValidator) && decide (NewDec 5 ≤ x))
            = false := by
          simpa [Bool.and_eq_false_iff] using hg
        simp only [this, Bool.false_eq_true, if_false]
        exact ⟨_, rfl, rfl, rfl⟩
    · intro hs hx5
      simp [hs, hx5]
  · cases hadd

/-- An iteration on a delegation outside the exclusion list, with a non-negative
converted amount, keeps the invariant, the total of the delegator growing by the
amount. -/
theorem snapshotStep_inv {lib : DecLib} {validators : GoMap Validator}
    {exchanges : List String} {st st' : SnapshotState} {d : Delegation}
    {T : String → Dec} (hinv : SnapshotInv T st)
    (hex : d.ValidatorAddress ∉ exchanges)
    (hnn : 0 ≤ convertedAmount lib validators d)
    (h : snapshotStep lib validators exchanges st d = .ok st') :
    SnapshotInv (fun a => T a
      + (if d.DelegatorAddress = a then convertedAmount lib validators d else 0)) st' := by
  obtain ⟨i1, i2, i3, i4⟩ := hinv
  obtain ⟨hamt, hyes, hno⟩ := snapshotStep_ok hex h
  have hcur := i2 d.DelegatorAddress
  rw [hcur] at hamt hyes hno
  refine ⟨?_, ?_, ?_, ?_⟩
  · intro a
    have := i1 a
    dsimp only
    split
    · linarith
    · linarith
  · intro a
    rw [hamt]
    by_cases ha : d.DelegatorAddress = a
    · subst ha
      simp [GoMap.find_insert_same]
    · rw [GoMap.find_insert_ne _ _ _ _ ha, i2 a]
      simp [ha]
  · intro a
    by_cases ha : d.DelegatorAddress = a
    · subst ha
      simp only [if_true]
      by_cases hs : NewDec 5 ≤ T d.DelegatorAddress + convertedAmount lib validators d
      · obtain ⟨acc, hacc, _, _⟩ := hyes hs
        rw [hacc, GoMap.find_insert_same]
        simp [hs]
      · have hx5 : ¬ (NewDec 5 ≤ convertedAmount lib validators d) := by
          have := i1 d.DelegatorAddress
          intro h5
          exact hs (by linarith)
        rw [hno hs hx5, i3 d.DelegatorAddress]
        constructor
        · intro h5
          exact absurd (by linarith) hs
        · intro h5
          exact absurd h5 hs
    · simp only [ha, if_false, add_zero]
      by_cases hs : NewDec 5 ≤ T d.DelegatorAddress + convertedAmount lib validators d
      · obtain ⟨acc, hacc, _, _⟩ := hyes hs
        rw [hacc, GoMap.find_insert_ne _ _ _ _ ha]
        exact i3 a
      · have hx5 : ¬ (NewDec 5 ≤ convertedAmount lib validators d) := by
          have := i1 d.DelegatorAddress
          intro h5
          exact hs (by linarith)
        rw [hno hs hx5]
        exact i3 a
  · intro a acc hfind
    by_cases hs : NewDec 5 ≤ T d.DelegatorAddress + convertedAmount lib validators d
    · obtain ⟨acc', hacc, hst, haddr⟩ := hyes hs
      rw [hacc] at hfind
      by_cases ha : d.DelegatorAddress = a
      · subst ha
        rw [GoMap.find_insert_same] at hfind
        cases hfind
        refine ⟨hst, ?_⟩
        rw [haddr]
        cases hold : st.snapshotAccs.find d.DelegatorAddress with
        | none => rfl
        | some old => exact (i4 _ old hold).2
      · rw [GoMap.find_insert_ne _ _ _ _ ha] at hfind
        exact i4 a acc hfind
    · have hx5 : ¬ (NewDec 5 ≤ convertedAmount lib validators d) := by
        have := i1 d.DelegatorAddress
        intro h5
        exact hs (by linarith)
      rw [hno hs hx5] at hfind
      exact i4 a acc hfind

/-- The loop keeps the invariant, the totals growing by the sums `stakedTotal`. -/
theorem snapshotLoop_inv {lib : DecLib} {validators : GoMap Validator}
    {exchanges : List String} (ds : List Delegation) :
    ∀ (T : String → Dec) (st st' : SnapshotState), SnapshotInv T st →
      (∀ d, d ∈ ds → d.ValidatorAddress ∉ exchanges →
        0 ≤ convertedAmount lib validators d) →
      snapshotLoop lib validators exchanges st ds = .ok st' →
      SnapshotInv (fun a => T a + stakedTotal lib validators exchanges a ds) st' := by
  induction ds with
  | nil =>
    intro T st st' hinv _ h
    simp only [snapshotLoop, Except.ok.injEq] at h
    subst h
    simpa [stakedTotal] using hinv
  | cons d rest ih =>
    intro T st st' hinv hnn h
    unfold snapshotLoop at h
    split at h
    · cases h
    rename_i st1 hstep
    have hrest : ∀ d', d' ∈ rest → d'.ValidatorAddress ∉ exchanges →
        0 ≤ convertedAmount lib validators d' :=
      fun d' hd' => hnn d' (List.mem_cons_of_mem _ hd')
    by_cases hex : d.ValidatorAddress ∈ exchanges
    · rw [snapshotStep_excluded lib validators exchanges st d hex] at hstep
      cases hstep
      have e : (fun a => T a + stakedTotal lib validators exchanges a (d :: rest))
          = (fun a => T a + stakedTotal lib validators exchanges a rest) := by
        funext a
        simp [stakedTotal, hex]
      rw [e]
      exact ih T st st' hinv hrest h
    · have hstepInv := snapshotStep_inv hinv hex
        (hnn d (List.mem_cons_self _ _) hex) hstep
      have := ih _ st1 st' hstepInv hrest h
      have e : (fun a => T a + stakedTotal lib validators exchanges a (d :: rest))
          = (fun a => T a
              + (if d.DelegatorAddress = a then convertedAmount lib validators d else 0)
              + stakedTotal lib validators exchanges a rest) := by
        funext a
        simp [stakedTotal, hex, add_assoc]
      rw [e]
      exact this

/-- Delegations to validators of the exclusion list can be dropped from the input. -/
theorem snapshotLoop_filter (lib : DecLib) (validators : GoMap Validator)
    (exchanges : List String) (ds : List Delegation) :
    ∀ st, snapshotLoop lib validators exchanges st ds
      = snapshotLoop lib validators exchanges st
          (ds.filter (fun d => decide (d.ValidatorAddress ∉ exchanges))) := by
  induction ds with
  | nil => intro st; rfl
  | cons d rest ih =>
    intro st
    by_cases hex : d.ValidatorAddress ∈ exchanges
    · simp only [List.filter, hex, not_true_eq_false, decide_False]
      rw [← ih st]
      simp [snapshotLoop, snapshotStep_excluded lib validators exchanges st d hex]
    · simp only [List.filter, hex, not_false_eq_true, decide_True]
      unfold snapshotLoop
      cases snapshotStep lib validators exchanges st d with
      | error err => rfl
      | ok st1 => exact ih st1

theorem stakedTotal_filter (lib : DecLib) (validators : GoMap Validator)
    (exchanges : List String) (a : String) (ds : List Delegation) :
    stakedTotal lib validators exchanges a
        (ds.filter (fun d => decide (d.ValidatorAddress ∉ exchanges)))
      = stakedTotal lib validators exchanges a ds := by
  induction ds with
  | nil => rfl
  | cons d rest ih =>
    by_cases hex : d.ValidatorAddress ∈ exchanges
    · simp only [List.filter, hex, not_true_eq_false, decide_False]
      rw [ih]
      simp [stakedTotal, hex]
    · simp only [List.filter, hex, not_false_eq_true, decide_True]
      simp only [stakedTotal, hex, not_false_eq_true, true_and]
      rw [ih]

theorem snapshotInv_init :
    SnapshotInv (fun _ => 0)
      { amounts := [], snapshotAccs := [], stakers := 0, delegators := 0 } := by
  refine ⟨fun _ => le_refl _, fun _ => rfl, fun a => ?_, fun a acc h => ?_⟩
  · simp [GoMap.find, NewDec]
  · simp [GoMap.find] at h

/-- C13: in the hub snapshot aggregation, for every list of delegations whose converted
amounts are non-negative and every exclusion list, when the aggregation returns: an
address is in the snapshot if and only if the sum of its delegations to validators that
are not members of the exclusion list is at least five; every account of the snapshot has
`AtomStaker` set and sits under its own address; `StargazeDelegator` set implies
`AtomStaker` set; the map of amounts holds those sums; the function `isIn` of the code
answers true exactly for the members of the list; and the delegations to excluded
validators contribute nothing: each of them leaves the state of the loop as it is, and
dropping them from the input changes neither the result nor any sum. -/
theorem C13_hub_snapshot (lib : DecLib) (validators : List Validator)
    (delegations : List Delegation) (exchanges : List String) (st : SnapshotState)
    (hnn : ∀ d, d ∈ delegations → d.ValidatorAddress ∉ exchanges →
      0 ≤ convertedAmount lib (validatorMap validators) d)
    (h : hubSnapshot lib validators delegations exchanges = .ok st) :
    (∀ a, (st.snapshotAccs.find a).isSome = true
        ↔ NewDec 5 ≤ stakedTotal lib (validatorMap validators) exchanges a delegations)
    ∧ (∀ a acc, st.snapshotAccs.find a = some acc →
        acc.AtomStaker = true ∧ acc.AtomAddress = a)
    ∧ (∀ a acc, st.snapshotAccs.find a = some acc → acc.StargazeDelegator = true →
        acc.AtomStaker = true)
    ∧ (∀ a, (st.amounts.find a).getD 0
        = stakedTotal lib (validatorMap validators) exchanges a delegations)
    ∧ (∀ s, isIn s exchanges = true ↔ s ∈ exchanges)
    ∧ (∀ d st0, d.ValidatorAddress ∈ exchanges →
        snapshotStep lib (validatorMap validators) exchanges st0 d = .ok st0)
    ∧ hubSnapshot lib validators
        (delegations.filter (fun d => decide (d.ValidatorAddress ∉ exchanges))) exchanges
        = .ok st
    ∧ (∀ a, stakedTotal lib (validatorMap validators) exchanges a
          (delegations.filter (fun d => decide (d.ValidatorAddress ∉ exchanges)))
        = stakedTotal lib (validatorMap validators) exchanges a delegations) := by
  unfold hubSnapshot at h ⊢
  have hinv := snapshotLoop_inv delegations (fun _ => 0) _ st snapshotInv_init hnn h
  obtain ⟨_, i2, i3, i4⟩ := hinv
  simp only [zero_add] at i2 i3
  refine ⟨i3, i4, fun a acc hf _ => (i4 a acc hf).1, i2, fun s => isIn_iff_mem s exchanges,
    fun d st0 hd => snapshotStep_excluded lib _ exchanges st0 d hd, ?_, ?_⟩
  · rw [← snapshotLoop_filter]
    exact h
  · intro a
    exact stakedTotal_filter _ _ _ _ _

/-- Witness of C13: the toy delegations with the exclusion list of two exchanges.  Alice
(3 + 3) and dave (7, to the stargaze validator) are in the snapshot; bob (4), carol
(10, to the first exchange) and erin (10 to the second exchange, 2 elsewhere) are not. -/
theorem C13_hub_snapshot_witness :
    hubSnapshot demoDecLib demoValidators demoDelegations demoExchanges
      = .ok demoSnapshotState
    ∧ (demoSnapshotState.snapshotAccs.find "alice").isSome = true
    ∧ (demoSnapshotState.snapshotAccs.find "dave").isSome = true
    ∧ ¬ (demoSnapshotState.snapshotAccs.find "bob").isSome = true
    ∧ ¬ (demoSnapshotState.snapshotAccs.find "carol").isSome = true
    ∧ ¬ (demoSnapshotState.snapshotAccs.find "erin").isSome = true
    ∧ (demoSnapshotState.amounts.find "erin").getD 0 = NewDec 2 := by
  have h := C13_hub_snapshot demoDecLib demoValidators demoDelegations demoExchanges
    demoSnapshotState (by decide) (by decide)
  exact ⟨by decide, (h.1 "alice").mpr (by decide), (h.1 "dave").mpr (by decide),
    fun hb => absurd ((h.1 "bob").mp hb) (by decide),
    fun hc => absurd ((h.1 "carol").mp hc) (by decide),
    fun he => absurd ((h.1 "erin").mp he) (by decide),
    by rw [h.2.2.2.1 "erin"]; decide⟩

end Stargaze
